import Mathlib

/-!
# Overte script engine core (ScriptEngineV8.cpp): a shallow embedding

The embedding follows `libraries/script-engine/src/v8/ScriptEngineV8.cpp`.

* The V8 heap is a list of objects addressed by index; a `v8::Local<v8::Object>` is an
  index into it, so that handles alias exactly as they do in the runtime.
* An object is a list of properties in insertion order.  Only own properties are
  modelled (no prototype chain), and reads of accessor properties, which run native
  getter code, yield an empty `MaybeLocal`.
* `Q_ASSERT(c)` with `c` false is recorded in `failedAsserts`; execution then goes on
  as in a build without assertions, and stops at that point where going on would
  dereference an empty handle or an empty list.
* A compiled script is its behaviour: a function from the heap and the global object it
  is run against to the heap after the run and the run's result.
* What a registered path reads as, and what the names of a closure evaluation are bound
  to, depends on inherited and read-only properties and on the built-ins of a new
  context.  The statements about them are made over a second embedding of the same
  functions, in namespace `Realm`, whose objects have a prototype, whose properties can
  be read-only, whose accessors run, and whose new contexts have built-ins.
-/

namespace Overte

/-! ## Runtime values and the heap -/

/-- Index of an object in the heap: what a `v8::Local<v8::Object>` points to. -/
abbrev ObjId := Nat

/-- Identity of a `QThread`. -/
abbrev QThread := Nat

/-- Address of a native `QObject`. -/
abbrev QObjectPtr := Nat

/-- A native function pointer of type `ScriptEngine::FunctionSignature`. -/
abbrev FunctionSignature := Nat

/-- Address of a `ScriptEngineV8` instance. -/
abbrev EnginePtr := Nat

/-- A `v8::Local<v8::Value>`: `empty` is the empty handle, the others are
runtime values; objects (plain objects, proxies, functions) live in the heap. -/
inductive Value where
  | empty
  | undefined
  | null
  | boolean (b : Bool)
  | integer (n : Int)
  | string (s : String)
  | object (id : ObjId)
  deriving DecidableEq, Repr

/-- `v8::Value::IsUndefined`. -/
def Value.IsUndefined : Value → Bool
  | .undefined => true
  | _ => false

/-- What a property holds: a data value, or a getter/setter pair installed with
`DefineProperty`. -/
inductive Slot where
  | data (value : Value)
  | accessor (getter setter : Value)
  deriving DecidableEq, Repr

/-- One own property of an object. -/
structure Property where
  key : String
  slot : Slot
  enumerable : Bool
  deriving DecidableEq, Repr

/-- What kind of object a heap cell is.  All of them answer `IsObject`. -/
inductive ObjectKind where
  | plain
  | qobjectProxy (object : QObjectPtr)
  | functionData (slot0 : FunctionSignature) (slot1 : EnginePtr)
  | function (data : ObjId) (length : Int)
  deriving DecidableEq, Repr

/-- A heap cell. -/
structure JSObject where
  kind : ObjectKind
  properties : List Property
  deriving DecidableEq, Repr

/-- The isolate's heap. -/
abbrev Heap := List JSObject

/-- The property called `key`, if the object has one. -/
def findProperty (props : List Property) (key : String) : Option Property :=
  props.find? (fun p => p.key == key)

/-- Property list after `Set(key, value)`: an existing data property gets the new value
in place, an accessor property keeps its slot (its setter runs), a new property is
appended as an enumerable data property. -/
def setProperty : List Property → String → Value → List Property
  | [], key, value => [{ key := key, slot := .data value, enumerable := true }]
  | p :: ps, key, value =>
    if p.key == key then
      (match p.slot with
        | .data _ => { p with slot := .data value }
        | .accessor _ _ => p) :: ps
    else p :: setProperty ps key value

/-- Property list after `DefineProperty(key, PropertyDescriptor(getter, setter))`: an
existing property becomes an accessor and keeps its enumerability, a new one is a
non-enumerable accessor. -/
def defineAccessor : List Property → String → Value → Value → List Property
  | [], key, getter, setter => [{ key := key, slot := .accessor getter setter, enumerable := false }]
  | p :: ps, key, getter, setter =>
    if p.key == key then { p with slot := .accessor getter setter } :: ps
    else p :: defineAccessor ps key getter setter

namespace Heap

/-- `v8::Object::New(isolate)` and its relatives: a new cell without properties. -/
def alloc (h : Heap) (kind : ObjectKind) : Heap × ObjId :=
  (h ++ [{ kind := kind, properties := [] }], h.length)

/-- `object->Get(context, key)`, a `MaybeLocal<Value>`: the value of a data property,
`undefined` for a missing property, and empty for an accessor property. -/
def Get (h : Heap) (object : ObjId) (key : String) : Option Value :=
  match h[object]? with
  | none => some .undefined
  | some o =>
    match findProperty o.properties key with
    | none => some .undefined
    | some p =>
      match p.slot with
      | .data v => some v
      | .accessor _ _ => none

/-- `object->Set(context, key, value).FromMaybe(false)`: the heap after the write and
whether the write was done. -/
def Set (h : Heap) (object : ObjId) (key : String) (value : Value) : Heap × Bool :=
  match h[object]? with
  | none => (h, false)
  | some o => (h.set object { o with properties := setProperty o.properties key value }, true)

/-- `object->DefineProperty(context, key, descriptor).FromMaybe(false)`. -/
def DefineProperty (h : Heap) (object : ObjId) (key : String) (getter setter : Value) :
    Heap × Bool :=
  match h[object]? with
  | none => (h, false)
  | some o =>
    (h.set object { o with properties := defineAccessor o.properties key getter setter }, true)

/-- `object->GetPropertyNames(context)`: the names of the enumerable properties, in
insertion order. -/
def GetPropertyNames (h : Heap) (object : ObjId) : List String :=
  match h[object]? with
  | none => []
  | some o => (o.properties.filter (fun p => p.enumerable)).map (fun p => p.key)

end Heap

/-- `QString::split(sep)` with its default behaviour (empty parts are kept), on the
characters that remain and the part read so far (reversed). -/
def splitAux (sep : Char) : List Char → List Char → List String
  | [], acc => [String.mk acc.reverse]
  | c :: cs, acc =>
    if c = sep then String.mk acc.reverse :: splitAux sep cs []
    else splitAux sep cs (c :: acc)

/-- `QString::split(sep)` for a one-character separator. -/
def split (s : String) (sep : Char) : List String :=
  splitAux sep s.data []

/-! ## Values, programs and exception records that cross the engine boundary -/

/-- Modelled from the spec: `ScriptValue` (declared in ScriptValue.h), the engine-tagged
handle of section 3.  `v8` is a value wrapped by `ScriptValueV8Wrapper` for this engine,
`foreign` a value of another engine, `invalid` a default-constructed `ScriptValue`. -/
inductive ScriptValue where
  | v8 (value : Value)
  | foreign
  | invalid
  deriving DecidableEq, Repr

/-- Modelled from the spec: `ScriptValueV8Wrapper::unwrap`, "recovers the underlying
native representation, or null if the Value is foreign/invalid". -/
def ScriptValueV8Wrapper.unwrap : ScriptValue → Option Value
  | .v8 value => some value
  | _ => none

/-- Modelled from the spec: `ScriptValueV8Wrapper::fullUnwrap`, which always yields a
runtime value; a value that is not of this engine comes out as `undefined`. -/
def ScriptValueV8Wrapper.fullUnwrap : ScriptValue → Value
  | .v8 value => value
  | _ => .undefined

/-- A `v8::Message`: the text, line and start column of an error. -/
structure Message where
  text : String
  lineNumber : Int
  startColumn : Int
  deriving DecidableEq, Repr

/-- What a `v8::TryCatch` holds after the guarded call. -/
structure TryCatch where
  HasCaught : Bool
  Exception : Value
  Message : Option Message
  StackTrace : Option Value
  deriving DecidableEq, Repr

/-- A `v8::TryCatch` that caught nothing. -/
def TryCatch.none : TryCatch :=
  { HasCaught := false, Exception := .empty, Message := Option.none, StackTrace := Option.none }

/-- Result of `script->Run(context)`: the heap after the run, the `MaybeLocal` result
(empty when the script threw) and the surrounding `v8::TryCatch`. -/
structure RunOutcome where
  heap : Heap
  result : Option Value
  tryCatch : TryCatch

/-- A compiled `v8::Script`, given by what running it does to the heap when it is run
against a global object. -/
structure V8Script where
  Run : Heap → ObjId → RunOutcome

/-- Result of `v8::Script::Compile`: the script, or nothing and a `TryCatch` that holds
the error. -/
structure CompileOutcome where
  script : Option V8Script
  tryCatch : TryCatch

/-- The embedded runtime's compiler, `v8::Script::Compile(context, source, origin)`, as a
function of the source text and the file name of the origin. -/
structure V8 where
  Compile : String → String → CompileOutcome

/-- Modelled from the spec: `ScriptSyntaxCheckResult::State` (ScriptProgram.h). -/
inductive SyntaxCheckState where
  | Error
  | Intermediate
  | Valid
  deriving DecidableEq, Repr

/-- Modelled from the spec: `ScriptSyntaxCheckResult` (ScriptProgram.h), "either valid
or a structured error carrying message, line, column" and a backtrace. -/
structure ScriptSyntaxCheckResult where
  state : SyntaxCheckState
  errorMessage : String
  errorLineNumber : Int
  errorColumnNumber : Int
  errorBacktrace : String
  deriving DecidableEq, Repr

/-- Modelled from the spec: `ScriptProgramV8Wrapper` (ScriptProgramV8Wrapper.h), "a
named, source-text-backed compilation unit".  `compile` is the result of `compile()`,
`checkSyntax` that of `checkSyntax()`, `script` is `toV8Value()`. -/
structure ScriptProgramV8Wrapper where
  fileName : String
  sourceCode : String
  compile : Bool
  checkSyntax : ScriptSyntaxCheckResult
  script : V8Script

/-- A `ScriptProgramPointer`: a program of this engine, or one that
`ScriptProgramV8Wrapper::unwrap` does not recognise. -/
inductive ScriptProgramPointer where
  | v8 (program : ScriptProgramV8Wrapper)
  | foreign

/-- `ScriptProgramV8Wrapper::unwrap`. -/
def ScriptProgramV8Wrapper.unwrap : ScriptProgramPointer → Option ScriptProgramV8Wrapper
  | .v8 program => some program
  | .foreign => none

/-- Which class an exception record is: `ScriptEngineException` for failures found by
host code, `ScriptRuntimeException` for errors caught from the runtime. -/
inductive ScriptExceptionKind where
  | engine
  | runtime
  deriving DecidableEq, Repr

/-- Modelled from the spec: `ScriptException` and its subclasses (ScriptException.h),
"error message, source line/column, backtrace, the thrown value, and free-form
diagnostic text".  Line and column are 0 until set. -/
structure ScriptException where
  kind : ScriptExceptionKind
  errorMessage : String
  additionalInfo : String
  errorLine : Int
  errorColumn : Int
  backtrace : List String
  thrownValue : Option ScriptValue
  deriving DecidableEq, Repr

/-- Modelled from the spec: `ScriptException::clone` (ScriptException.h), "constructing a
new immutable record with the same field values". -/
def ScriptException.clone (e : ScriptException) : ScriptException :=
  { e with }

/-- Modelled from the spec: `QMetaEnum` (Qt), an enum descriptor: whether it is valid,
and its symbolic constants with their values, in declaration order. -/
structure QMetaEnum where
  valid : Bool
  keys : List (String × Int)
  deriving DecidableEq, Repr

/-- `QMetaEnum::isValid`. -/
def QMetaEnum.isValid (e : QMetaEnum) : Bool := e.valid

/-- `QMetaEnum::keyCount`. -/
def QMetaEnum.keyCount (e : QMetaEnum) : Nat := e.keys.length

/-- `QMetaEnum::key(index)`. -/
def QMetaEnum.key (e : QMetaEnum) (index : Nat) : String :=
  match e.keys[index]? with
  | some k => k.1
  | none => ""

/-- `QMetaEnum::keyToValue(key)`: the value of the first constant of that name, -1 when
there is none. -/
def QMetaEnum.keyToValue (e : QMetaEnum) (key : String) : Int :=
  match e.keys.find? (fun k => k.1 == key) with
  | some k => k.2
  | none => -1

/-! ## The engine -/

/-- A `ScriptContextV8Wrapper`: a `v8::Context`, known by its global object. -/
structure ScriptContextV8Wrapper where
  global : ObjId
  deriving DecidableEq, Repr

/-- A call queued for the owning thread by `QMetaObject::invokeMethod(this, ...)`: the
method name and the arguments that the source passes. -/
inductive MetaCall where
  | registerValue (valueName : String) (value : Value)
  | registerGlobalObject (name : String) (object : Option QObjectPtr)
  | registerFunction (name : String) (functionSignature : FunctionSignature) (numArguments : Int)
  | registerGetterSetter (name : String) (getter setter : FunctionSignature) (parent : String)
  deriving DecidableEq, Repr

/-- The state of a `ScriptEngineV8` and of its isolate. -/
structure ScriptEngineV8 where
  /-- Address of this engine, as stored in function data. -/
  self : EnginePtr
  /-- The owning thread, `QObject::thread()`. -/
  thread : QThread
  /-- The heap of `_v8Isolate`. -/
  heap : Heap
  _contexts : List ScriptContextV8Wrapper
  _evaluatingCounter : Int
  _uncaughtException : Option ScriptException
  /-- The persistent handle `_globalObjectContents`; `areGlobalObjectContentsStored` is
  set exactly when it is. -/
  _globalObjectContents : Option ObjId
  /-- Whether `_functionDataTemplate` has been created. -/
  _functionDataTemplate : Bool
  /-- The function-local `static volatile int debug_context_id` of `pushContext`. -/
  debug_context_id : Int
  /-- Exceptions passed to `_v8Isolate->ThrowException`, oldest first. -/
  thrownExceptions : List Value
  /-- Calls queued for the owning thread, oldest first. -/
  postedCalls : List MetaCall
  /-- Records sent with `emit exception(copy)`, oldest first. -/
  emittedExceptions : List ScriptException
  /-- Failed assertions and fatal checks, oldest first. -/
  failedAsserts : List String
  deriving DecidableEq, Repr

/-- The null sentinel `_nullValue`, as returned by `nullValue()`. -/
def nullValue : ScriptValue := .v8 .null

/-- The undefined sentinel `_undefinedValue`, as returned by `undefinedValue()`. -/
def undefinedValue : ScriptValue := .v8 .undefined

/-- `ScriptEngineV8::IS_THREADSAFE_INVOCATION(thread, method)`, given the calling
thread: whether the call is on `thread`, and the assertion that fails when it is not. -/
def IS_THREADSAFE_INVOCATION (currentThread thread : QThread) (method : String) :
    Bool × List String :=
  if currentThread = thread then (true, [])
  else (false, ["Scripting::" ++ method ++ " -- ignoring thread-unsafe call"])

/-- `v8::Context::New(isolate)`: a context with a new global object. -/
def ContextNew (h : Heap) : Heap × ScriptContextV8Wrapper :=
  ((h.alloc .plain).1, { global := (h.alloc .plain).2 })

/-- The constructor `ScriptEngineV8::ScriptEngineV8`: one context on the stack, the
counter at 0, no exception.  (`registerSystemTypes()` registers type converters, which
are not part of this state.) -/
def newScriptEngineV8 (self : EnginePtr) (thread : QThread) : ScriptEngineV8 :=
  { self := self
    thread := thread
    heap := (ContextNew []).1
    _contexts := [(ContextNew []).2]
    _evaluatingCounter := 0
    _uncaughtException := none
    _globalObjectContents := none
    _functionDataTemplate := false
    debug_context_id := 1
    thrownExceptions := []
    postedCalls := []
    emittedExceptions := []
    failedAsserts := [] }

namespace ScriptEngineV8

/-- The flag `areGlobalObjectContentsStored`. -/
def areGlobalObjectContentsStored (s : ScriptEngineV8) : Bool :=
  s._globalObjectContents.isSome

/-- Records a failed assertion. -/
def assertFailed (s : ScriptEngineV8) (what : List String) : ScriptEngineV8 :=
  { s with failedAsserts := s.failedAsserts ++ what }

/-- `getContext()`: the top of the context stack, `_contexts.last()`; nothing when the
stack is empty (where the source asserts). -/
def getContext (s : ScriptEngineV8) : Option ScriptContextV8Wrapper :=
  s._contexts.getLast?

/-- `hasUncaughtException()`. -/
def hasUncaughtException (s : ScriptEngineV8) : Bool :=
  s._uncaughtException.isSome

/-- `isEvaluating()`. -/
def isEvaluating (s : ScriptEngineV8) : Bool :=
  decide (s._evaluatingCounter > 0)

/-- `clearExceptions()`. -/
def clearExceptions (s : ScriptEngineV8) : ScriptEngineV8 :=
  { s with _uncaughtException := none }

/-- `uncaughtException()`: a clone of the current record, or nothing. -/
def uncaughtException (s : ScriptEngineV8) : Option ScriptException :=
  match s._uncaughtException with
  | some e => some e.clone
  | none => none

/-- `pushContext(context)`, lines 1151-1163: appends the context, installs
`debug_context_id` in its global object and increments the identifier. -/
def pushContext (s : ScriptEngineV8) (context : ScriptContextV8Wrapper) : ScriptEngineV8 :=
  { s with
    _contexts := s._contexts ++ [context]
    heap := (s.heap.Set context.global "debug_context_id" (.integer s.debug_context_id)).1
    debug_context_id := s.debug_context_id + 1
    failedAsserts := s.failedAsserts
      ++ (if s._contexts.isEmpty then ["Q_ASSERT(!_contexts.isEmpty())"] else [])
      ++ (if (s.heap.Set context.global "debug_context_id" (.integer s.debug_context_id)).2
          then [] else ["Q_ASSERT(false)"]) }

/-- `popContext()`, lines 1165-1168: `Q_ASSERT(!_contexts.isEmpty())`, then
`_contexts.pop_back()`. -/
def popContext (s : ScriptEngineV8) : ScriptEngineV8 :=
  if s._contexts.isEmpty then s.assertFailed ["Q_ASSERT(!_contexts.isEmpty())"]
  else { s with _contexts := s._contexts.dropLast }

/-- Lines 388-413 of `registerValue`: the test for `createProperty` in one iteration and
the block it guards.  A segment that reads as `undefined` (or cannot be read) is
created: as a new object when more segments follow, as `value` when it is the last.
The result is the heap and the assertions that failed. -/
def registerValueCreate (value : Value) (pathPart : String) (partsToGo : Int)
    (partObject : ObjId) (h : Heap) : Heap × List String :=
  let currentPath := h.Get partObject pathPart
  let createProperty :=
    match currentPath with
    | none => true
    | some v => v.IsUndefined
  if createProperty then
    if partsToGo > 0 then
      let partValue := h.alloc .plain
      let r := partValue.1.Set partObject pathPart (.object partValue.2)
      (r.1, if r.2 then [] else ["Q_ASSERT(false)"])
    else
      let r := h.Set partObject pathPart value
      (r.1, if r.2 then [] else ["Q_ASSERT(false)"])
  else (h, [])

/-- The loop of `registerValue`, lines 386-427, from the current `pathPart` on:
`partsToGo` and `partObject` are the loop's variables; the result is the heap and the
assertions that failed. -/
def registerValueLoop (value : Value) :
    List String → Int → ObjId → Heap → Heap × List String
  | [], _, _, h => (h, [])
  | pathPart :: rest, partsToGo, partObject, h =>
    let partsToGo := partsToGo - 1
    let written := registerValueCreate value pathPart partsToGo partObject h
    match written.1.Get partObject pathPart with
    | none =>
      -- the read fails: Q_ASSERT(false); `child` is an empty handle
      if partsToGo > 0 then (written.1, written.2 ++ ["Q_ASSERT(false)"])
      else
        let r := registerValueLoop value rest partsToGo partObject written.1
        (r.1, written.2 ++ ["Q_ASSERT(false)"] ++ r.2)
    | some child =>
      if partsToGo > 0 then
        match child with
        | .object id =>
          let r := registerValueLoop value rest partsToGo id written.1
          (r.1, written.2 ++ r.2)
        | _ =>
          (written.1, written.2
            ++ ["ScriptEngineV8::registerValue: Part of path is not an object: " ++ pathPart])
      else
        let r := registerValueLoop value rest partsToGo partObject written.1
        (r.1, written.2 ++ r.2)

/-- `registerValue(valueName, value)`, lines 367-428. -/
def registerValue (s : ScriptEngineV8) (currentThread : QThread) (valueName : String)
    (value : Value) : ScriptEngineV8 :=
  if currentThread ≠ s.thread then
    { s with postedCalls := s.postedCalls ++ [.registerValue valueName value] }
  else
    match s.getContext with
    | none => s.assertFailed ["Q_ASSERT(!_contexts.isEmpty())"]
    | some context =>
      let pathToValue := split valueName '.'
      let r := registerValueLoop value pathToValue pathToValue.length context.global s.heap
      { s with heap := r.1, failedAsserts := s.failedAsserts ++ r.2 }

/-- The loop of `registerEnum`, lines 360-364, for the indices that remain. -/
def registerEnumLoop (currentThread : QThread) (enumName : String) (newEnum : QMetaEnum) :
    List Nat → ScriptEngineV8 → ScriptEngineV8
  | [], s => s
  | i :: is, s =>
    let keyName := newEnum.key i
    let fullName := enumName ++ "." ++ keyName
    registerEnumLoop currentThread enumName newEnum is
      (s.registerValue currentThread fullName (.integer (newEnum.keyToValue keyName)))

/-- `registerEnum(enumName, newEnum)`, lines 350-365. -/
def registerEnum (s : ScriptEngineV8) (currentThread : QThread) (enumName : String)
    (newEnum : QMetaEnum) : ScriptEngineV8 :=
  if !newEnum.isValid then s
  else
    match s.getContext with
    | none => s.assertFailed ["Q_ASSERT(!_contexts.isEmpty())"]
    | some _ => registerEnumLoop currentThread enumName newEnum (List.range newEnum.keyCount) s

/-- Modelled from the spec: `ScriptObjectV8Proxy::newQObject`, "construct a proxy value
for a native object": a new proxy object in the heap. -/
def newQObject (h : Heap) (object : QObjectPtr) : Heap × Value :=
  ((h.alloc (.qobjectProxy object)).1, .object (h.alloc (.qobjectProxy object)).2)

/-- `registerGlobalObject(name, object)`, lines 430-478. -/
def registerGlobalObject (s : ScriptEngineV8) (currentThread : QThread) (name : String)
    (object : Option QObjectPtr) : ScriptEngineV8 :=
  if currentThread ≠ s.thread then
    { s with postedCalls := s.postedCalls ++ [.registerGlobalObject name object] }
  else
    match s.getContext with
    | none => s.assertFailed ["Q_ASSERT(!_contexts.isEmpty())"]
    | some context =>
      let v8GlobalObject := context.global
      if (s.heap.Get v8GlobalObject name).isSome then
        match object with
        | some o =>
          let value := newQObject s.heap o
          let r := value.1.Set v8GlobalObject name value.2
          { s with heap := r.1
                   failedAsserts := s.failedAsserts ++ (if r.2 then [] else ["Q_ASSERT(false)"]) }
        | none =>
          let r := s.heap.Set v8GlobalObject name .null
          { s with heap := r.1
                   failedAsserts := s.failedAsserts ++ (if r.2 then [] else ["Q_ASSERT(false)"]) }
      else s

/-- `newFunction(fun, length)`, lines 1483-1539: the function data object with its two
internal slots (from the cached template), and the function bound to it. -/
def newFunction (s : ScriptEngineV8) (fn : FunctionSignature) (length : Int) :
    ScriptEngineV8 × ScriptValue :=
  let functionData := s.heap.alloc (.functionData fn s.self)
  let v8Function := functionData.1.alloc (.function functionData.2 length)
  ({ s with heap := v8Function.1, _functionDataTemplate := true }, .v8 (.object v8Function.2))

/-- `registerFunction(name, functionSignature, numArguments)`, lines 480-519. -/
def registerFunction (s : ScriptEngineV8) (currentThread : QThread) (name : String)
    (functionSignature : FunctionSignature) (numArguments : Int) : ScriptEngineV8 :=
  if currentThread ≠ s.thread then
    { s with postedCalls :=
        s.postedCalls ++ [.registerFunction name functionSignature numArguments] }
  else
    match s.getContext with
    | none => s.assertFailed ["Q_ASSERT(!_contexts.isEmpty())"]
    | some context =>
      let scriptFun := s.newFunction functionSignature numArguments
      -- globalObject().setProperty(name, scriptFun)
      { scriptFun.1 with
        heap := (scriptFun.1.heap.Set context.global name
                  (ScriptValueV8Wrapper.fullUnwrap scriptFun.2)).1 }

/-- `registerFunction(parent, name, functionSignature, numArguments)`, lines 521-558.
Off the owning thread the call that is queued is the three-argument one, as in the
source.  `globalObject().property(parent)` followed by `setProperty` writes to the
object that `parent` is bound to, and nothing when it is bound to no object. -/
def registerFunctionInParent (s : ScriptEngineV8) (currentThread : QThread)
    (parent name : String) (functionSignature : FunctionSignature) (numArguments : Int) :
    ScriptEngineV8 :=
  if currentThread ≠ s.thread then
    { s with postedCalls :=
        s.postedCalls ++ [.registerFunction name functionSignature numArguments] }
  else
    match s.getContext with
    | none => s.assertFailed ["Q_ASSERT(!_contexts.isEmpty())"]
    | some context =>
      match s.heap.Get context.global parent with
      | some (.object object) =>
        let scriptFun := s.newFunction functionSignature numArguments
        { scriptFun.1 with
          heap := (scriptFun.1.heap.Set object name
                    (ScriptValueV8Wrapper.fullUnwrap scriptFun.2)).1 }
      | _ => s

/-- `registerGetterSetter(name, getter, setter, parent)`, lines 560-672.  A proxy's
internal field 2, where the source defines the property for a proxy parent, is the
proxy's own property list here. -/
def registerGetterSetter (s : ScriptEngineV8) (currentThread : QThread) (name : String)
    (getter setter : FunctionSignature) (parent : String) : ScriptEngineV8 :=
  if currentThread ≠ s.thread then
    { s with postedCalls := s.postedCalls ++ [.registerGetterSetter name getter setter parent] }
  else
    match s.getContext with
    | none => s.assertFailed ["Q_ASSERT(!_contexts.isEmpty())"]
    | some context =>
      let setterFunction := s.newFunction setter 1
      let getterFunction := setterFunction.1.newFunction getter 0
      let unwrappedGetter := ScriptValueV8Wrapper.fullUnwrap getterFunction.2
      let unwrappedSetter := ScriptValueV8Wrapper.fullUnwrap setterFunction.2
      let s1 := getterFunction.1
      if !parent.isEmpty then
        match s1.heap.Get context.global parent with
        | some (.object v8ParentObject) =>
          { s1 with heap :=
              (s1.heap.DefineProperty v8ParentObject name unwrappedGetter unwrappedSetter).1 }
        | _ => s1
      else
        { s1 with heap :=
            (s1.heap.DefineProperty context.global name unwrappedGetter unwrappedSetter).1 }

/-- The copy loops of `storeGlobalObjectContents` (lines 699-704) and of
`evaluateInClosure` (lines 841-846 and 863-870): for each name,
`target->Set(name, source->Get(name).ToLocalChecked())`.  A read that yields nothing
fails the check and ends the loop. -/
def copyProperties (source target : ObjId) : List String → Heap → Heap × List String
  | [], h => (h, [])
  | name :: names, h =>
    match h.Get source name with
    | none => (h, ["ToLocalChecked"])
    | some v =>
      let r := h.Set target name v
      let rest := copyProperties source target names r.1
      (rest.1, (if r.2 then [] else ["Q_ASSERT(false)"]) ++ rest.2)

/-- `storeGlobalObjectContents()`, lines 687-709. -/
def storeGlobalObjectContents (s : ScriptEngineV8) : ScriptEngineV8 :=
  if s.areGlobalObjectContentsStored then s
  else
    match s.getContext with
    | none => s.assertFailed ["Q_ASSERT(!_contexts.isEmpty())"]
    | some context =>
      let globalMemberObjects := s.heap.alloc .plain
      let globalMemberNames := globalMemberObjects.1.GetPropertyNames context.global
      let r := copyProperties context.global globalMemberObjects.2 globalMemberNames
        globalMemberObjects.1
      { s with heap := r.1
               _globalObjectContents := some globalMemberObjects.2
               failedAsserts := s.failedAsserts ++ r.2 }

/-- `setUncaughtException(uncaughtException)`, lines 1052-1058: stores the record and
emits a clone. -/
def setUncaughtException (s : ScriptEngineV8) (uncaughtException : ScriptException) :
    ScriptEngineV8 :=
  { s with _uncaughtException := some uncaughtException
           emittedExceptions := s.emittedExceptions ++ [uncaughtException.clone] }

/-- `setUncaughtEngineException(reason, info)`, lines 1000-1003. -/
def setUncaughtEngineException (s : ScriptEngineV8) (reason info : String) : ScriptEngineV8 :=
  s.setUncaughtException
    { kind := .engine, errorMessage := reason, additionalInfo := info, errorLine := 0,
      errorColumn := 0, backtrace := [], thrownValue := none }

/-- The text of `tryCatch.Message()->Get()`. -/
def messageText (tryCatch : TryCatch) : String :=
  match tryCatch.Message with
  | some m => m.text
  | none => ""

/-- `setUncaughtException(tryCatch, info)`, lines 1005-1050. -/
def setUncaughtExceptionFromTryCatch (s : ScriptEngineV8) (tryCatch : TryCatch)
    (info : String) : ScriptEngineV8 :=
  if !tryCatch.HasCaught then s.clearExceptions
  else
    s.setUncaughtException
      { kind := .runtime
        additionalInfo := info
        errorMessage := messageText tryCatch
        thrownValue := some (.v8 tryCatch.Exception)
        errorLine := match tryCatch.Message with
          | some m => m.lineNumber
          | none => 0
        errorColumn := match tryCatch.Message with
          | some m => m.startColumn
          | none => 0
        backtrace := match tryCatch.Message, tryCatch.StackTrace with
          | some _, some (.string errorBacktrace) =>
            if errorBacktrace.length > 0 then split errorBacktrace (Char.ofNat 10) else []
          | _, _ => [] }

/-- `raiseException(const V8ScriptValue&)`, lines 1621-1642. -/
def raiseExceptionV8 (s : ScriptEngineV8) (currentThread : QThread) (exception : Value) :
    ScriptEngineV8 × Bool :=
  if !(IS_THREADSAFE_INVOCATION currentThread s.thread "raiseException").1 then
    (s.assertFailed (IS_THREADSAFE_INVOCATION currentThread s.thread "raiseException").2, false)
  else
    ({ s with thrownExceptions := s.thrownExceptions ++ [exception] }, false)

/-- `raiseException(const ScriptValue&, reason)`, lines 1603-1617. -/
def raiseException (s : ScriptEngineV8) (currentThread : QThread) (exception : ScriptValue)
    (_reason : String) : ScriptEngineV8 × Bool :=
  s.raiseExceptionV8 currentThread (ScriptValueV8Wrapper.fullUnwrap exception)

/-- Lines 792-793 of `evaluateInClosure`: `closureContext = v8::Context::New(...)` and
`pushContext(closureContext)`. -/
def enterClosureContext (s : ScriptEngineV8) : ScriptEngineV8 × ScriptContextV8Wrapper :=
  (({ s with heap := (ContextNew s.heap).1 }).pushContext (ContextNew s.heap).2,
   (ContextNew s.heap).2)

/-- Lines 839-870 of `evaluateInClosure`: the enumerable properties of the stored global
object contents, then those of the closure object, are copied into the global object of
the closure context. -/
def fillClosureGlobal (s : ScriptEngineV8) (closureContext : ScriptContextV8Wrapper)
    (closureObject : ObjId) : ScriptEngineV8 :=
  let fromGlobal : Heap × List String :=
    match s._globalObjectContents with
    | none => (s.heap, ["_globalObjectContents.IsEmpty()"])
    | some globalObjectContents =>
      copyProperties globalObjectContents closureContext.global
        (s.heap.GetPropertyNames globalObjectContents) s.heap
  let fromClosure := copyProperties closureObject closureContext.global
    (fromGlobal.1.GetPropertyNames closureObject) fromGlobal.1
  { s with heap := fromClosure.1
           failedAsserts := s.failedAsserts ++ fromGlobal.2 ++ fromClosure.2 }

/-- `evaluateInClosure(_closure, _program)`, lines 711-921. -/
def evaluateInClosure (s : ScriptEngineV8) (currentThread : QThread) (_closure : ScriptValue)
    (_program : ScriptProgramPointer) : ScriptEngineV8 × ScriptValue :=
  if !(IS_THREADSAFE_INVOCATION currentThread s.thread "evaluateInClosure").1 then
    (s.assertFailed (IS_THREADSAFE_INVOCATION currentThread s.thread "evaluateInClosure").2,
     nullValue)
  else
    let s1 := ({ s with _evaluatingCounter := s._evaluatingCounter + 1 }).storeGlobalObjectContents
    match s1.getContext with
    | none => (s1.assertFailed ["Q_ASSERT(!_contexts.isEmpty())"], nullValue)
    | some _ =>
      match ScriptProgramV8Wrapper.unwrap _program with
      | none =>
        (({ s1 with _evaluatingCounter := s1._evaluatingCounter - 1 }).assertFailed
          ["Cannot unwrap program for closure"], nullValue)
      | some unwrappedProgram =>
        match ScriptValueV8Wrapper.unwrap _closure with
        | none =>
          (({ s1 with _evaluatingCounter := s1._evaluatingCounter - 1 }).assertFailed
            ["Cannot unwrap closure"], nullValue)
        | some (.object closureObject) =>
          let testObject := s1.heap.alloc .plain
          let tested := testObject.1.Set testObject.2 "test_value" (.object closureObject)
          let s2 := ({ s1 with heap := tested.1 }).assertFailed
            (if tested.2 then [] else ["Q_ASSERT(false)"])
          match s2.heap.Get closureObject "global" with
          | none =>
            (({ s2 with _evaluatingCounter := s2._evaluatingCounter - 1 }).assertFailed
              ["Cannot get global from unwrapped closure"], nullValue)
          | some _closureGlobal =>
            let entered := s2.enterClosureContext
            let closureContext := entered.2
            if !unwrappedProgram.compile then
              ((entered.1.assertFailed
                  ["Can't compile script for evaluating in closure"]).popContext,
               nullValue)
            else
              let s3 := entered.1.fillClosureGlobal closureContext closureObject
              let maybeResult := unwrappedProgram.script.Run s3.heap closureContext.global
              let s4 := { s3 with heap := maybeResult.heap }
              let result : ScriptValue :=
                if s4.hasUncaughtException then nullValue
                else
                  match maybeResult.result with
                  | some v8Result => .v8 v8Result
                  | none => .v8 .empty
              let s5 := s4.popContext
              ({ s5 with _evaluatingCounter := s5._evaluatingCounter - 1 }, result)
        | some _ =>
          (({ s1 with _evaluatingCounter := s1._evaluatingCounter - 1 }).assertFailed
            ["Unwrapped closure is not an object"], nullValue)

/-- `evaluate(sourceCode, fileName)`, lines 923-997.  Off the owning thread the call is
run by the owning thread while the caller waits (`BLOCKING_INVOKE_METHOD`), so the
outcome is that of the call on the owning thread. -/
def evaluate (v8 : V8) (s : ScriptEngineV8) (sourceCode fileName : String) :
    ScriptEngineV8 × ScriptValue :=
  let s1 := { s with _evaluatingCounter := s._evaluatingCounter + 1 }
  match s1.getContext with
  | none => (s1.assertFailed ["Q_ASSERT(!_contexts.isEmpty())"], nullValue)
  | some context =>
    let compiled := v8.Compile sourceCode fileName
    match compiled.script with
    | none =>
      let s2 := s1.setUncaughtExceptionFromTryCatch compiled.tryCatch "Error while compiling script"
      ({ s2 with _evaluatingCounter := s2._evaluatingCounter - 1 }, nullValue)
    | some script =>
      let ran := script.Run s1.heap context.global
      let s2 := { s1 with heap := ran.heap }
      match ran.result with
      | none =>
        let errorValue : ScriptValue := .v8 (.string (messageText ran.tryCatch))
        let s3 := (s2.assertFailed
            (if ran.tryCatch.HasCaught then [] else ["Q_ASSERT(tryCatchRun.HasCaught())"])
          ).setUncaughtExceptionFromTryCatch ran.tryCatch "script evaluation"
        ({ s3 with _evaluatingCounter := s3._evaluatingCounter - 1 }, errorValue)
      | some result =>
        ({ s2 with _evaluatingCounter := s2._evaluatingCounter - 1 }, .v8 result)

/-- `evaluate(program)`, lines 1170-1252.  Off the owning thread the call is run by the
owning thread while the caller waits, so the outcome is that of the call on the owning
thread. -/
def evaluateProgram (s : ScriptEngineV8) (program : ScriptProgramPointer) :
    ScriptEngineV8 × ScriptValue :=
  let s1 := { s with _evaluatingCounter := s._evaluatingCounter + 1 }
  match s1.getContext with
  | none => (s1.assertFailed ["Q_ASSERT(!_contexts.isEmpty())"], nullValue)
  | some context =>
    match ScriptProgramV8Wrapper.unwrap program with
    | none =>
      let s2 := s1.setUncaughtEngineException "Could not unwrap program" "Compile error"
      ({ s2 with _evaluatingCounter := s2._evaluatingCounter - 1 }, ScriptValue.invalid)
    | some unwrapped =>
      let syntaxCheck := unwrapped.checkSyntax
      if syntaxCheck.state = SyntaxCheckState.Error then
        let s2 := s1.setUncaughtEngineException syntaxCheck.errorMessage "Compile error"
        ({ s2 with _evaluatingCounter := s2._evaluatingCounter - 1 }, ScriptValue.invalid)
      else
        let ran := unwrapped.script.Run s1.heap context.global
        let s2 := { s1 with heap := ran.heap }
        match ran.result with
        | none =>
          let errorValue : ScriptValue := .v8 (.string (messageText ran.tryCatch))
          let s3 := ((s2.assertFailed
              (if ran.tryCatch.HasCaught then [] else ["Q_ASSERT(tryCatchRun.HasCaught())"])
            ).raiseException s.thread errorValue "evaluation error").1
          ({ s3 with _evaluatingCounter := s3._evaluatingCounter - 1 }, errorValue)
        | some result =>
          let s3 := s2.assertFailed
            (if ran.tryCatch.HasCaught then ["Q_ASSERT(!tryCatchRun.HasCaught())"] else [])
          ({ s3 with _evaluatingCounter := s3._evaluatingCounter - 1 }, .v8 result)

end ScriptEngineV8

end Overte

namespace Overte

/-- Whether every property of the object is enumerable, as in an object that was filled
with `Set` only. -/
def Heap.allEnumerable (h : Heap) (object : ObjId) : Bool :=
  match h[object]? with
  | none => true
  | some o => o.properties.all (fun p => p.enumerable)

/-- Reading a dotted path: the segments are walked from `object`; every segment but the
last has to be bound to an object, the value of the last one is the result. -/
def readPath (h : Heap) : ObjId → List String → Option Value
  | _, [] => none
  | object, [leaf] => h.Get object leaf
  | object, pathPart :: rest =>
    match h.Get object pathPart with
    | some (.object child) => readPath h child rest
    | _ => none

/-- The object reached from `object` along segments that are all bound to objects. -/
def walkPath (h : Heap) : ObjId → List String → Option ObjId
  | object, [] => some object
  | object, pathPart :: rest =>
    match h.Get object pathPart with
    | some (.object child) => walkPath h child rest
    | _ => none

/-- The property that `registerEnum` makes of a symbolic constant: an enumerable data
property that holds the constant's value as an integer. -/
def enumProperty (k : String × Int) : Property :=
  { key := k.1, slot := .data (.integer k.2), enumerable := true }

/-- The global object of the current context, `getContext()->Global()`. -/
def ScriptEngineV8.globalObject (s : ScriptEngineV8) : Option ObjId :=
  match s.getContext with
  | some context => some context.global
  | none => none

/-- One call of an operation of the engine, with its arguments. -/
inductive Op where
  | registerValue (currentThread : QThread) (valueName : String) (value : Value)
  | registerEnum (currentThread : QThread) (enumName : String) (newEnum : QMetaEnum)
  | registerGlobalObject (currentThread : QThread) (name : String) (object : Option QObjectPtr)
  | registerFunction (currentThread : QThread) (name : String)
      (functionSignature : FunctionSignature) (numArguments : Int)
  | registerFunctionInParent (currentThread : QThread) (parent name : String)
      (functionSignature : FunctionSignature) (numArguments : Int)
  | registerGetterSetter (currentThread : QThread) (name : String)
      (getter setter : FunctionSignature) (parent : String)
  | evaluate (v8 : V8) (sourceCode fileName : String)
  | evaluateProgram (program : ScriptProgramPointer)
  | evaluateInClosure (currentThread : QThread) (closure : ScriptValue)
      (program : ScriptProgramPointer)
  | pushContext (context : ScriptContextV8Wrapper)
  | popContext

/-- The engine after one call. -/
def Op.apply : Op → ScriptEngineV8 → ScriptEngineV8
  | .registerValue t valueName value, s => s.registerValue t valueName value
  | .registerEnum t enumName newEnum, s => s.registerEnum t enumName newEnum
  | .registerGlobalObject t name object, s => s.registerGlobalObject t name object
  | .registerFunction t name fn n, s => s.registerFunction t name fn n
  | .registerFunctionInParent t parent name fn n, s => s.registerFunctionInParent t parent name fn n
  | .registerGetterSetter t name getter setter parent, s =>
    s.registerGetterSetter t name getter setter parent
  | .evaluate v8 sourceCode fileName, s => (s.evaluate v8 sourceCode fileName).1
  | .evaluateProgram program, s => (s.evaluateProgram program).1
  | .evaluateInClosure t closure program, s => (s.evaluateInClosure t closure program).1
  | .pushContext context, s => s.pushContext context
  | .popContext, s => s.popContext

/-- The engine after a sequence of calls, first call first. -/
def runOps : List Op → ScriptEngineV8 → ScriptEngineV8
  | [], s => s
  | op :: ops, s => runOps ops (op.apply s)

/-- Whether, in a sequence of calls, every `popContext` is made while the stack holds at
least two contexts (it removes a context that was pushed, never the first one). -/
def popsArePaired : List Op → ScriptEngineV8 → Bool
  | [], _ => true
  | op :: ops, s =>
    (match op with
      | .popContext => decide (2 ≤ s._contexts.length)
      | _ => true) && popsArePaired ops (op.apply s)

end Overte

namespace Overte

/-! ## Concrete engines, values and programs used in the examples -/

namespace Example

/-- A syntax check that found nothing. -/
def validSyntax : ScriptSyntaxCheckResult :=
  { state := .Valid, errorMessage := "", errorLineNumber := 0, errorColumnNumber := 0,
    errorBacktrace := "" }

/-- The script `a+b`: the sum of the globals `a` and `b` when both hold integers. -/
def aPlusB : V8Script :=
  { Run := fun h global =>
      { heap := h
        result :=
          match h.Get global "a", h.Get global "b" with
          | some (.integer x), some (.integer y) => some (.integer (x + y))
          | _, _ => none
        tryCatch := TryCatch.none } }

/-- The script `debug_context_id`: the value of the global of that name. -/
def readDebugContextId : V8Script :=
  { Run := fun h global =>
      { heap := h, result := h.Get global "debug_context_id", tryCatch := TryCatch.none } }

/-- A program of this engine that compiles to the given script. -/
def programOf (sourceCode : String) (script : V8Script) : ScriptProgramPointer :=
  .v8 { fileName := "example.js", sourceCode := sourceCode, compile := true,
        checkSyntax := validSyntax, script := script }

/-- An engine on thread 7 whose global object has `a = 1`. -/
def baseEngine : ScriptEngineV8 :=
  (newScriptEngineV8 1 7).registerValue 7 "a" (.integer 1)

/-- The engine `baseEngine` after `newObject()` and two `setProperty` calls have built
the closure object `{a: 2, b: 3}`, which is object 1. -/
def engineWithClosure : ScriptEngineV8 :=
  { baseEngine with
    heap := (((baseEngine.heap.alloc .plain).1.Set 1 "a" (.integer 2)).1.Set 1 "b"
      (.integer 3)).1 }

/-- The closure object `{a: 2, b: 3}` of `engineWithClosure`. -/
def closure : ScriptValue := .v8 (.object 1)

/-- An exception record left by an earlier evaluation. -/
def staleException : ScriptException :=
  { kind := .runtime, errorMessage := "Uncaught ReferenceError: x is not defined",
    additionalInfo := "script evaluation", errorLine := 1, errorColumn := 0,
    backtrace := [], thrownValue := none }

/-- A runtime in which every source text fails to compile with the same syntax error,
reported at line 1, column 2. -/
def failingCompiler : V8 :=
  { Compile := fun _ _ =>
      { script := none
        tryCatch :=
          { HasCaught := true
            Exception := .string "SyntaxError: Unexpected identifier"
            Message := some { text := "Uncaught SyntaxError: Unexpected identifier",
                              lineNumber := 1, startColumn := 2 }
            StackTrace := none } } }

end Example

end Overte

namespace Overte

/-! ## Concrete programs that throw, assign and read, used in the examples -/

namespace Example

/-- What a `v8::TryCatch` holds after the script `x` threw in a context without a global
`x`: the error object (shown by its text), the message with its position, the stack. -/
def referenceError : TryCatch :=
  { HasCaught := true
    Exception := .string "ReferenceError: x is not defined"
    Message := some { text := "Uncaught ReferenceError: x is not defined",
                      lineNumber := 1, startColumn := 0 }
    StackTrace := some (.string "ReferenceError: x is not defined") }

/-- The script `x`, run where no global `x` exists: it throws and yields nothing. -/
def throwing : V8Script :=
  { Run := fun h _ => { heap := h, result := none, tryCatch := referenceError } }

/-- A program of this engine, with a clean syntax check, that compiles to `throwing`. -/
def throwingProgram : ScriptProgramV8Wrapper :=
  { fileName := "example.js", sourceCode := "x", compile := true,
    checkSyntax := validSyntax, script := throwing }

/-- The script `a = 7`: assigns the global `a` of the context it runs in. -/
def assignA : V8Script :=
  { Run := fun h global =>
      { heap := (h.Set global "a" (.integer 7)).1
        result := some (.integer 7)
        tryCatch := TryCatch.none } }

/-- A program of this engine, with a clean syntax check, that compiles to `assignA`. -/
def assigningProgram : ScriptProgramV8Wrapper :=
  { fileName := "example.js", sourceCode := "a = 7", compile := true,
    checkSyntax := validSyntax, script := assignA }

/-- A runtime in which every source text compiles to the given script. -/
def compilerOf (script : V8Script) : V8 :=
  { Compile := fun _ _ => { script := some script, tryCatch := TryCatch.none } }

/-- A program of this engine whose syntax check reports an error. -/
def syntaxErrorProgram : ScriptProgramPointer :=
  .v8 { fileName := "example.js", sourceCode := "x x", compile := false,
        checkSyntax := { state := .Error
                         errorMessage := "SyntaxError: Unexpected identifier"
                         errorLineNumber := 1, errorColumnNumber := 2, errorBacktrace := "" }
        script := throwing }

end Example

end Overte

namespace Overte

namespace ScriptEngineV8

/-- Lines 717-760 of `evaluateInClosure`, as far as the context of the closure, for a
closure that unwraps to the object `closureObject`: the counter is incremented, the
global object contents are stored and the test object is built. -/
def beforeClosureContext (s : ScriptEngineV8) (closureObject : ObjId) : ScriptEngineV8 :=
  let s1 := ({ s with _evaluatingCounter := s._evaluatingCounter + 1 }).storeGlobalObjectContents
  let testObject := s1.heap.alloc .plain
  let tested := testObject.1.Set testObject.2 "test_value" (.object closureObject)
  ({ s1 with heap := tested.1 }).assertFailed (if tested.2 then [] else ["Q_ASSERT(false)"])

end ScriptEngineV8

end Overte

namespace Overte

/-! ## Queued calls and the owning thread -/

/-- What the owning thread runs when its event loop delivers a call queued by
`QMetaObject::invokeMethod(this, "name", args...)`: the invokable method of that name
taking those arguments, on the owning thread. -/
def MetaCall.invoke : MetaCall → ScriptEngineV8 → ScriptEngineV8
  | .registerValue valueName value, s => s.registerValue s.thread valueName value
  | .registerGlobalObject name object, s => s.registerGlobalObject s.thread name object
  | .registerFunction name functionSignature numArguments, s =>
    s.registerFunction s.thread name functionSignature numArguments
  | .registerGetterSetter name getter setter parent, s =>
    s.registerGetterSetter s.thread name getter setter parent

/-- The calls of a queue, delivered in order. -/
def deliver : List MetaCall → ScriptEngineV8 → ScriptEngineV8
  | [], s => s
  | call :: calls, s => deliver calls (call.invoke s)

/-- The owning thread returns to its event loop: the queued calls are taken from the
queue and delivered in the order in which they were posted. -/
def ScriptEngineV8.processEvents (s : ScriptEngineV8) : ScriptEngineV8 :=
  deliver s.postedCalls { s with postedCalls := [] }

namespace Example

/-- The enum `Color` with the constants `Red = 0`, `Green = 1` and `Blue = 4`. -/
def Color : QMetaEnum :=
  { valid := true, keys := [("Red", 0), ("Green", 1), ("Blue", 4)] }

/-- An engine on thread 7 whose global object has `Foo` bound to an object (object 1)
with the property `x = 1`. -/
def engineWithFoo : ScriptEngineV8 :=
  (newScriptEngineV8 1 7).registerValue 7 "Foo.x" (.integer 1)

/-- The engine `engineWithClosure` while it still holds the exception record of an
earlier evaluation. -/
def engineWithStaleException : ScriptEngineV8 :=
  { engineWithClosure with _uncaughtException := some staleException }

/-- A program of this engine that `compile()` rejects. -/
def notCompilingProgram : ScriptProgramV8Wrapper :=
  { fileName := "example.js", sourceCode := "x x", compile := false,
    checkSyntax := { state := .Error
                     errorMessage := "SyntaxError: Unexpected identifier"
                     errorLineNumber := 1, errorColumnNumber := 2, errorBacktrace := "" }
    script := throwing }

end Example

end Overte

namespace Overte

/-! ## `checkScriptSyntax` and the text functions of Qt it uses -/

/-- `QString::number(int)` of Qt: the decimal text of the number. -/
def QString.number (n : Int) : String := toString n

/-- A part of a format string, as `QString::arg` with several arguments splits it: a
literal text, or a place marker (`%1`, `%L2`, `%03`) with its number and its own text. -/
structure FormatPart where
  text : String
  number : Option Nat
  deriving DecidableEq, Repr

/-- Where the scan of a format string stands: in literal text, after a `%`, after `%L`,
or in the digits of a place marker. -/
inductive FormatScan where
  | literal
  | percent
  | percentL
  | digits (number : Nat) (marker : List Char)
  deriving DecidableEq, Repr

/-- The literal text read so far, as a part (none when it is empty). -/
def FormatPart.literal (acc : List Char) : List FormatPart :=
  if acc.isEmpty then [] else [{ text := String.mk acc.reverse, number := none }]

/-- The scan of a format string for place markers, one pass from left to right: a marker
is `%`, an optional `L` and decimal digits, with a number of at most 999.  `acc` is the
literal text read since the last marker, reversed. -/
def formatParts : List Char → FormatScan → List Char → List FormatPart
  | [], .literal, acc => FormatPart.literal acc
  | [], .percent, acc => FormatPart.literal ('%' :: acc)
  | [], .percentL, acc => FormatPart.literal ('L' :: '%' :: acc)
  | [], .digits number marker, acc =>
    if number ≤ 999 then
      FormatPart.literal acc ++ [{ text := String.mk marker.reverse, number := some number }]
    else FormatPart.literal (marker ++ acc)
  | c :: cs, .literal, acc =>
    if c = '%' then formatParts cs .percent acc else formatParts cs .literal (c :: acc)
  | c :: cs, .percent, acc =>
    if c = 'L' then formatParts cs .percentL acc
    else if c.isDigit then formatParts cs (.digits (c.toNat - '0'.toNat) [c, '%']) acc
    else if c = '%' then formatParts cs .percent ('%' :: acc)
    else formatParts cs .literal (c :: '%' :: acc)
  | c :: cs, .percentL, acc =>
    if c.isDigit then formatParts cs (.digits (c.toNat - '0'.toNat) [c, 'L', '%']) acc
    else if c = '%' then formatParts cs .percent ('L' :: '%' :: acc)
    else formatParts cs .literal (c :: 'L' :: '%' :: acc)
  | c :: cs, .digits number marker, acc =>
    if c.isDigit then
      formatParts cs (.digits (number * 10 + (c.toNat - '0'.toNat)) (c :: marker)) acc
    else if number ≤ 999 then
      FormatPart.literal acc ++ [{ text := String.mk marker.reverse, number := some number }]
        ++ (if c = '%' then formatParts cs .percent [] else formatParts cs .literal [c])
    else if c = '%' then formatParts cs .percent (marker ++ acc)
    else formatParts cs .literal (c :: (marker ++ acc))

/-- A number put at its place in an ascending list without repetitions. -/
def insertNumber (n : Nat) : List Nat → List Nat
  | [] => [n]
  | m :: ms => if n < m then n :: m :: ms else if n = m then m :: ms else m :: insertNumber n ms

/-- The distinct marker numbers of a format, in ascending order. -/
def markerNumbers : List FormatPart → List Nat
  | [] => []
  | p :: parts =>
    match p.number with
    | some n => insertNumber n (markerNumbers parts)
    | none => markerNumbers parts

/-- `QString::arg(a1, a2, ...)` of Qt with several string arguments: the place markers
with the lowest number are replaced by the first argument, those with the next number
by the second, and so on, "in one pass": the text put in is not scanned again.  A
marker for which no argument is left stays as it is. -/
def QString.arg (format : String) (args : List String) : String :=
  let parts := formatParts format.data .literal []
  let numbers := markerNumbers parts
  String.join (parts.map (fun p =>
    match p.number with
    | none => p.text
    | some n =>
      match args[numbers.indexOf n]? with
      | some a => a
      | none => p.text))

/-- Modelled from the spec: `globalObject().property("SyntaxError").construct(message)`
(`ScriptValue::construct`, ScriptValueV8Wrapper.cpp, on the runtime's built-in
constructor), the "structured error": a new error object whose `message` property, not
enumerable, is the argument. -/
def constructSyntaxError (h : Heap) (message : String) : Heap × ObjId :=
  (h ++ [{ kind := .plain
           properties := [{ key := "message", slot := .data (.string message),
                            enumerable := false }] }],
   h.length)

namespace ScriptEngineV8

/-- `checkScriptSyntax(program)`, lines 124-152.  The program is used through
`checkSyntax()` and `fileName()` only.  `err.setProperty(name, value)`
(ScriptValueV8Wrapper.cpp) is a `Set` on the error object. -/
def checkScriptSyntax (s : ScriptEngineV8) (currentThread : QThread)
    (program : ScriptProgramV8Wrapper) : ScriptEngineV8 × ScriptValue :=
  if !(IS_THREADSAFE_INVOCATION currentThread s.thread "checkScriptSyntax").1 then
    (s.assertFailed (IS_THREADSAFE_INVOCATION currentThread s.thread "checkScriptSyntax").2,
     nullValue)
  else
    match s.getContext with
    | none => (s.assertFailed ["Q_ASSERT(!_contexts.isEmpty())"], nullValue)
    | some _ =>
      let syntaxCheck := program.checkSyntax
      if syntaxCheck.state ≠ SyntaxCheckState.Valid then
        let err := constructSyntaxError s.heap syntaxCheck.errorMessage
        let h1 := (err.1.Set err.2 "fileName" (.string program.fileName)).1
        let h2 := (h1.Set err.2 "lineNumber" (.integer syntaxCheck.errorLineNumber)).1
        let h3 := (h2.Set err.2 "expressionBeginOffset"
          (.integer syntaxCheck.errorColumnNumber)).1
        let h4 := (h3.Set err.2 "stack" (.string syntaxCheck.errorBacktrace)).1
        let error := syntaxCheck.errorMessage
        let line := QString.number syntaxCheck.errorLineNumber
        let column := QString.number syntaxCheck.errorColumnNumber
        let message := QString.arg "[SyntaxError] %1 in %2:%3(%4)"
          [error, program.fileName, line, column]
        let h5 := (h4.Set err.2 "formatted" (.string message)).1
        ({ s with heap := h5 }, .v8 (.object err.2))
      else (s, undefinedValue)

end ScriptEngineV8

namespace Example

/-- A program whose syntax check failed with a message and under a file name that
themselves hold place markers. -/
def percentProgram : ScriptProgramV8Wrapper :=
  { fileName := "%3%1.js", sourceCode := "x = %2", compile := false,
    checkSyntax := { state := .Error, errorMessage := "Unexpected token %2"
                     errorLineNumber := 12, errorColumnNumber := -1, errorBacktrace := "" }
    script := throwing }

end Example

end Overte

namespace Overte

/-! ## The callback of a function made by `newFunction` -/

/-- What the native functions do, by address: the value that the function at that
address returns when it is called with a context and the given engine. -/
abbrev NativeFunctions := FunctionSignature → EnginePtr → ScriptValue

/-- A `v8::FunctionCallbackInfo`: the data the function was created with and the return
value of the call, `undefined` until it is set. -/
structure FunctionCallbackInfo where
  Data : Value
  ReturnValue : Value
  deriving DecidableEq, Repr

/-- What a call of the callback did: the `info` it leaves, the native functions it
invoked (address and engine argument, one entry per invocation), and the assertions
that failed. -/
structure CallbackOutcome where
  info : FunctionCallbackInfo
  invoked : List (FunctionSignature × EnginePtr)
  failedAsserts : List String
  deriving DecidableEq, Repr

/-- The lambda `v8FunctionCallback` of `newFunction`, lines 1502-1523: the function and
the engine are read from the two internal fields of `info.Data()`, the function is called
and, when its result unwraps, the result is set as the return value. -/
def v8FunctionCallback (natives : NativeFunctions) (h : Heap) (info : FunctionCallbackInfo) :
    CallbackOutcome :=
  match info.Data with
  | .object object =>
    match h[object]? with
    | some { kind := .functionData slot0 slot1, properties := _ } =>
      let function := slot0
      let scriptEngine := slot1
      let result := natives function scriptEngine
      match ScriptValueV8Wrapper.unwrap result with
      | some unwrapped =>
        { info := { info with ReturnValue := unwrapped }
          invoked := [(function, scriptEngine)], failedAsserts := [] }
      | none => { info := info, invoked := [(function, scriptEngine)], failedAsserts := [] }
    | _ =>
      { info := info, invoked := []
        failedAsserts := ["Q_ASSERT(object->InternalFieldCount() == 2)"] }
  | _ => { info := info, invoked := [], failedAsserts := ["Q_ASSERT(info.Data()->IsObject())"] }

/-- A script call of a value: for a function made by `v8::Function::New(context, callback,
data, length)` the runtime calls the callback with `info.Data()` the data and the return
value `undefined`; nothing when the value is not such a function. -/
def callFunction (natives : NativeFunctions) (h : Heap) (callee : Value) :
    Option CallbackOutcome :=
  match callee with
  | .object f =>
    match h[f]? with
    | some { kind := .function data _, properties := _ } =>
      some (v8FunctionCallback natives h { Data := .object data, ReturnValue := .undefined })
    | _ => none
  | _ => none

/-! ## Diagnostics -/

/-- The text functions of the runtime used by the diagnostics: `Value::ToDetailString`,
`JSON::Stringify` of a value, and `JSON::Stringify` of the array of names that
`GetPropertyNames` yields.  Each may fail and yield nothing. -/
structure V8Text where
  ToDetailString : Heap → Value → Option String
  JSONStringify : Heap → Value → Option String
  JSONStringifyNames : List String → Option String

/-- The text of a `MaybeLocal<String>` as the source reads it: the empty text when the
runtime yielded nothing. -/
def textOf : Option String → String
  | some t => t
  | none => ""

namespace ScriptEngineV8

/-- `scriptValueDebugListMembersV8(v8Value)`, lines 1704-1723. -/
def scriptValueDebugListMembersV8 (v8 : V8Text) (s : ScriptEngineV8) (v8Value : Value) :
    String :=
  match v8Value with
  | .object object => textOf (v8.JSONStringifyNames (s.heap.GetPropertyNames object))
  | _ => " Is not an object"

/-- `scriptValueDebugDetailsV8(v8Value)`, lines 1725-1742. -/
def scriptValueDebugDetailsV8 (v8 : V8Text) (s : ScriptEngineV8) (v8Value : Value) : String :=
  let parentValueQString := textOf (v8.ToDetailString s.heap v8Value)
  let JSONQString := textOf (v8.JSONStringify s.heap v8Value)
  parentValueQString ++ " JSON: " ++ JSONQString

/-- `scriptValueDebugDetails(value)`, lines 1694-1697. -/
def scriptValueDebugDetails (v8 : V8Text) (s : ScriptEngineV8) (value : ScriptValue) : String :=
  let v8Value := ScriptValueV8Wrapper.fullUnwrap value
  s.scriptValueDebugDetailsV8 v8 v8Value

/-- `scriptValueDebugListMembers(value)`, lines 1699-1702. -/
def scriptValueDebugListMembers (v8 : V8Text) (s : ScriptEngineV8) (value : ScriptValue) :
    String :=
  let v8Value := ScriptValueV8Wrapper.fullUnwrap value
  s.scriptValueDebugDetailsV8 v8 v8Value

/-- The member listing as the specification words it: "per-value member-listing", the
listing of the members of the unwrapped value. -/
def scriptValueDebugListMembers_spec (v8 : V8Text) (s : ScriptEngineV8) (value : ScriptValue) :
    String :=
  s.scriptValueDebugListMembersV8 v8 (ScriptValueV8Wrapper.fullUnwrap value)

end ScriptEngineV8

/-- The figures of `v8::HeapStatistics` that `Isolate::GetHeapStatistics` fills in and the
engine reads, with the total heap size. -/
structure HeapStatistics where
  total_heap_size : Nat
  used_heap_size : Nat
  total_available_size : Nat
  total_global_handles_size : Nat
  used_global_handles_size : Nat
  deriving DecidableEq, Repr

/-- Modelled from the spec: `ScriptEngineMemoryStatistics` (ScriptEngine.h), the
"heap/handle memory-usage snapshot", with the fields that the source assigns. -/
structure ScriptEngineMemoryStatistics where
  totalHeapSize : Nat
  usedHeapSize : Nat
  totalAvailableSize : Nat
  totalGlobalHandlesSize : Nat
  usedGlobalHandlesSize : Nat
  deriving DecidableEq, Repr

/-- `getMemoryUsageStatistics()`, lines 1777-1794, for the statistics that
`_v8Isolate->GetHeapStatistics` reports (without `OVERTE_V8_MEMORY_DEBUG`). -/
def ScriptEngineV8.getMemoryUsageStatistics (heapStatistics : HeapStatistics) :
    ScriptEngineMemoryStatistics :=
  { totalHeapSize := heapStatistics.total_available_size
    usedHeapSize := heapStatistics.used_heap_size
    totalAvailableSize := heapStatistics.total_available_size
    totalGlobalHandlesSize := heapStatistics.total_global_handles_size
    usedGlobalHandlesSize := heapStatistics.used_global_handles_size }

namespace Example

/-- Text functions that render an integer in decimal, `null` and `undefined` by name, an
object as `[object Object]` with the JSON text `{}`, and a list of names as a
JSON array of quoted names. -/
def v8Text : V8Text :=
  { ToDetailString := fun _ v =>
      match v with
      | .integer n => some (toString n)
      | .null => some "null"
      | .undefined => some "undefined"
      | .object _ => some "[object Object]"
      | _ => none
    JSONStringify := fun _ v =>
      match v with
      | .integer n => some (toString n)
      | .null => some "null"
      | .object _ => some "\x7b\x7d"
      | _ => none
    JSONStringifyNames := fun names =>
      some ("[" ++ ",".intercalate (names.map (fun n => "\"" ++ n ++ "\"")) ++ "]") }

/-- Heap statistics of an isolate with 8 MiB of heap, 5 MiB of it used, and 1 GiB
available. -/
def heapStatistics : HeapStatistics :=
  { total_heap_size := 8388608, used_heap_size := 5242880, total_available_size := 1073741824
    total_global_handles_size := 16384, used_global_handles_size := 4096 }

end Example

end Overte

namespace Overte

/-! ## `ToolbarButtonProxy` (ToolbarScriptingInterface.cpp) -/

/-- A `QVariant` of Qt, for the kinds of value a button property takes. -/
inductive QVariant where
  | invalid
  | bool (b : Bool)
  | int (n : Int)
  | string (s : String)
  deriving DecidableEq, Repr

/-- A `QVariantMap` of Qt (`QMap<QString, QVariant>`): its entries, one for each key, in
ascending order of the keys. -/
abbrev QVariantMap := List (String × QVariant)

/-- `QMap::value(key)`, nothing when the map has no such key. -/
def QVariantMap.value (m : QVariantMap) (key : String) : Option QVariant :=
  match m.find? (fun e => e.1 == key) with
  | some e => some e.2
  | none => none

/-- `map[key] = value` (`QMap::operator[]` and assignment): the entry of the key gets the
value, and is added at its place (keys are ordered by their characters) when the map has
none. -/
def QVariantMap.insert : QVariantMap → String → QVariant → QVariantMap
  | [], key, value => [(key, value)]
  | e :: m, key, value =>
    if e.1 == key then (key, value) :: m
    else if key.data < e.1.data then (key, value) :: e :: m
    else e :: QVariantMap.insert m key value

/-- A call requested with `QMetaObject::invokeMethod(target, method, args...)`. -/
structure QmlInvocation where
  target : QObjectPtr
  method : String
  args : List QVariant
  deriving DecidableEq, Repr

/-- Modelled from the spec: the state of a `ToolbarButtonProxy` (ToolbarScriptingInterface.h)
that `editProperties` reads and writes: its thread, the stored properties, the QML
button when one is attached, and the calls it has requested and queued. -/
structure ToolbarButtonProxy where
  thread : QThread
  _properties : QVariantMap
  _qmlButton : Option QObjectPtr
  /-- The calls requested of the QML button, oldest first. -/
  invoked : List QmlInvocation
  /-- The `editProperties` calls queued for the object's own thread. -/
  postedCalls : List QVariantMap
  deriving DecidableEq, Repr

namespace ToolbarButtonProxy

/-- The loop of `editProperties`, lines 67-76, for the entries that remain. -/
def editPropertiesLoop : List (String × QVariant) → ToolbarButtonProxy → ToolbarButtonProxy
  | [], b => b
  | iter :: rest, b =>
    let b1 := { b with _properties := QVariantMap.insert b._properties iter.1 iter.2 }
    let b2 :=
      match b1._qmlButton with
      | some qmlButton =>
        { b1 with invoked := b1.invoked ++
            [{ target := qmlButton, method := "changeProperty"
               args := [.string iter.1, iter.2] }] }
      | none => b1
    editPropertiesLoop rest b2

/-- `ToolbarButtonProxy::editProperties(properties)`, lines 61-77. -/
def editProperties (b : ToolbarButtonProxy) (currentThread : QThread)
    (properties : QVariantMap) : ToolbarButtonProxy :=
  if currentThread ≠ b.thread then
    { b with postedCalls := b.postedCalls ++ [properties] }
  else editPropertiesLoop properties b

end ToolbarButtonProxy

namespace Example

/-- A button proxy on thread 3 with the QML button 50 attached and two stored
properties. -/
def button : ToolbarButtonProxy :=
  { thread := 3
    _properties := [("icon", .string "a.svg"), ("visible", .bool true)]
    _qmlButton := some 50, invoked := [], postedCalls := [] }

end Example

end Overte

namespace Overte

/-! ## Objects with prototypes, read-only properties and accessors that run

The definitions above keep the own data properties of an object and nothing else.
Registration by path and the namespace of a closure evaluation depend on more of the
runtime: a read goes through the prototype chain and runs a getter, a write is refused
by a read-only property and runs a setter, an object made by `v8::Object::New` inherits
from `Object.prototype`, and the global object of a context made by `v8::Context::New`
holds the built-ins.  The definitions of this part follow the same source functions over
a heap that has these.

* A prototype is a heap cell like any other; `Heap.lookup` walks the chain.
* What a getter or a setter does when it is called is code outside the source: it is the
  function `Runtime.Call` of the heap, as a script is its `Run`.
* The built-ins are known by their names (`Builtins`); each built-in function or
  namespace object is a cell of its own, an object without own properties.
-/

namespace Realm

/-- A heap cell: an object with its prototype, whether properties can be added to it,
its own properties in insertion order, and the keys of its own data properties that are
read-only. -/
structure Object where
  kind : ObjectKind
  prototype : Option ObjId
  extensible : Bool
  properties : List Property
  readOnly : List String
  deriving DecidableEq, Repr

/-- The isolate's heap. -/
abbrev Heap := List Object

/-- A `v8::Context`, known by its global object and by its `Object.prototype`, from
which the objects made in the context inherit. -/
structure ScriptContextV8Wrapper where
  global : ObjId
  objectPrototype : ObjId
  deriving DecidableEq, Repr

/-- The names that `v8::Context::New` binds in a new context. -/
structure Builtins where
  /-- The function properties of `Object.prototype` (`toString`, `constructor`, ...). -/
  objectPrototype : List String
  /-- The accessor properties of `Object.prototype` (`__proto__`). -/
  accessors : List String
  /-- The properties of the global object that hold a function or a namespace object
  (`Object`, `Math`, `parseInt`, ...). -/
  global : List String
  /-- The read-only properties of the global object, with their values (`undefined`). -/
  readOnly : List (String × Value)
  deriving DecidableEq, Repr

/-- The runtime outside the source: the built-ins of a new context, and what calling a
function (a getter, a setter) with a receiver and arguments does to the heap, with the
value it returns, or nothing when it throws. -/
structure Runtime where
  builtins : Builtins
  Call : Value → ObjId → List Value → Heap → Heap × Option Value

/-- An extensible object that inherits from `prototype` and holds the given own
properties, none of them read-only. -/
def plainObject (prototype : ObjId) (properties : List Property) : Object :=
  { kind := .plain, prototype := some prototype, extensible := true,
    properties := properties, readOnly := [] }

/-- An extensible object without own properties that inherits from `prototype`. -/
def emptyObject (prototype : ObjId) : Object :=
  plainObject prototype []

/-- The object after `key` has been given the value as an own data property: a data
property that is there takes the value in place, a new property is appended, enumerable
and writable, when the object is extensible. -/
def Object.defineOwn (o : Object) (key : String) (value : Value) : Object :=
  match findProperty o.properties key with
  | some _ => { o with properties := setProperty o.properties key value }
  | none =>
    if o.extensible then { o with properties := setProperty o.properties key value } else o

namespace Heap

/-- The property called `key` that a read of `object` finds, and the object that holds
it: an own property, or else what the prototype has or inherits.  The first argument
bounds the length of the walk. -/
def lookup (h : Heap) : Nat → ObjId → String → Option (ObjId × Property)
  | 0, _, _ => none
  | fuel + 1, object, key =>
    match h[object]? with
    | none => none
    | some o =>
      match findProperty o.properties key with
      | some p => some (object, p)
      | none =>
        match o.prototype with
        | none => none
        | some parent => lookup h fuel parent key

/-- `object->Has(context, key)`: whether the object has a property called `key`, its
own or inherited. -/
def Has (h : Heap) (object : ObjId) (key : String) : Bool :=
  (h.lookup h.length object key).isSome

/-- Whether `key` is a read-only own property of `holder`. -/
def isReadOnly (h : Heap) (holder : ObjId) (key : String) : Bool :=
  match h[holder]? with
  | none => false
  | some o => o.readOnly.contains key

/-- `object->Get(context, key)`: the heap after the read and the `MaybeLocal<Value>`.  A
data property, own or inherited, yields its value; a missing property `undefined`; an
accessor property what its getter returns, and nothing when the getter throws. -/
def Get (R : Runtime) (h : Heap) (object : ObjId) (key : String) : Heap × Option Value :=
  match h.lookup h.length object key with
  | none => (h, some .undefined)
  | some (_, p) =>
    match p.slot with
    | .data v => (h, some v)
    | .accessor getter _ =>
      if getter.IsUndefined then (h, some .undefined) else R.Call getter object [] h

/-- `object->Set(context, key, value).FromMaybe(false)`: the heap after the write and
whether the call reports success.  The value becomes an own data property of `object`
unless the property found for `key` is read-only (nothing is written, and the call
reports success) or an accessor (its setter runs; the call fails when the setter
throws). -/
def Set (R : Runtime) (h : Heap) (object : ObjId) (key : String) (value : Value) :
    Heap × Bool :=
  match h[object]? with
  | none => (h, false)
  | some o =>
    match h.lookup h.length object key with
    | none => (h.set object (o.defineOwn key value), true)
    | some (holder, p) =>
      match p.slot with
      | .data _ =>
        if h.isReadOnly holder key then (h, true)
        else (h.set object (o.defineOwn key value), true)
      | .accessor _ setter =>
        if setter.IsUndefined then (h, true)
        else ((R.Call setter object [value] h).1, (R.Call setter object [value] h).2.isSome)

/-- The walk of `GetPropertyNames`: the enumerable properties of the object that the
keys in `shadow` do not hide, then those of its prototype that the object's own keys do
not hide either.  The first argument bounds the length of the walk. -/
def propertyNames (h : Heap) : Nat → ObjId → List String → List String
  | 0, _, _ => []
  | fuel + 1, object, shadow =>
    match h[object]? with
    | none => []
    | some o =>
      ((o.properties.filter (fun p => p.enumerable && !shadow.contains p.key)).map
          (fun p => p.key))
        ++ (match o.prototype with
            | none => []
            | some parent =>
              propertyNames h fuel parent (shadow ++ o.properties.map (fun p => p.key)))

/-- `object->GetPropertyNames(context)`: the names of the enumerable properties, own
and inherited, the own ones first and in insertion order. -/
def GetPropertyNames (h : Heap) (object : ObjId) : List String :=
  h.propertyNames h.length object []

/-- `v8::Object::New(isolate)` in a context: a new extensible object without own
properties that inherits from the context's `Object.prototype`. -/
def New (h : Heap) (context : ScriptContextV8Wrapper) : Heap × ObjId :=
  (h ++ [emptyObject context.objectPrototype], h.length)

/-- What a read finds without running code: the value of a data property, own or
inherited, `undefined` for a missing property, and nothing for an accessor property. -/
def dataRead (h : Heap) (object : ObjId) (key : String) : Option Value :=
  match h.lookup h.length object key with
  | none => some .undefined
  | some (_, p) =>
    match p.slot with
    | .data v => some v
    | .accessor _ _ => none

/-- Whether, in the cells from index `index` on, every prototype is an older object than
the object that inherits from it. -/
def prototypesOlderFrom : Nat → List Object → Bool
  | _, [] => true
  | index, o :: os =>
    (match o.prototype with
      | none => true
      | some parent => decide (parent < index)) && prototypesOlderFrom (index + 1) os

/-- Whether every prototype is an older object than the object that inherits from it,
as it is while no prototype has been replaced by a younger object. -/
def prototypesOlder (h : Heap) : Bool :=
  prototypesOlderFrom 0 h

end Heap

/-- The properties that bind the names to the cells `first`, `first + 1`, ...; built-in
properties are not enumerable. -/
def builtinProperties : ObjId → List String → List Property
  | _, [] => []
  | first, name :: names =>
    { key := name, slot := .data (.object first), enumerable := false }
      :: builtinProperties (first + 1) names

/-- The accessor properties of the names, with their getters and setters in the cells
`first`, `first + 1`, ... -/
def accessorProperties : ObjId → List String → List Property
  | _, [] => []
  | first, name :: names =>
    { key := name, slot := .accessor (.object first) (.object (first + 1)),
      enumerable := false } :: accessorProperties (first + 2) names

/-- The read-only properties of the global object. -/
def readOnlyProperties (constants : List (String × Value)) : List Property :=
  constants.map (fun c => { key := c.1, slot := .data c.2, enumerable := false })

/-- How many cells the built-in functions and namespace objects of a context take. -/
def Builtins.objectCount (B : Builtins) : Nat :=
  B.objectPrototype.length + 2 * B.accessors.length + B.global.length

/-- The `Object.prototype` of a new context, for the context whose cells start at
`first`: an object without prototype that holds the functions and the accessors. -/
def Builtins.objectPrototypeObject (B : Builtins) (first : ObjId) : Object :=
  { kind := .plain, prototype := none, extensible := true,
    properties := builtinProperties (first + 1) B.objectPrototype
      ++ accessorProperties (first + 1 + B.objectPrototype.length) B.accessors,
    readOnly := [] }

/-- The global object of a new context, for the context whose cells start at `first`:
an extensible object that inherits from the context's `Object.prototype` and holds the
functions, the namespace objects and the read-only properties. -/
def Builtins.globalObject (B : Builtins) (first : ObjId) : Object :=
  { kind := .plain, prototype := some first, extensible := true,
    properties := builtinProperties
        (first + 1 + B.objectPrototype.length + 2 * B.accessors.length) B.global
      ++ readOnlyProperties B.readOnly,
    readOnly := B.readOnly.map Prod.fst }

/-- `v8::Context::New(isolate)`: a context with a new `Object.prototype`, the built-in
functions and namespace objects, and a new global object that holds the built-ins and
inherits from that `Object.prototype`. -/
def ContextNew (R : Runtime) (h : Heap) : Heap × ScriptContextV8Wrapper :=
  (h ++ [R.builtins.objectPrototypeObject h.length]
     ++ List.replicate R.builtins.objectCount (emptyObject h.length)
     ++ [R.builtins.globalObject h.length],
   { global := h.length + 1 + R.builtins.objectCount, objectPrototype := h.length })

/-- Result of `script->Run(context)`: the heap after the run, the `MaybeLocal` result
(empty when the script threw) and the surrounding `v8::TryCatch`. -/
structure RunOutcome where
  heap : Heap
  result : Option Value
  tryCatch : TryCatch

/-- A compiled `v8::Script`, given by what running it in a context does to the heap. -/
structure V8Script where
  Run : Heap → ScriptContextV8Wrapper → RunOutcome

/-- Modelled from the spec: `ScriptProgramV8Wrapper` (ScriptProgramV8Wrapper.h), "a
named, source-text-backed compilation unit".  `compile` is the result of `compile()`,
`script` is `toV8Value()`. -/
structure ScriptProgramV8Wrapper where
  fileName : String
  sourceCode : String
  compile : Bool
  script : V8Script

/-- A `ScriptProgramPointer`: a program of this engine, or one that
`ScriptProgramV8Wrapper::unwrap` does not recognise. -/
inductive ScriptProgramPointer where
  | v8 (program : ScriptProgramV8Wrapper)
  | foreign

/-- `ScriptProgramV8Wrapper::unwrap`. -/
def ScriptProgramV8Wrapper.unwrap : ScriptProgramPointer → Option ScriptProgramV8Wrapper
  | .v8 program => some program
  | .foreign => none

/-- The state of a `ScriptEngineV8` and of its isolate, as far as registration by path
and closure evaluation use it. -/
structure ScriptEngineV8 where
  /-- The owning thread, `QObject::thread()`. -/
  thread : QThread
  /-- The heap of `_v8Isolate`. -/
  heap : Heap
  _contexts : List ScriptContextV8Wrapper
  _evaluatingCounter : Int
  _uncaughtException : Option ScriptException
  /-- The persistent handle `_globalObjectContents`; `areGlobalObjectContentsStored` is
  set exactly when it is. -/
  _globalObjectContents : Option ObjId
  /-- The function-local `static volatile int debug_context_id` of `pushContext`: one
  variable of the process, seen here at the value it has for the next call. -/
  debug_context_id : Int
  /-- Calls queued for the owning thread, oldest first. -/
  postedCalls : List MetaCall
  /-- Failed assertions and fatal checks, oldest first. -/
  failedAsserts : List String
  deriving DecidableEq, Repr

/-- The constructor `ScriptEngineV8::ScriptEngineV8`, lines 296-312: one context, made by
`v8::Context::New`, on the stack, the counter at 0, no exception.  The constructor does
not call `pushContext`: the static `debug_context_id` has the value that the process has
reached. -/
def newScriptEngineV8 (R : Runtime) (thread : QThread) (debug_context_id : Int) :
    ScriptEngineV8 :=
  { thread := thread
    heap := (ContextNew R []).1
    _contexts := [(ContextNew R []).2]
    _evaluatingCounter := 0
    _uncaughtException := none
    _globalObjectContents := none
    debug_context_id := debug_context_id
    postedCalls := []
    failedAsserts := [] }

namespace ScriptEngineV8

/-- The flag `areGlobalObjectContentsStored`. -/
def areGlobalObjectContentsStored (s : ScriptEngineV8) : Bool :=
  s._globalObjectContents.isSome

/-- Records a failed assertion. -/
def assertFailed (s : ScriptEngineV8) (what : List String) : ScriptEngineV8 :=
  { s with failedAsserts := s.failedAsserts ++ what }

/-- `getContext()`: the top of the context stack, `_contexts.last()`; nothing when the
stack is empty (where the source asserts). -/
def getContext (s : ScriptEngineV8) : Option ScriptContextV8Wrapper :=
  s._contexts.getLast?

/-- `hasUncaughtException()`. -/
def hasUncaughtException (s : ScriptEngineV8) : Bool :=
  s._uncaughtException.isSome

/-- `pushContext(context)`, lines 1151-1163: appends the context, installs
`debug_context_id` in its global object and increments the identifier. -/
def pushContext (R : Runtime) (s : ScriptEngineV8) (context : ScriptContextV8Wrapper) :
    ScriptEngineV8 :=
  { s with
    _contexts := s._contexts ++ [context]
    heap := (Heap.Set R s.heap context.global "debug_context_id"
      (.integer s.debug_context_id)).1
    debug_context_id := s.debug_context_id + 1
    failedAsserts := s.failedAsserts
      ++ (if s._contexts.isEmpty then ["Q_ASSERT(!_contexts.isEmpty())"] else [])
      ++ (if (Heap.Set R s.heap context.global "debug_context_id"
            (.integer s.debug_context_id)).2
          then [] else ["Q_ASSERT(false)"]) }

/-- `popContext()`, lines 1165-1168: `Q_ASSERT(!_contexts.isEmpty())`, then
`_contexts.pop_back()`. -/
def popContext (s : ScriptEngineV8) : ScriptEngineV8 :=
  if s._contexts.isEmpty then s.assertFailed ["Q_ASSERT(!_contexts.isEmpty())"]
  else { s with _contexts := s._contexts.dropLast }

/-- Lines 388-413 of `registerValue`: the test for `createProperty` in one iteration and
the block it guards.  A segment that reads as `undefined` (or cannot be read) is
created: as a new object when more segments follow, as `value` when it is the last.
The result is the heap and the assertions that failed. -/
def registerValueCreate (R : Runtime) (context : ScriptContextV8Wrapper) (value : Value)
    (pathPart : String) (partsToGo : Int) (partObject : ObjId) (h : Heap) :
    Heap × List String :=
  let currentPath := Heap.Get R h partObject pathPart
  let createProperty :=
    match currentPath.2 with
    | none => true
    | some v => v.IsUndefined
  if createProperty then
    if partsToGo > 0 then
      let partValue := Heap.New currentPath.1 context
      let r := Heap.Set R partValue.1 partObject pathPart (.object partValue.2)
      (r.1, if r.2 then [] else ["Q_ASSERT(false)"])
    else
      let r := Heap.Set R currentPath.1 partObject pathPart value
      (r.1, if r.2 then [] else ["Q_ASSERT(false)"])
  else (currentPath.1, [])

/-- The loop of `registerValue`, lines 386-427, from the current `pathPart` on:
`partsToGo` and `partObject` are the loop's variables; the result is the heap and the
assertions that failed. -/
def registerValueLoop (R : Runtime) (context : ScriptContextV8Wrapper) (value : Value) :
    List String → Int → ObjId → Heap → Heap × List String
  | [], _, _, h => (h, [])
  | pathPart :: rest, partsToGo, partObject, h =>
    let partsToGo := partsToGo - 1
    let written := registerValueCreate R context value pathPart partsToGo partObject h
    let read := Heap.Get R written.1 partObject pathPart
    match read.2 with
    | none =>
      -- the read fails: Q_ASSERT(false); `child` is an empty handle
      if partsToGo > 0 then (read.1, written.2 ++ ["Q_ASSERT(false)"])
      else
        let r := registerValueLoop R context value rest partsToGo partObject read.1
        (r.1, written.2 ++ ["Q_ASSERT(false)"] ++ r.2)
    | some child =>
      if partsToGo > 0 then
        match child with
        | .object id =>
          let r := registerValueLoop R context value rest partsToGo id read.1
          (r.1, written.2 ++ r.2)
        | _ =>
          (read.1, written.2
            ++ ["ScriptEngineV8::registerValue: Part of path is not an object: " ++ pathPart])
      else
        let r := registerValueLoop R context value rest partsToGo partObject read.1
        (r.1, written.2 ++ r.2)

/-- `registerValue(valueName, value)`, lines 367-428. -/
def registerValue (R : Runtime) (s : ScriptEngineV8) (currentThread : QThread)
    (valueName : String) (value : Value) : ScriptEngineV8 :=
  if currentThread ≠ s.thread then
    { s with postedCalls := s.postedCalls ++ [.registerValue valueName value] }
  else
    match s.getContext with
    | none => s.assertFailed ["Q_ASSERT(!_contexts.isEmpty())"]
    | some context =>
      let pathToValue := split valueName '.'
      let r := registerValueLoop R context value pathToValue pathToValue.length
        context.global s.heap
      { s with heap := r.1, failedAsserts := s.failedAsserts ++ r.2 }

/-- The loop of `registerEnum`, lines 360-364, for the indices that remain. -/
def registerEnumLoop (R : Runtime) (currentThread : QThread) (enumName : String)
    (newEnum : QMetaEnum) : List Nat → ScriptEngineV8 → ScriptEngineV8
  | [], s => s
  | i :: is, s =>
    let keyName := newEnum.key i
    let fullName := enumName ++ "." ++ keyName
    registerEnumLoop R currentThread enumName newEnum is
      (s.registerValue R currentThread fullName (.integer (newEnum.keyToValue keyName)))

/-- `registerEnum(enumName, newEnum)`, lines 350-365. -/
def registerEnum (R : Runtime) (s : ScriptEngineV8) (currentThread : QThread)
    (enumName : String) (newEnum : QMetaEnum) : ScriptEngineV8 :=
  if !newEnum.isValid then s
  else
    match s.getContext with
    | none => s.assertFailed ["Q_ASSERT(!_contexts.isEmpty())"]
    | some _ =>
      registerEnumLoop R currentThread enumName newEnum (List.range newEnum.keyCount) s

/-- The copy loops of `storeGlobalObjectContents` (lines 699-704) and of
`evaluateInClosure` (lines 841-846 and 863-870): for each name,
`target->Set(name, source->Get(name).ToLocalChecked())`.  A read that yields nothing
fails the check and ends the loop. -/
def copyProperties (R : Runtime) (source target : ObjId) :
    List String → Heap → Heap × List String
  | [], h => (h, [])
  | name :: names, h =>
    match (Heap.Get R h source name).2 with
    | none => ((Heap.Get R h source name).1, ["ToLocalChecked"])
    | some v =>
      let r := Heap.Set R (Heap.Get R h source name).1 target name v
      let rest := copyProperties R source target names r.1
      (rest.1, (if r.2 then [] else ["Q_ASSERT(false)"]) ++ rest.2)

/-- `storeGlobalObjectContents()`, lines 687-709. -/
def storeGlobalObjectContents (R : Runtime) (s : ScriptEngineV8) : ScriptEngineV8 :=
  if s.areGlobalObjectContentsStored then s
  else
    match s.getContext with
    | none => s.assertFailed ["Q_ASSERT(!_contexts.isEmpty())"]
    | some context =>
      let globalMemberObjects := Heap.New s.heap context
      let globalMemberNames := Heap.GetPropertyNames globalMemberObjects.1 context.global
      let r := copyProperties R context.global globalMemberObjects.2 globalMemberNames
        globalMemberObjects.1
      { s with heap := r.1
               _globalObjectContents := some globalMemberObjects.2
               failedAsserts := s.failedAsserts ++ r.2 }

/-- Lines 792-793 of `evaluateInClosure`: `closureContext = v8::Context::New(...)` and
`pushContext(closureContext)`. -/
def enterClosureContext (R : Runtime) (s : ScriptEngineV8) :
    ScriptEngineV8 × ScriptContextV8Wrapper :=
  (pushContext R { s with heap := (ContextNew R s.heap).1 } (ContextNew R s.heap).2,
   (ContextNew R s.heap).2)

/-- Lines 839-870 of `evaluateInClosure`: the enumerable properties of the stored global
object contents, then those of the closure object, are copied into the global object of
the closure context. -/
def fillClosureGlobal (R : Runtime) (s : ScriptEngineV8)
    (closureContext : ScriptContextV8Wrapper) (closureObject : ObjId) : ScriptEngineV8 :=
  let fromGlobal : Heap × List String :=
    match s._globalObjectContents with
    | none => (s.heap, ["_globalObjectContents.IsEmpty()"])
    | some globalObjectContents =>
      copyProperties R globalObjectContents closureContext.global
        (Heap.GetPropertyNames s.heap globalObjectContents) s.heap
  let fromClosure := copyProperties R closureObject closureContext.global
    (Heap.GetPropertyNames fromGlobal.1 closureObject) fromGlobal.1
  { s with heap := fromClosure.1
           failedAsserts := s.failedAsserts ++ fromGlobal.2 ++ fromClosure.2 }

/-- `evaluateInClosure(_closure, _program)`, lines 711-921. -/
def evaluateInClosure (R : Runtime) (s : ScriptEngineV8) (currentThread : QThread)
    (_closure : ScriptValue) (_program : ScriptProgramPointer) :
    ScriptEngineV8 × ScriptValue :=
  if !(IS_THREADSAFE_INVOCATION currentThread s.thread "evaluateInClosure").1 then
    (s.assertFailed (IS_THREADSAFE_INVOCATION currentThread s.thread "evaluateInClosure").2,
     nullValue)
  else
    let s1 := storeGlobalObjectContents R
      { s with _evaluatingCounter := s._evaluatingCounter + 1 }
    match s1.getContext with
    | none => (s1.assertFailed ["Q_ASSERT(!_contexts.isEmpty())"], nullValue)
    | some context =>
      match ScriptProgramV8Wrapper.unwrap _program with
      | none =>
        (({ s1 with _evaluatingCounter := s1._evaluatingCounter - 1 }).assertFailed
          ["Cannot unwrap program for closure"], nullValue)
      | some unwrappedProgram =>
        match ScriptValueV8Wrapper.unwrap _closure with
        | none =>
          (({ s1 with _evaluatingCounter := s1._evaluatingCounter - 1 }).assertFailed
            ["Cannot unwrap closure"], nullValue)
        | some (.object closureObject) =>
          let testObject := Heap.New s1.heap context
          let tested := Heap.Set R testObject.1 testObject.2 "test_value"
            (.object closureObject)
          let s2 := ({ s1 with heap := tested.1 }).assertFailed
            (if tested.2 then [] else ["Q_ASSERT(false)"])
          let closureGlobal := Heap.Get R s2.heap closureObject "global"
          match closureGlobal.2 with
          | none =>
            (({ s2 with heap := closureGlobal.1
                        _evaluatingCounter := s2._evaluatingCounter - 1 }).assertFailed
              ["Cannot get global from unwrapped closure"], nullValue)
          | some _ =>
            let entered := enterClosureContext R { s2 with heap := closureGlobal.1 }
            let closureContext := entered.2
            if !unwrappedProgram.compile then
              ((entered.1.assertFailed
                  ["Can't compile script for evaluating in closure"]).popContext,
               nullValue)
            else
              let s3 := fillClosureGlobal R entered.1 closureContext closureObject
              let maybeResult := unwrappedProgram.script.Run s3.heap closureContext
              let s4 := { s3 with heap := maybeResult.heap }
              let result : ScriptValue :=
                if s4.hasUncaughtException then nullValue
                else
                  match maybeResult.result with
                  | some v8Result => .v8 v8Result
                  | none => .v8 .empty
              let s5 := s4.popContext
              ({ s5 with _evaluatingCounter := s5._evaluatingCounter - 1 }, result)
        | some _ =>
          (({ s1 with _evaluatingCounter := s1._evaluatingCounter - 1 }).assertFailed
            ["Unwrapped closure is not an object"], nullValue)

/-- The global object of the current context, `getContext()->Global()`. -/
def globalObject (s : ScriptEngineV8) : Option ObjId :=
  match s.getContext with
  | some context => some context.global
  | none => none

end ScriptEngineV8

/-- Reading a dotted path: the segments are walked from `object` with `Get`; every
segment but the last has to be bound to an object, the value of the last one is the
result. -/
def readPath (R : Runtime) (h : Heap) : ObjId → List String → Option Value
  | _, [] => none
  | object, [leaf] => (Heap.Get R h object leaf).2
  | object, pathPart :: rest =>
    match (Heap.Get R h object pathPart).2 with
    | some (.object child) => readPath R (Heap.Get R h object pathPart).1 child rest
    | _ => none

/-- The object reached from `object` along segments that are all data properties
holding objects. -/
def walkPath (h : Heap) : ObjId → List String → Option ObjId
  | object, [] => some object
  | object, pathPart :: rest =>
    match h.dataRead object pathPart with
    | some (.object child) => walkPath h child rest
    | _ => none

/-- Reading a dotted path without running code: as `readPath`, through data properties
only.  Nothing when a segment is an accessor property or, before the last, holds no
object. -/
def readData (h : Heap) : ObjId → List String → Option Value
  | _, [] => none
  | object, [leaf] => h.dataRead object leaf
  | object, pathPart :: rest =>
    match h.dataRead object pathPart with
    | some (.object child) => readData h child rest
    | _ => none

end Realm

end Overte

namespace Overte

namespace Realm

/-! ## A runtime and engines used in the examples -/

namespace Example

/-- A selection of the standard built-ins: the properties of `Object.prototype`, some
of the functions and namespace objects of the global object, and its read-only
`undefined`.  (`NaN` and `Infinity`, the other read-only properties of the global
object, hold numbers that are not integers.) -/
def builtins : Builtins :=
  { objectPrototype := ["constructor", "__defineGetter__", "__defineSetter__",
      "hasOwnProperty", "__lookupGetter__", "__lookupSetter__", "isPrototypeOf",
      "propertyIsEnumerable", "toString", "valueOf", "toLocaleString"]
    accessors := ["__proto__"]
    global := ["Object", "Function", "Array", "Number", "Boolean", "String", "Symbol",
      "Date", "RegExp", "Error", "JSON", "Math", "parseInt", "parseFloat", "eval"]
    readOnly := [("undefined", .undefined)] }

/-- A runtime with these built-ins in which a call changes nothing and returns
`undefined`. -/
def runtime : Runtime :=
  { builtins := builtins
    Call := fun _ _ _ h => (h, some .undefined) }

/-- The engine as constructed on thread 7, in a process whose `debug_context_id` is
at 1. -/
def engine : ScriptEngineV8 :=
  newScriptEngineV8 runtime 7 1

/-- An engine on thread 7 whose global object (object 29) has `a = 1`. -/
def baseEngine : ScriptEngineV8 :=
  engine.registerValue runtime 7 "a" (.integer 1)

/-- The engine `baseEngine` after `newObject()` and two `setProperty` calls have built
the closure object `{a: 2, b: 3}`, which is object 30. -/
def engineWithClosure : ScriptEngineV8 :=
  { baseEngine with
    heap := (Heap.Set runtime
      (Heap.Set runtime (Heap.New baseEngine.heap { global := 29, objectPrototype := 0 }).1
        30 "a" (.integer 2)).1 30 "b" (.integer 3)).1 }

/-- The closure object `{a: 2, b: 3}` of `engineWithClosure`. -/
def closure : ScriptValue := .v8 (.object 30)

/-- The script `a+b`: the sum of the globals `a` and `b` when both hold integers. -/
def aPlusB : V8Script :=
  { Run := fun h context =>
      { heap := h
        result :=
          match h.dataRead context.global "a", h.dataRead context.global "b" with
          | some (.integer x), some (.integer y) => some (.integer (x + y))
          | _, _ => none
        tryCatch := TryCatch.none } }

/-- A program of this engine that compiles to the given script. -/
def programOf (sourceCode : String) (script : V8Script) : ScriptProgramPointer :=
  .v8 { fileName := "example.js", sourceCode := sourceCode, compile := true, script := script }

/-- A runtime with these built-ins and a host getter and setter, such as
`registerGetterSetter` installs: the getter (object 30) returns `undefined`, the setter
(object 31) keeps the value it is given in the property `stored` of the receiver; any
other call changes nothing and returns `undefined`. -/
def hostRuntime : Runtime :=
  { builtins := builtins
    Call := fun f receiver arguments h =>
      match f, arguments, h[receiver]? with
      | .object 31, [value], some o =>
        (h.set receiver (o.defineOwn "stored" value), some .undefined)
      | _, _, _ => (h, some .undefined) }

/-- The engine as constructed, after the accessor property `p` has been defined on the
global object (object 29) with the getter and the setter of `hostRuntime`. -/
def engineWithAccessor : ScriptEngineV8 :=
  { engine with
    heap := (engine.heap ++ [emptyObject 0, emptyObject 0]).set 29
      { kind := .plain, prototype := some 0, extensible := true,
        properties := (engine.heap.getD 29 (emptyObject 0)).properties
          ++ [{ key := "p", slot := .accessor (.object 30) (.object 31), enumerable := false }],
        readOnly := ["undefined"] } }

end Example

end Realm

end Overte

namespace Overte

namespace Example

end Example

end Overte

namespace Overte

theorem findProperty_setProperty_ne (ps : List Property) (k k' : String) (v : Value)
    (hk : k' ≠ k) : findProperty (setProperty ps k v) k' = findProperty ps k' := by
  induction ps with
  | nil =>
    have hb : (k == k') = false := by simpa using (Ne.symm hk)
    simp [setProperty, findProperty, List.find?, hb]
  | cons p ps ih =>
    have hb : (k == k') = false := by simpa using (Ne.symm hk)
    unfold setProperty
    by_cases hp : p.key = k
    · simp only [hp, beq_self_eq_true, if_true]
      cases hs : p.slot <;> simp [findProperty, List.find?, hp, hb]
    · have : (p.key == k) = false := by simpa using hp
      simp only [this]
      simp only [findProperty, List.find?] at ih ⊢
      by_cases hp' : p.key = k'
      · simp [hp']
      · have h2 : (p.key == k') = false := by simpa using hp'
        simp [h2, ih]

theorem findProperty_setProperty_self (ps : List Property) (k : String) (v : Value) :
    findProperty (setProperty ps k v) k =
      match findProperty ps k with
      | none => some { key := k, slot := .data v, enumerable := true }
      | some p =>
        some (match p.slot with
          | .data _ => { p with slot := .data v }
          | .accessor _ _ => p) := by
  induction ps with
  | nil => simp [setProperty, findProperty, List.find?]
  | cons p ps ih =>
    unfold setProperty
    by_cases hp : p.key = k
    · simp only [hp, beq_self_eq_true, if_true]
      cases hs : p.slot <;> simp [findProperty, List.find?, hp, hs]
    · have : (p.key == k) = false := by simpa using hp
      simp only [this]
      simp only [findProperty, List.find?] at ih ⊢
      simp [this, ih]

theorem Heap.Get_Set (h : Heap) (o : ObjId) (k : String) (v : Value) (o' : ObjId)
    (k' : String) :
    (h.Set o k v).1.Get o' k' =
      if o' = o ∧ k' = k ∧ o < h.length ∧ (h.Get o k).isSome then some v else h.Get o' k' := by
  unfold Heap.Set
  cases ho : h[o]? with
  | none =>
    have : ¬ o < h.length := by
      intro hlt
      simp [List.getElem?_eq_getElem hlt] at ho
    simp [this]
  | some obj =>
    have hlt : o < h.length := by
      by_contra hge
      simp [List.getElem?_eq_none (Nat.le_of_not_lt hge)] at ho
    by_cases hoo : o' = o
    · subst hoo
      by_cases hkk : k' = k
      · subst hkk
        simp only [Heap.Get, ho, List.getElem?_set_self hlt, findProperty_setProperty_self]
        cases hf : findProperty obj.properties k' with
        | none => simp [hlt]
        | some p =>
          cases hs : p.slot <;> simp [hlt, hs]
      · simp only [Heap.Get, ho, List.getElem?_set_self hlt,
          findProperty_setProperty_ne _ _ _ _ hkk]
        simp [hkk]
    · have : (h.set o { obj with properties := setProperty obj.properties k v })[o']? = h[o']? := by
        rw [List.getElem?_set_ne (Ne.symm hoo)]
      simp only [Heap.Get, this]
      simp [hoo]

end Overte

namespace Overte

theorem Heap.Set_length (h : Heap) (o : ObjId) (k : String) (v : Value) :
    (h.Set o k v).1.length = h.length := by
  unfold Heap.Set
  cases h[o]? <;> simp

theorem Heap.Set_getElem?_ne (h : Heap) (o : ObjId) (k : String) (v : Value) (o' : ObjId)
    (hne : o' ≠ o) : (h.Set o k v).1[o']? = h[o']? := by
  unfold Heap.Set
  cases h[o]? with
  | none => rfl
  | some obj => simp [List.getElem?_set_ne (Ne.symm hne)]

theorem Heap.alloc_length (h : Heap) (kind : ObjectKind) :
    (h.alloc kind).1.length = h.length + 1 := by
  simp [Heap.alloc]

theorem Heap.alloc_snd (h : Heap) (kind : ObjectKind) : (h.alloc kind).2 = h.length := rfl

theorem Heap.alloc_getElem?_lt (h : Heap) (kind : ObjectKind) (o : ObjId)
    (hlt : o < h.length) : (h.alloc kind).1[o]? = h[o]? := by
  simp [Heap.alloc, List.getElem?_append_left hlt]

theorem Heap.alloc_getElem?_new (h : Heap) (kind : ObjectKind) :
    (h.alloc kind).1[h.length]? = some { kind := kind, properties := [] } := by
  simp [Heap.alloc]

theorem Heap.Get_alloc (h : Heap) (kind : ObjectKind) (o : ObjId) (k : String) :
    (h.alloc kind).1.Get o k = h.Get o k := by
  rcases Nat.lt_trichotomy o h.length with hlt | heq | hgt
  · simp [Heap.Get, Heap.alloc_getElem?_lt h kind o hlt]
  · subst heq
    simp [Heap.Get, Heap.alloc_getElem?_new, findProperty]
  · have h1 : (h.alloc kind).1[o]? = none := by
      apply List.getElem?_eq_none
      rw [Heap.alloc_length]; omega
    have h2 : h[o]? = none := List.getElem?_eq_none (by omega)
    simp [Heap.Get, h1, h2]

theorem Heap.GetPropertyNames_Set_ne (h : Heap) (o : ObjId) (k : String) (v : Value)
    (o' : ObjId) (hne : o' ≠ o) :
    (h.Set o k v).1.GetPropertyNames o' = h.GetPropertyNames o' := by
  simp [Heap.GetPropertyNames, Heap.Set_getElem?_ne h o k v o' hne]

end Overte

namespace Overte

theorem Heap.Get_congr {h h' : Heap} {o : ObjId} (e : h'[o]? = h[o]?) (k : String) :
    h'.Get o k = h.Get o k := by
  simp [Heap.Get, e]

end Overte

namespace Overte

open ScriptEngineV8

theorem assertFailed_contexts (s : ScriptEngineV8) (w : List String) :
    (s.assertFailed w)._contexts = s._contexts := rfl

theorem storeGlobalObjectContents_contexts (s : ScriptEngineV8) :
    s.storeGlobalObjectContents._contexts = s._contexts := by
  unfold storeGlobalObjectContents
  split
  · rfl
  · split <;> rfl

theorem registerValue_contexts (s : ScriptEngineV8) (t : QThread) (valueName : String)
    (value : Value) : (s.registerValue t valueName value)._contexts = s._contexts := by
  unfold registerValue
  split
  · rfl
  · split <;> rfl

theorem registerEnumLoop_contexts (t : QThread) (enumName : String) (newEnum : QMetaEnum)
    (is : List Nat) :
    ∀ s : ScriptEngineV8, (registerEnumLoop t enumName newEnum is s)._contexts = s._contexts := by
  induction is with
  | nil => intro s; rfl
  | cons i is ih =>
    intro s
    simp only [registerEnumLoop]
    rw [ih, registerValue_contexts]

theorem registerEnum_contexts (s : ScriptEngineV8) (t : QThread) (enumName : String)
    (newEnum : QMetaEnum) : (s.registerEnum t enumName newEnum)._contexts = s._contexts := by
  unfold registerEnum
  split
  · rfl
  · split
    · rfl
    · exact registerEnumLoop_contexts _ _ _ _ _

theorem registerGlobalObject_contexts (s : ScriptEngineV8) (t : QThread) (name : String)
    (object : Option QObjectPtr) :
    (s.registerGlobalObject t name object)._contexts = s._contexts := by
  unfold registerGlobalObject
  split
  · rfl
  · split
    · rfl
    · split <;> (simp only []; split <;> rfl)

theorem registerFunction_contexts (s : ScriptEngineV8) (t : QThread) (name : String)
    (fn : FunctionSignature) (n : Int) :
    (s.registerFunction t name fn n)._contexts = s._contexts := by
  unfold registerFunction
  split
  · rfl
  · split <;> rfl

theorem registerFunctionInParent_contexts (s : ScriptEngineV8) (t : QThread)
    (parent name : String) (fn : FunctionSignature) (n : Int) :
    (s.registerFunctionInParent t parent name fn n)._contexts = s._contexts := by
  unfold registerFunctionInParent
  split
  · rfl
  · split
    · rfl
    · split <;> rfl

theorem registerGetterSetter_contexts (s : ScriptEngineV8) (t : QThread) (name : String)
    (getter setter : FunctionSignature) (parent : String) :
    (s.registerGetterSetter t name getter setter parent)._contexts = s._contexts := by
  unfold registerGetterSetter
  split
  · rfl
  · split
    · rfl
    · simp only []
      split
      · split <;> rfl
      · rfl

theorem setUncaughtExceptionFromTryCatch_contexts (s : ScriptEngineV8) (tc : TryCatch)
    (info : String) : (s.setUncaughtExceptionFromTryCatch tc info)._contexts = s._contexts := by
  unfold setUncaughtExceptionFromTryCatch
  split <;> rfl

theorem evaluate_contexts (v8 : V8) (s : ScriptEngineV8) (sourceCode fileName : String) :
    (s.evaluate v8 sourceCode fileName).1._contexts = s._contexts := by
  unfold evaluate
  simp only []
  split
  · rfl
  · split
    · simp only [setUncaughtExceptionFromTryCatch_contexts]
    · split
      · simp only [setUncaughtExceptionFromTryCatch_contexts, assertFailed_contexts]
      · rfl

theorem raiseException_contexts (s : ScriptEngineV8) (t : QThread) (e : ScriptValue)
    (reason : String) : (s.raiseException t e reason).1._contexts = s._contexts := by
  unfold raiseException raiseExceptionV8
  split <;> rfl

theorem evaluateProgram_contexts (s : ScriptEngineV8) (program : ScriptProgramPointer) :
    (s.evaluateProgram program).1._contexts = s._contexts := by
  unfold evaluateProgram
  simp only []
  split
  · rfl
  · split
    · rfl
    · split
      · rfl
      · split
        · simp only [raiseException_contexts, assertFailed_contexts]
        · rfl

theorem popContext_pushed (s : ScriptEngineV8) (c : ScriptContextV8Wrapper)
    (l : List ScriptContextV8Wrapper) (h : s._contexts = l ++ [c]) :
    s.popContext._contexts = l := by
  unfold popContext
  simp [h]

theorem enterClosureContext_contexts (s : ScriptEngineV8) :
    s.enterClosureContext.1._contexts = s._contexts ++ [s.enterClosureContext.2] := rfl

theorem fillClosureGlobal_contexts (s : ScriptEngineV8) (c : ScriptContextV8Wrapper)
    (o : ObjId) : (s.fillClosureGlobal c o)._contexts = s._contexts := rfl

theorem popContext_enterClosureContext (s : ScriptEngineV8) (w : List String) :
    (s.enterClosureContext.1.assertFailed w).popContext._contexts = s._contexts := by
  simp [popContext, enterClosureContext, pushContext, assertFailed]

theorem popContext_after_run (s : ScriptEngineV8) (o : ObjId) (h : Heap) :
    (ScriptEngineV8.popContext
      { s.enterClosureContext.1.fillClosureGlobal s.enterClosureContext.2 o with
        heap := h })._contexts = s._contexts := by
  simp [popContext, enterClosureContext, pushContext, fillClosureGlobal]

/-- `evaluateInClosure` returns with the context stack it was called with. -/
theorem evaluateInClosure_contexts (s : ScriptEngineV8) (t : QThread) (closure : ScriptValue)
    (program : ScriptProgramPointer) :
    (s.evaluateInClosure t closure program).1._contexts = s._contexts := by
  unfold evaluateInClosure
  split
  · rfl
  · simp only []
    split
    · simp only [assertFailed_contexts, storeGlobalObjectContents_contexts]
    · split
      · simp only [assertFailed_contexts, storeGlobalObjectContents_contexts]
      · split
        · simp only [assertFailed_contexts, storeGlobalObjectContents_contexts]
        · split
          · simp only [assertFailed_contexts, storeGlobalObjectContents_contexts]
          · split
            · simp only [popContext_enterClosureContext, assertFailed_contexts,
                storeGlobalObjectContents_contexts]
            · simp only [popContext_after_run, assertFailed_contexts,
                storeGlobalObjectContents_contexts]
        · simp only [assertFailed_contexts, storeGlobalObjectContents_contexts]

end Overte

namespace Overte

open ScriptEngineV8

/-- C2.  Context stack balance: for every call of `evaluateInClosure`, on whatever
thread and whether it succeeds or fails (program or closure does not unwrap, closure is
not an object, the program does not compile, the run throws), the context stack after
the call is the stack before the call, and so has the same length. -/
theorem C2_evaluateInClosure_balances_context_stack (s : ScriptEngineV8) (t : QThread)
    (closure : ScriptValue) (program : ScriptProgramPointer) :
    (s.evaluateInClosure t closure program).1._contexts = s._contexts ∧
      (s.evaluateInClosure t closure program).1._contexts.length = s._contexts.length := by
  have h := evaluateInClosure_contexts s t closure program
  exact ⟨h, by rw [h]⟩

end Overte

namespace Overte

open ScriptEngineV8

theorem pushContext_contexts (s : ScriptEngineV8) (c : ScriptContextV8Wrapper) :
    (s.pushContext c)._contexts = s._contexts ++ [c] := rfl

theorem popContext_contexts (s : ScriptEngineV8) :
    s.popContext._contexts = s._contexts.dropLast := by
  unfold popContext
  split
  · rename_i h
    have : s._contexts = [] := by simpa using h
    simp [assertFailed, this]
  · rfl

/-- Every operation other than `pushContext` and `popContext` returns with the context
stack it was called with. -/
theorem Op.apply_contexts (op : Op) (s : ScriptEngineV8) :
    (op.apply s)._contexts =
      match op with
      | .pushContext c => s._contexts ++ [c]
      | .popContext => s._contexts.dropLast
      | _ => s._contexts := by
  cases op with
  | registerValue t n v => exact registerValue_contexts s t n v
  | registerEnum t n e => exact registerEnum_contexts s t n e
  | registerGlobalObject t n o => exact registerGlobalObject_contexts s t n o
  | registerFunction t n f k => exact registerFunction_contexts s t n f k
  | registerFunctionInParent t p n f k => exact registerFunctionInParent_contexts s t p n f k
  | registerGetterSetter t n g st p => exact registerGetterSetter_contexts s t n g st p
  | evaluate v8 src file => exact evaluate_contexts v8 s src file
  | evaluateProgram p => exact evaluateProgram_contexts s p
  | evaluateInClosure t c p => exact evaluateInClosure_contexts s t c p
  | pushContext c => exact pushContext_contexts s c
  | popContext => exact popContext_contexts s

theorem head?_dropLast_of_two_le {α : Type} (l : List α) (h : 2 ≤ l.length) :
    l.dropLast.head? = l.head? := by
  match l, h with
  | a :: b :: rest, _ => simp [List.dropLast]

theorem runOps_keeps_first_context (r : ScriptContextV8Wrapper) (ops : List Op) :
    ∀ s : ScriptEngineV8, s._contexts.head? = some r → popsArePaired ops s = true →
      (runOps ops s)._contexts.head? = some r := by
  induction ops with
  | nil => intro s h _; exact h
  | cons op ops ih =>
    intro s h hp
    simp only [popsArePaired, Bool.and_eq_true] at hp
    apply ih (op.apply s) _ hp.2
    rw [Op.apply_contexts]
    cases op with
    | pushContext c =>
      cases hc : s._contexts with
      | nil => simp [hc] at h
      | cons a l => simpa [hc] using h
    | popContext =>
      have h2 : 2 ≤ s._contexts.length := by simpa using hp.1
      simp only []
      rw [head?_dropLast_of_two_le _ h2]
      exact h
    | _ => exact h

/-- C3 (as stated, refuted).  `popContext` called on the engine as constructed passes its
assertion (the stack is not empty) and removes the only context: the state
reached is an engine whose context stack is empty. -/
theorem C3_counterexample :
    runOps [Op.popContext] (newScriptEngineV8 1 7) = (newScriptEngineV8 1 7).popContext ∧
      (runOps [Op.popContext] (newScriptEngineV8 1 7))._contexts = [] ∧
      (runOps [Op.popContext] (newScriptEngineV8 1 7)).failedAsserts = [] := by
  decide

/-- C3 (amended).  In every state reached from engine construction by a sequence of the
engine's operations (the `register*` functions, both `evaluate`, `evaluateInClosure`,
`pushContext`, `popContext`) in which every `popContext` is called while the stack holds
at least two contexts, the stack holds at least one context and its first element is
the context created at construction. -/
theorem C3_context_stack_keeps_first_context (self : EnginePtr) (thread : QThread)
    (ops : List Op) (hp : popsArePaired ops (newScriptEngineV8 self thread) = true) :
    (runOps ops (newScriptEngineV8 self thread))._contexts ≠ [] ∧
      (runOps ops (newScriptEngineV8 self thread))._contexts.head? =
        (newScriptEngineV8 self thread)._contexts.head? := by
  have h := runOps_keeps_first_context (ContextNew []).2 ops (newScriptEngineV8 self thread)
    rfl hp
  refine ⟨?_, h⟩
  intro he
  rw [he] at h
  simp at h

/-- C3, witness: a registration, a closure evaluation and a paired push and pop after
construction leave the first context in place. -/
theorem C3_context_stack_keeps_first_context_witness :
    (runOps
        [Op.registerValue 7 "a" (.integer 1),
         Op.evaluateInClosure 7 (.v8 .null) (Example.programOf "a+b" Example.aPlusB),
         Op.pushContext { global := 0 }, Op.popContext]
        (newScriptEngineV8 1 7))._contexts ≠ [] ∧
      (runOps
        [Op.registerValue 7 "a" (.integer 1),
         Op.evaluateInClosure 7 (.v8 .null) (Example.programOf "a+b" Example.aPlusB),
         Op.pushContext { global := 0 }, Op.popContext]
        (newScriptEngineV8 1 7))._contexts.head? = (newScriptEngineV8 1 7)._contexts.head? :=
  C3_context_stack_keeps_first_context 1 7
    [Op.registerValue 7 "a" (.integer 1),
     Op.evaluateInClosure 7 (.v8 .null) (Example.programOf "a+b" Example.aPlusB),
     Op.pushContext { global := 0 }, Op.popContext] (by decide)

/-- C4 (as stated, refuted).  On a stack that holds exactly one context, `popContext`
raises no assertion and removes that context, which leaves the stack empty. -/
theorem C4_counterexample :
    (newScriptEngineV8 1 7)._contexts.length = 1 ∧
      (newScriptEngineV8 1 7).popContext.failedAsserts = (newScriptEngineV8 1 7).failedAsserts ∧
      (newScriptEngineV8 1 7).popContext._contexts = [] := by
  decide

/-- C4 (amended).  `popContext` fails its assertion only when the stack is already
empty.  Whenever the stack holds at least one context, also when it holds exactly one,
it removes exactly the top element, raises no assertion and changes nothing else. -/
theorem C4_popContext_asserts_only_on_empty_stack (s : ScriptEngineV8) :
    (∀ (below : List ScriptContextV8Wrapper) (top : ScriptContextV8Wrapper),
        s._contexts = below ++ [top] →
        s.popContext = { s with _contexts := below }) ∧
      (s._contexts = [] →
        s.popContext.failedAsserts = s.failedAsserts ++ ["Q_ASSERT(!_contexts.isEmpty())"] ∧
        s.popContext._contexts = []) := by
  constructor
  · intro below top h
    unfold popContext
    simp [h]
  · intro h
    unfold popContext
    simp [h, assertFailed]

end Overte

namespace Overte

open ScriptEngineV8

theorem length_cast_pred (p : String) (rest : List String) :
    ((((p :: rest).length : Nat) : Int) - 1) = ((rest.length : Nat) : Int) := by
  simp only [List.length_cons]; push_cast; omega

theorem splitAux_ne_nil (sep : Char) (cs acc : List Char) : splitAux sep cs acc ≠ [] := by
  induction cs generalizing acc with
  | nil => simp [splitAux]
  | cons c cs ih =>
    unfold splitAux
    split
    · simp
    · exact ih _

theorem split_ne_nil (s : String) (sep : Char) : split s sep ≠ [] :=
  splitAux_ne_nil sep s.data []

theorem globalObject_eq_some {s : ScriptEngineV8} {g : ObjId} (hg : s.globalObject = some g) :
    ∃ context, s.getContext = some context ∧ context.global = g := by
  unfold ScriptEngineV8.globalObject at hg
  cases hc : s.getContext with
  | none => simp [hc] at hg
  | some context =>
    simp only [hc, Option.some.injEq] at hg
    exact ⟨context, rfl, hg⟩

end Overte

namespace Overte

open ScriptEngineV8

end Overte

namespace Overte

open ScriptEngineV8

end Overte

namespace Overte

open ScriptEngineV8

theorem splitAux_append_of_not_mem (sep : Char) (cs : List Char) (hcs : sep ∉ cs) :
    ∀ (rest acc : List Char),
      splitAux sep (cs ++ rest) acc = splitAux sep rest (cs.reverse ++ acc) := by
  induction cs with
  | nil => intro rest acc; rfl
  | cons c cs ih =>
    intro rest acc
    have hc : c ≠ sep := fun e => hcs (by simp [e])
    have hcs' : sep ∉ cs := fun m => hcs (List.mem_cons_of_mem _ m)
    rw [List.cons_append, splitAux, if_neg hc, ih hcs' rest (c :: acc)]
    simp

/-- Splitting `a.b` on the dot, when neither `a` nor `b` holds a dot, gives the two
segments `a` and `b`. -/
theorem split_dotted_pair (a b : String) (ha : '.' ∉ a.data) (hb : '.' ∉ b.data) :
    split (a ++ "." ++ b) '.' = [a, b] := by
  have hdata : (a ++ "." ++ b).data = a.data ++ ('.' :: (b.data ++ [])) := by
    simp [String.data_append]
  unfold split
  rw [hdata, splitAux_append_of_not_mem '.' a.data ha]
  simp only [splitAux, if_true]
  rw [splitAux_append_of_not_mem '.' b.data hb]
  simp [splitAux]

theorem findProperty_eq_none_of_not_mem (ps : List Property) (k : String)
    (hk : k ∉ ps.map (fun p => p.key)) : findProperty ps k = none := by
  unfold findProperty
  rw [List.find?_eq_none]
  intro p hp
  simp only [beq_iff_eq]
  intro e
  exact hk (List.mem_map.mpr ⟨p, hp, e⟩)

theorem setProperty_of_not_mem (ps : List Property) (k : String) (v : Value)
    (hk : k ∉ ps.map (fun p => p.key)) :
    setProperty ps k v = ps ++ [{ key := k, slot := .data v, enumerable := true }] := by
  induction ps with
  | nil => rfl
  | cons p ps ih =>
    have hp : p.key ≠ k := fun e => hk (by simp [e])
    have hps : k ∉ ps.map (fun p => p.key) := fun m => hk (by simp at m ⊢; exact Or.inr m)
    have hb : (p.key == k) = false := by simpa using hp
    simp [setProperty, hb, ih hps]

theorem find?_fst_of_nodup (keys : List (String × Int)) (hnd : (keys.map Prod.fst).Nodup)
    (k : String × Int) (hk : k ∈ keys) : keys.find? (fun x => x.1 == k.1) = some k := by
  induction keys with
  | nil => simp at hk
  | cons x xs ih =>
    simp only [List.map_cons, List.nodup_cons] at hnd
    rcases List.mem_cons.mp hk with rfl | hmem
    · simp [List.find?]
    · have hne : x.1 ≠ k.1 := by
        intro e1
        exact hnd.1 (e1 ▸ List.mem_map_of_mem Prod.fst hmem)
      have hb : (x.1 == k.1) = false := by simpa using hne
      simp only [List.find?, hb]
      exact ih hnd.2 hmem

theorem QMetaEnum.keyToValue_of_mem (e : QMetaEnum) (hnd : (e.keys.map Prod.fst).Nodup)
    (k : String × Int) (hk : k ∈ e.keys) : e.keyToValue k.1 = k.2 := by
  unfold QMetaEnum.keyToValue
  rw [find?_fst_of_nodup e.keys hnd k hk]

end Overte

namespace Overte

open ScriptEngineV8

/-- On the owning thread, `registerGlobalObject` binds the name whenever reading it from
the global object yields a value, whether or not that value is `undefined`: the test
`!Get(...).IsEmpty()` does not tell a bound name from an unbound one. -/
theorem registerGlobalObject_binds_whenever_readable (s : ScriptEngineV8) (name : String)
    (object : Option QObjectPtr) (g : ObjId) (v : Value) (hg : s.globalObject = some g)
    (hlt : g < s.heap.length) (hv : s.heap.Get g name = some v) :
    (s.registerGlobalObject s.thread name object).heap.Get g name =
      match object with
      | some _ => some (.object s.heap.length)
      | none => some .null := by
  obtain ⟨context, hc, hcg⟩ := globalObject_eq_some hg
  subst hcg
  cases object with
  | none =>
    simp only [registerGlobalObject, ne_eq, not_true_eq_false, if_false, hc, hv,
      Option.isSome_some, if_true]
    rw [Heap.Get_Set]
    simp [hlt, hv]
  | some o =>
    simp only [registerGlobalObject, ne_eq, not_true_eq_false, if_false, hc, hv,
      Option.isSome_some, if_true, newQObject]
    rw [Heap.Get_Set]
    have hlt' : context.global < (s.heap.alloc (.qobjectProxy o)).1.length := by
      rw [Heap.alloc_length]; exact Nat.lt_succ_of_lt hlt
    simp [hlt', Heap.Get_alloc, hv, Heap.alloc_snd]

/-- C9 (the code at the failing input).  With `Foo` already bound to the integer 1 in
the global object, `registerGlobalObject("Foo", obj)` does not leave that binding
unchanged: `Foo` becomes the proxy of `obj` (a new object of the heap), and with a null
`obj` it becomes `null`. -/
theorem C9_registerGlobalObject_overwrites_bound_name :
    ((newScriptEngineV8 1 7).registerValue 7 "Foo" (.integer 1)).heap.Get 0 "Foo"
        = some (.integer 1) ∧
      (((newScriptEngineV8 1 7).registerValue 7 "Foo" (.integer 1)).registerGlobalObject 7
        "Foo" (some 55)).heap.Get 0 "Foo" = some (.object 1) ∧
      (((newScriptEngineV8 1 7).registerValue 7 "Foo" (.integer 1)).registerGlobalObject 7
        "Foo" (some 55)).heap[1]? = some { kind := .qobjectProxy 55, properties := [] } ∧
      (((newScriptEngineV8 1 7).registerValue 7 "Foo" (.integer 1)).registerGlobalObject 7
        "Foo" none).heap.Get 0 "Foo" = some .null := by
  decide

/-- C10 (as stated, refuted).  With a source text that fails to compile, `evaluate`
returns the null sentinel. -/
theorem C10_counterexample :
    (Example.failingCompiler.Compile "x x" "example.js").script.isNone = true ∧
      ((newScriptEngineV8 1 7).evaluate Example.failingCompiler "x x" "example.js").2
        = nullValue := by
  decide

/-- C10 (amended).  For every source text that fails to compile (the compiler yields no
script and its `TryCatch` holds the error with its message), `evaluate(sourceText,
fileName)` on an engine with a current context runs nothing (the heap is unchanged) and
returns the null sentinel; the error is stored as the engine's current exception record,
which carries the message, the line and the column of the error and the note
"Error while compiling script", and a clone of it is emitted. -/
theorem C10_evaluate_compile_failure_returns_null (v8 : V8) (s : ScriptEngineV8)
    (sourceCode fileName : String) (context : ScriptContextV8Wrapper) (m : Message)
    (hc : s.getContext = some context)
    (hfail : (v8.Compile sourceCode fileName).script.isNone = true)
    (hcaught : (v8.Compile sourceCode fileName).tryCatch.HasCaught = true)
    (hm : (v8.Compile sourceCode fileName).tryCatch.Message = some m) :
    (s.evaluate v8 sourceCode fileName).2 = nullValue ∧
      (s.evaluate v8 sourceCode fileName).1.heap = s.heap ∧
      ∃ e, (s.evaluate v8 sourceCode fileName).1._uncaughtException = some e ∧
        e.errorMessage = m.text ∧ e.errorLine = m.lineNumber ∧
        e.errorColumn = m.startColumn ∧
        e.additionalInfo = "Error while compiling script" ∧
        (s.evaluate v8 sourceCode fileName).1.emittedExceptions = s.emittedExceptions ++ [e] := by
  have hc' : ScriptEngineV8.getContext
      { s with _evaluatingCounter := s._evaluatingCounter + 1 } = some context := hc
  have hscript : (v8.Compile sourceCode fileName).script = none := by
    cases h : (v8.Compile sourceCode fileName).script with
    | none => rfl
    | some x => simp [h] at hfail
  simp only [evaluate, hc', hscript, setUncaughtExceptionFromTryCatch, hcaught,
    Bool.not_true, Bool.false_eq_true, if_false, setUncaughtException, hm, messageText,
    ScriptException.clone]
  exact ⟨trivial, trivial, _, rfl, rfl, rfl, rfl, rfl, rfl⟩

/-- C10, witness: the amended statement for the source text `x x` on the engine as
constructed, with a compiler that reports a syntax error at line 1, column 2. -/
theorem C10_evaluate_compile_failure_returns_null_witness :
    ((newScriptEngineV8 1 7).evaluate Example.failingCompiler "x x" "example.js").2
        = nullValue ∧
      ((newScriptEngineV8 1 7).evaluate Example.failingCompiler "x x" "example.js").1.heap
        = (newScriptEngineV8 1 7).heap ∧
      ∃ e, ((newScriptEngineV8 1 7).evaluate Example.failingCompiler "x x"
          "example.js").1._uncaughtException = some e ∧
        e.errorMessage = "Uncaught SyntaxError: Unexpected identifier" ∧ e.errorLine = 1 ∧
        e.errorColumn = 2 ∧
        e.additionalInfo = "Error while compiling script" ∧
        ((newScriptEngineV8 1 7).evaluate Example.failingCompiler "x x"
          "example.js").1.emittedExceptions = (newScriptEngineV8 1 7).emittedExceptions ++ [e] :=
  C10_evaluate_compile_failure_returns_null Example.failingCompiler (newScriptEngineV8 1 7)
    "x x" "example.js" { global := 0 }
    { text := "Uncaught SyntaxError: Unexpected identifier", lineNumber := 1, startColumn := 2 }
    (by decide) (by decide) (by decide) (by decide)

end Overte

namespace Overte

open ScriptEngineV8

/-! ## Exception records: what the evaluators store -/

theorem setUncaughtExceptionFromTryCatch_counter (s : ScriptEngineV8) (tc : TryCatch)
    (info : String) :
    (s.setUncaughtExceptionFromTryCatch tc info)._evaluatingCounter = s._evaluatingCounter := by
  unfold setUncaughtExceptionFromTryCatch
  split <;> rfl

theorem raiseException_counter (s : ScriptEngineV8) (t : QThread) (e : ScriptValue)
    (reason : String) :
    (s.raiseException t e reason).1._evaluatingCounter = s._evaluatingCounter := by
  unfold raiseException raiseExceptionV8
  split <;> rfl

theorem getContext_ne_none (s : ScriptEngineV8) (h : s._contexts ≠ []) :
    ∃ context, s.getContext = some context := by
  unfold getContext
  cases hl : s._contexts.getLast? with
  | none => exact absurd (List.getLast?_eq_none_iff.mp hl) h
  | some c => exact ⟨c, rfl⟩

/-- C11: when the source text does not compile and the compiler reports the error
through its `TryCatch`, `evaluate(sourceCode, fileName)` leaves a current exception
record of the runtime kind (`ScriptRuntimeException`), labelled "Error while compiling
script". -/
theorem C11_compile_failure_stores_runtime_record (v8 : V8) (s : ScriptEngineV8)
    (sourceCode fileName : String) (context : ScriptContextV8Wrapper)
    (hcontext : s.getContext = some context)
    (hfails : (v8.Compile sourceCode fileName).script = none)
    (hcaught : (v8.Compile sourceCode fileName).tryCatch.HasCaught = true) :
    ∃ r, (s.evaluate v8 sourceCode fileName).1._uncaughtException = some r
      ∧ r.kind = ScriptExceptionKind.runtime
      ∧ r.additionalInfo = "Error while compiling script" := by
  have hc : ({ s with _evaluatingCounter := s._evaluatingCounter + 1 } :
      ScriptEngineV8).getContext = some context := hcontext
  unfold evaluate
  simp only [hc, hfails, setUncaughtExceptionFromTryCatch, hcaught, setUncaughtException]
  exact ⟨_, rfl, rfl, rfl⟩

theorem C11_compile_failure_stores_runtime_record_witness :
    Example.baseEngine.getContext = some { global := 0 }
    ∧ (Example.failingCompiler.Compile "x x" "example.js").script = none
    ∧ (Example.failingCompiler.Compile "x x" "example.js").tryCatch.HasCaught = true
    ∧ ∃ r, (Example.baseEngine.evaluate Example.failingCompiler "x x"
              "example.js").1._uncaughtException = some r
      ∧ r.kind = ScriptExceptionKind.runtime
      ∧ r.additionalInfo = "Error while compiling script" :=
  ⟨by decide, rfl, rfl,
   C11_compile_failure_stores_runtime_record Example.failingCompiler Example.baseEngine
     "x x" "example.js" { global := 0 } (by decide) rfl rfl⟩

/-- C12: when the source text compiles and its run throws, `evaluate(sourceCode,
fileName)` returns the wrapped text of the caught error message, `uncaughtException()`
is a record of that error afterwards, and a following `clearExceptions()` makes
`uncaughtException()` empty and `hasUncaughtException()` false. -/
theorem C12_evaluate_throw_sets_record_until_cleared (v8 : V8) (s : ScriptEngineV8)
    (sourceCode fileName : String) (context : ScriptContextV8Wrapper) (script : V8Script)
    (hcontext : s.getContext = some context)
    (hcompiles : (v8.Compile sourceCode fileName).script = some script)
    (hthrows : (script.Run s.heap context.global).result = none)
    (hcaught : (script.Run s.heap context.global).tryCatch.HasCaught = true) :
    (s.evaluate v8 sourceCode fileName).2
        = ScriptValue.v8 (.string (messageText (script.Run s.heap context.global).tryCatch))
      ∧ (∃ r, (s.evaluate v8 sourceCode fileName).1.uncaughtException = some r
          ∧ r.kind = ScriptExceptionKind.runtime
          ∧ r.errorMessage = messageText (script.Run s.heap context.global).tryCatch
          ∧ r.thrownValue
              = some (ScriptValue.v8 (script.Run s.heap context.global).tryCatch.Exception)
          ∧ r.additionalInfo = "script evaluation")
      ∧ (s.evaluate v8 sourceCode fileName).1.hasUncaughtException = true
      ∧ (s.evaluate v8 sourceCode fileName).1.clearExceptions.uncaughtException = none
      ∧ (s.evaluate v8 sourceCode fileName).1.clearExceptions.hasUncaughtException
          = false := by
  have hc : ({ s with _evaluatingCounter := s._evaluatingCounter + 1 } :
      ScriptEngineV8).getContext = some context := hcontext
  unfold evaluate
  simp only [hc, hcompiles, hthrows, setUncaughtExceptionFromTryCatch, assertFailed, hcaught,
    setUncaughtException, uncaughtException, hasUncaughtException, clearExceptions,
    ScriptException.clone]
  simp

theorem C12_evaluate_throw_sets_record_until_cleared_witness :
    Example.baseEngine.getContext = some { global := 0 }
    ∧ ((Example.compilerOf Example.throwing).Compile "x" "example.js").script
        = some Example.throwing
    ∧ (Example.throwing.Run Example.baseEngine.heap 0).result = none
    ∧ (Example.throwing.Run Example.baseEngine.heap 0).tryCatch.HasCaught = true
    ∧ (Example.baseEngine.evaluate (Example.compilerOf Example.throwing) "x"
          "example.js").2
        = ScriptValue.v8 (.string "Uncaught ReferenceError: x is not defined")
    ∧ (Example.baseEngine.evaluate (Example.compilerOf Example.throwing) "x"
          "example.js").1.hasUncaughtException = true
    ∧ (Example.baseEngine.evaluate (Example.compilerOf Example.throwing) "x"
          "example.js").1.clearExceptions.uncaughtException = none :=
  ⟨by decide, rfl, rfl, rfl,
   (C12_evaluate_throw_sets_record_until_cleared (Example.compilerOf Example.throwing)
     Example.baseEngine "x" "example.js" { global := 0 } Example.throwing (by decide) rfl
     rfl rfl).1,
   (C12_evaluate_throw_sets_record_until_cleared (Example.compilerOf Example.throwing)
     Example.baseEngine "x" "example.js" { global := 0 } Example.throwing (by decide) rfl
     rfl rfl).2.2.1,
   (C12_evaluate_throw_sets_record_until_cleared (Example.compilerOf Example.throwing)
     Example.baseEngine "x" "example.js" { global := 0 } Example.throwing (by decide) rfl
     rfl rfl).2.2.2.1⟩

/-- C13: when a program passes the syntax check and its run throws, `evaluate(program)`
returns the wrapped text of the error message and throws it into the isolate, but leaves
the current exception record as it was: with no record before the call,
`hasUncaughtException()` is false after it. -/
theorem C13_evaluateProgram_throw_leaves_record_unchanged (s : ScriptEngineV8)
    (program : ScriptProgramV8Wrapper) (context : ScriptContextV8Wrapper)
    (hcontext : s.getContext = some context)
    (hchecked : program.checkSyntax.state ≠ SyntaxCheckState.Error)
    (hthrows : (program.script.Run s.heap context.global).result = none) :
    (s.evaluateProgram (.v8 program)).2
        = ScriptValue.v8
            (.string (messageText (program.script.Run s.heap context.global).tryCatch))
      ∧ (s.evaluateProgram (.v8 program)).1._uncaughtException = s._uncaughtException
      ∧ (s.evaluateProgram (.v8 program)).1.hasUncaughtException = s.hasUncaughtException
      ∧ (s.evaluateProgram (.v8 program)).1.thrownExceptions
          = s.thrownExceptions
            ++ [.string (messageText (program.script.Run s.heap context.global).tryCatch)] := by
  have hc : ({ s with _evaluatingCounter := s._evaluatingCounter + 1 } :
      ScriptEngineV8).getContext = some context := hcontext
  unfold evaluateProgram
  simp only [hc, ScriptProgramV8Wrapper.unwrap, hchecked, if_false, hthrows, raiseException,
    raiseExceptionV8, IS_THREADSAFE_INVOCATION, assertFailed, hasUncaughtException,
    ScriptValueV8Wrapper.fullUnwrap]
  simp

theorem C13_evaluateProgram_throw_leaves_record_unchanged_witness :
    (newScriptEngineV8 1 7).getContext = some { global := 0 }
    ∧ Example.throwingProgram.checkSyntax.state ≠ SyntaxCheckState.Error
    ∧ (Example.throwingProgram.script.Run (newScriptEngineV8 1 7).heap 0).result = none
    ∧ ((newScriptEngineV8 1 7).evaluateProgram (.v8 Example.throwingProgram)).2
        = ScriptValue.v8 (.string "Uncaught ReferenceError: x is not defined")
    ∧ ((newScriptEngineV8 1 7).evaluateProgram
          (.v8 Example.throwingProgram)).1.hasUncaughtException = false :=
  ⟨by decide, by decide, rfl,
   (C13_evaluateProgram_throw_leaves_record_unchanged (newScriptEngineV8 1 7)
     Example.throwingProgram { global := 0 } (by decide) (by decide) rfl).1,
   (C13_evaluateProgram_throw_leaves_record_unchanged (newScriptEngineV8 1 7)
     Example.throwingProgram { global := 0 } (by decide) (by decide) rfl).2.2.1⟩

/-- C14: for a program handle that cannot be unwrapped, `evaluate(program)` runs nothing,
stores an engine exception "Could not unwrap program" and returns a default-constructed
value, which is not the null sentinel; `evaluateInClosure` returns the null sentinel. -/
theorem C14_unwrap_failure_return_values (s : ScriptEngineV8) (t : QThread)
    (closure : ScriptValue) (context : ScriptContextV8Wrapper)
    (hcontext : s.getContext = some context) :
    (s.evaluateProgram .foreign).2 = ScriptValue.invalid
      ∧ (s.evaluateProgram .foreign).2 ≠ nullValue
      ∧ (s.evaluateProgram .foreign).1.heap = s.heap
      ∧ (∃ r, (s.evaluateProgram .foreign).1._uncaughtException = some r
          ∧ r.kind = ScriptExceptionKind.engine
          ∧ r.errorMessage = "Could not unwrap program"
          ∧ r.additionalInfo = "Compile error")
      ∧ (s.evaluateInClosure t closure .foreign).2 = nullValue := by
  have hc : ({ s with _evaluatingCounter := s._evaluatingCounter + 1 } :
      ScriptEngineV8).getContext = some context := hcontext
  refine ⟨?_, ?_, ?_, ?_, ?_⟩
  · unfold evaluateProgram
    simp only [hc, ScriptProgramV8Wrapper.unwrap]
  · unfold evaluateProgram
    simp only [hc, ScriptProgramV8Wrapper.unwrap]
    decide
  · unfold evaluateProgram
    simp only [hc, ScriptProgramV8Wrapper.unwrap]
    rfl
  · unfold evaluateProgram
    simp only [hc, ScriptProgramV8Wrapper.unwrap, setUncaughtEngineException,
      setUncaughtException]
    exact ⟨_, rfl, rfl, rfl, rfl⟩
  · unfold evaluateInClosure
    split
    · rfl
    · simp only [ScriptProgramV8Wrapper.unwrap]
      split <;> rfl

theorem C14_unwrap_failure_return_values_witness :
    (newScriptEngineV8 1 7).getContext = some { global := 0 }
    ∧ ((newScriptEngineV8 1 7).evaluateProgram .foreign).2 = ScriptValue.invalid
    ∧ ((newScriptEngineV8 1 7).evaluateProgram .foreign).2 ≠ nullValue :=
  ⟨by decide,
   (C14_unwrap_failure_return_values (newScriptEngineV8 1 7) 7 (.v8 (.object 0))
     { global := 0 } (by decide)).1,
   (C14_unwrap_failure_return_values (newScriptEngineV8 1 7) 7 (.v8 (.object 0))
     { global := 0 } (by decide)).2.1⟩

/-- C15: on the engine whose global object has `a = 1` and no exception record, with the
closure `{a: 2, b: 3}`, `evaluateInClosure` of a program whose run throws returns a
value wrapping an empty handle, not the null sentinel, and the engine still has no
exception record. -/
theorem C15_closure_throw_returns_empty_handle_and_no_record :
    (Example.engineWithClosure.evaluateInClosure 7 Example.closure
        (.v8 Example.throwingProgram)).2 = ScriptValue.v8 Value.empty
      ∧ (Example.engineWithClosure.evaluateInClosure 7 Example.closure
          (.v8 Example.throwingProgram)).2 ≠ nullValue
      ∧ (Example.engineWithClosure.evaluateInClosure 7 Example.closure
          (.v8 Example.throwingProgram)).1.uncaughtException = none
      ∧ (Example.engineWithClosure.evaluateInClosure 7 Example.closure
          (.v8 Example.throwingProgram)).1.hasUncaughtException = false := by
  decide

end Overte

namespace Overte

open ScriptEngineV8

/-! ## Which objects a closure evaluation writes to -/

theorem copyProperties_getElem?_ne (source target : ObjId) (names : List String) :
    ∀ (h : Heap) (o : ObjId), o ≠ target →
      (copyProperties source target names h).1[o]? = h[o]? := by
  induction names with
  | nil => intro h o _; rfl
  | cons name names ih =>
    intro h o ho
    unfold copyProperties
    split
    · rfl
    · simp only []
      rw [ih _ o ho, Heap.Set_getElem?_ne _ _ _ _ _ ho]

theorem copyProperties_length (source target : ObjId) (names : List String) :
    ∀ h : Heap, (copyProperties source target names h).1.length = h.length := by
  induction names with
  | nil => intro h; rfl
  | cons name names ih =>
    intro h
    unfold copyProperties
    split
    · rfl
    · simp only []
      rw [ih, Heap.Set_length]

theorem storeGlobalObjectContents_getElem?_lt (s : ScriptEngineV8) (o : ObjId)
    (hlt : o < s.heap.length) : s.storeGlobalObjectContents.heap[o]? = s.heap[o]? := by
  unfold storeGlobalObjectContents
  split
  · rfl
  · split
    · rfl
    · simp only []
      rw [copyProperties_getElem?_ne _ _ _ _ _ (by
        rw [Heap.alloc_snd]; exact Nat.ne_of_lt hlt), Heap.alloc_getElem?_lt _ _ _ hlt]

theorem storeGlobalObjectContents_length_le (s : ScriptEngineV8) :
    s.heap.length ≤ s.storeGlobalObjectContents.heap.length := by
  unfold storeGlobalObjectContents
  split
  · exact Nat.le_refl _
  · split
    · exact Nat.le_refl _
    · simp only []
      rw [copyProperties_length, Heap.alloc_length]
      exact Nat.le_succ _

/-- The test object of `evaluateInClosure` (lines 756-760) is a new object. -/
theorem testObject_getElem?_lt (h : Heap) (v : Value) (o : ObjId) (hlt : o < h.length) :
    ((h.alloc .plain).1.Set (h.alloc .plain).2 "test_value" v).1[o]? = h[o]? := by
  rw [Heap.Set_getElem?_ne _ _ _ _ _ (by rw [Heap.alloc_snd]; exact Nat.ne_of_lt hlt),
    Heap.alloc_getElem?_lt _ _ _ hlt]

end Overte

namespace Overte

open ScriptEngineV8

/-! ## The stored global object contents -/

theorem storeGlobalObjectContents_uncaughtException (s : ScriptEngineV8) :
    s.storeGlobalObjectContents._uncaughtException = s._uncaughtException := by
  unfold storeGlobalObjectContents
  split
  · rfl
  · split <;> rfl

/-- The value `evaluateInClosure` returns, on the owning thread, for a closure object and
a program that compiles: the null sentinel when the engine holds an exception record,
else what the run against the filled global object of the closure context yields. -/
theorem evaluateInClosure_result (s : ScriptEngineV8) (C : ObjId)
    (p : ScriptProgramV8Wrapper) (context : ScriptContextV8Wrapper)
    (hcontext : s.getContext = some context) (hcompile : p.compile = true)
    (hglobal : ((s.beforeClosureContext C).heap.Get C "global").isSome) :
    (s.evaluateInClosure s.thread (.v8 (.object C)) (.v8 p)).2 =
      if s.hasUncaughtException then nullValue
      else
        match (p.script.Run
            ((s.beforeClosureContext C).enterClosureContext.1.fillClosureGlobal
              (s.beforeClosureContext C).enterClosureContext.2 C).heap
            (s.beforeClosureContext C).enterClosureContext.2.global).result with
        | some v8Result => .v8 v8Result
        | none => .v8 .empty := by
  have h1ctx : ({ s with _evaluatingCounter := s._evaluatingCounter + 1 } :
      ScriptEngineV8).storeGlobalObjectContents.getContext = some context := by
    unfold getContext
    rw [storeGlobalObjectContents_contexts]
    exact hcontext
  have h1exc : ({ s with _evaluatingCounter := s._evaluatingCounter + 1 } :
      ScriptEngineV8).storeGlobalObjectContents._uncaughtException
        = s._uncaughtException :=
    storeGlobalObjectContents_uncaughtException _
  obtain ⟨v, hv⟩ := Option.isSome_iff_exists.mp hglobal
  unfold beforeClosureContext at hv ⊢
  unfold evaluateInClosure
  simp only [assertFailed] at hv ⊢
  generalize ({ s with _evaluatingCounter := s._evaluatingCounter + 1 } :
      ScriptEngineV8).storeGlobalObjectContents = s1 at h1ctx h1exc hv ⊢
  simp only [IS_THREADSAFE_INVOCATION, if_true, Bool.not_true, Bool.false_eq_true, if_false,
    h1ctx, ScriptProgramV8Wrapper.unwrap, ScriptValueV8Wrapper.unwrap, hv, hcompile,
    hasUncaughtException, fillClosureGlobal, enterClosureContext, pushContext, h1exc]

end Overte

namespace Overte

open ScriptEngineV8

/-! ## The evaluation counter, the exception record and `raiseException` -/

/-- C18: on an engine with a context on its stack, `evaluate(sourceCode, fileName)` and
`evaluate(program)` return with the evaluation counter they were called with, on every
path; called with the counter at 0, `isEvaluating()` is false afterwards. -/
theorem C18_evaluate_restores_counter (v8 : V8) (s : ScriptEngineV8)
    (sourceCode fileName : String) (program : ScriptProgramPointer)
    (hcontexts : s._contexts ≠ []) :
    (s.evaluate v8 sourceCode fileName).1._evaluatingCounter = s._evaluatingCounter
      ∧ (s.evaluateProgram program).1._evaluatingCounter = s._evaluatingCounter
      ∧ (s._evaluatingCounter = 0 →
          (s.evaluate v8 sourceCode fileName).1.isEvaluating = false
            ∧ (s.evaluateProgram program).1.isEvaluating = false) := by
  obtain ⟨context, hcontext⟩ := getContext_ne_none s hcontexts
  have hc : ({ s with _evaluatingCounter := s._evaluatingCounter + 1 } :
      ScriptEngineV8).getContext = some context := hcontext
  have h1 : (s.evaluate v8 sourceCode fileName).1._evaluatingCounter
      = s._evaluatingCounter := by
    unfold evaluate
    simp only [hc]
    split
    · simp only [setUncaughtExceptionFromTryCatch_counter]
      exact add_sub_cancel_right _ _
    · split
      · simp only [setUncaughtExceptionFromTryCatch_counter, assertFailed]
        exact add_sub_cancel_right _ _
      · exact add_sub_cancel_right _ _
  have h2 : (s.evaluateProgram program).1._evaluatingCounter = s._evaluatingCounter := by
    unfold evaluateProgram
    simp only [hc]
    split
    · exact add_sub_cancel_right _ _
    · split
      · exact add_sub_cancel_right _ _
      · split
        · simp only [raiseException_counter, assertFailed]
          exact add_sub_cancel_right _ _
        · exact add_sub_cancel_right _ _
  refine ⟨h1, h2, fun h0 => ?_⟩
  unfold isEvaluating
  rw [h1, h2, h0]
  exact ⟨by decide, by decide⟩

theorem C18_evaluate_restores_counter_witness :
    Example.baseEngine._contexts ≠ []
    ∧ (Example.baseEngine.evaluate (Example.compilerOf Example.throwing) "x"
          "example.js").1._evaluatingCounter = Example.baseEngine._evaluatingCounter
    ∧ (Example.baseEngine.evaluateProgram
          Example.syntaxErrorProgram).1._evaluatingCounter
        = Example.baseEngine._evaluatingCounter :=
  ⟨by decide,
   (C18_evaluate_restores_counter (Example.compilerOf Example.throwing) Example.baseEngine
     "x" "example.js" Example.syntaxErrorProgram (by decide)).1,
   (C18_evaluate_restores_counter (Example.compilerOf Example.throwing) Example.baseEngine
     "x" "example.js" Example.syntaxErrorProgram (by decide)).2.1⟩

/-- C19: the engine stores at most one exception record: `setUncaughtException(r)` makes
`r` the stored record whatever was stored before, `clearExceptions()` leaves none,
and `uncaughtException()` is a clone of the stored record, equal to it field by field,
or nothing when none is stored. -/
theorem C19_one_current_exception_record (s : ScriptEngineV8) (r : ScriptException) :
    (s.setUncaughtException r)._uncaughtException = some r
      ∧ (s.setUncaughtException r).uncaughtException = some r.clone
      ∧ r.clone = r
      ∧ (∀ r2, ((s.setUncaughtException r).setUncaughtException r2)._uncaughtException
          = some r2)
      ∧ s.clearExceptions._uncaughtException = none
      ∧ s.clearExceptions.uncaughtException = none
      ∧ (s.setUncaughtException r).clearExceptions.uncaughtException = none
      ∧ (s._uncaughtException = none → s.uncaughtException = none)
      ∧ (∀ e, s._uncaughtException = some e → s.uncaughtException = some e) := by
  refine ⟨rfl, rfl, rfl, fun _ => rfl, rfl, rfl, rfl, fun h => ?_, fun e h => ?_⟩
  · simp [uncaughtException, h]
  · simp [uncaughtException, h, ScriptException.clone]

/-- C20: `raiseException` returns false on every call: on the owning thread it throws
the value into the isolate and returns false, on another thread it throws nothing and
returns false. -/
theorem C20_raiseException_returns_false (s : ScriptEngineV8) (t : QThread)
    (exception : ScriptValue) (reason : String) :
    (s.raiseException t exception reason).2 = false
      ∧ (t = s.thread → (s.raiseException t exception reason).1.thrownExceptions
          = s.thrownExceptions ++ [ScriptValueV8Wrapper.fullUnwrap exception])
      ∧ (t ≠ s.thread → (s.raiseException t exception reason).1.thrownExceptions
          = s.thrownExceptions) := by
  unfold raiseException raiseExceptionV8 IS_THREADSAFE_INVOCATION
  refine ⟨?_, fun h => ?_, fun h => ?_⟩
  · split <;> rfl
  · simp [h]
  · simp [h, assertFailed]

end Overte

namespace Overte

open ScriptEngineV8

/-! ## Thread affinity: the gate and the calls made off the owning thread -/

/-- C21: `IS_THREADSAFE_INVOCATION(thread, method)` returns true exactly when the calling
thread is `thread`; it reports its diagnostic only when it returns false; it is a
function of the two threads and the method name alone, and the operations that return
on its refusal (`evaluateInClosure`, `raiseException`) leave the heap, the context stack,
the exception record and the evaluation counter as they were. -/
theorem C21_thread_gate_true_iff_same_thread (currentThread thread : QThread)
    (method : String) :
    ((IS_THREADSAFE_INVOCATION currentThread thread method).1 = true ↔ currentThread = thread)
      ∧ ((IS_THREADSAFE_INVOCATION currentThread thread method).2 = [] ↔ currentThread = thread)
      ∧ (∀ (s : ScriptEngineV8) (closure : ScriptValue) (program : ScriptProgramPointer),
          (IS_THREADSAFE_INVOCATION currentThread s.thread "evaluateInClosure").1 = false →
            (s.evaluateInClosure currentThread closure program).1.heap = s.heap
            ∧ (s.evaluateInClosure currentThread closure program).1._contexts = s._contexts
            ∧ (s.evaluateInClosure currentThread closure program).1._uncaughtException
                = s._uncaughtException
            ∧ (s.evaluateInClosure currentThread closure program).1._evaluatingCounter
                = s._evaluatingCounter)
      ∧ (∀ (s : ScriptEngineV8) (exception : Value),
          (IS_THREADSAFE_INVOCATION currentThread s.thread "raiseException").1 = false →
            (s.raiseExceptionV8 currentThread exception).1.heap = s.heap
            ∧ (s.raiseExceptionV8 currentThread exception).1._contexts = s._contexts
            ∧ (s.raiseExceptionV8 currentThread exception).1._uncaughtException
                = s._uncaughtException
            ∧ (s.raiseExceptionV8 currentThread exception).1._evaluatingCounter
                = s._evaluatingCounter
            ∧ (s.raiseExceptionV8 currentThread exception).1.thrownExceptions
                = s.thrownExceptions) := by
  refine ⟨?_, ?_, ?_, ?_⟩
  · unfold IS_THREADSAFE_INVOCATION
    by_cases h : currentThread = thread <;> simp [h]
  · unfold IS_THREADSAFE_INVOCATION
    by_cases h : currentThread = thread <;> simp [h]
  · intro s closure program hgate
    unfold evaluateInClosure
    simp [hgate, assertFailed]
  · intro s exception hgate
    unfold raiseExceptionV8
    simp [hgate, assertFailed]

theorem registerEnumLoop_off_thread (t : QThread) (enumName : String) (newEnum : QMetaEnum)
    (indices : List Nat) :
    ∀ s : ScriptEngineV8, t ≠ s.thread →
      registerEnumLoop t enumName newEnum indices s
        = { s with postedCalls := s.postedCalls ++ indices.map (fun i =>
              MetaCall.registerValue (enumName ++ "." ++ newEnum.key i)
                (.integer (newEnum.keyToValue (newEnum.key i)))) } := by
  induction indices with
  | nil => intro s _; simp [registerEnumLoop]
  | cons i rest ih =>
    intro s ht
    have h1 : s.registerValue t (enumName ++ "." ++ newEnum.key i)
        (.integer (newEnum.keyToValue (newEnum.key i)))
          = { s with postedCalls := s.postedCalls ++
                [MetaCall.registerValue (enumName ++ "." ++ newEnum.key i)
                  (.integer (newEnum.keyToValue (newEnum.key i)))] } := by
      simp [registerValue, ht]
    have h2 := ih ({ s with postedCalls := s.postedCalls ++
      [MetaCall.registerValue (enumName ++ "." ++ newEnum.key i)
        (.integer (newEnum.keyToValue (newEnum.key i)))] }) ht
    simp only [registerEnumLoop]
    rw [h1, h2]
    simp

/-- C22: off the owning thread, `registerValue`, `registerGlobalObject`, both
`registerFunction` and `registerGetterSetter` only queue a call.  `registerEnum` has no
thread check: for a valid enum it goes on, on the calling thread, to build an integer
value for each constant and to call `registerValue` with it, so that what it queues is one
`registerValue` call per constant, each carrying a value made on the calling thread. -/
theorem C22_off_thread_registerEnum_builds_values (s : ScriptEngineV8) (t : QThread)
    (enumName : String) (newEnum : QMetaEnum) (context : ScriptContextV8Wrapper)
    (hthread : t ≠ s.thread) (hvalid : newEnum.isValid = true)
    (hcontext : s.getContext = some context) :
    s.registerEnum t enumName newEnum
        = { s with postedCalls := s.postedCalls ++ (List.range newEnum.keyCount).map (fun i =>
              MetaCall.registerValue (enumName ++ "." ++ newEnum.key i)
                (.integer (newEnum.keyToValue (newEnum.key i)))) }
      ∧ (∀ name value, s.registerValue t name value
          = { s with postedCalls := s.postedCalls ++ [.registerValue name value] })
      ∧ (∀ name object, s.registerGlobalObject t name object
          = { s with postedCalls := s.postedCalls ++ [.registerGlobalObject name object] })
      ∧ (∀ name fn n, s.registerFunction t name fn n
          = { s with postedCalls := s.postedCalls ++ [.registerFunction name fn n] })
      ∧ (∀ name getter setter parent, s.registerGetterSetter t name getter setter parent
          = { s with postedCalls := s.postedCalls
                ++ [.registerGetterSetter name getter setter parent] }) := by
  refine ⟨?_, ?_, ?_, ?_, ?_⟩
  · unfold registerEnum
    simp only [hvalid, hcontext, Bool.not_true, Bool.false_eq_true, if_false]
    exact registerEnumLoop_off_thread t enumName newEnum _ s hthread
  · intro name value; simp [registerValue, hthread]
  · intro name object; simp [registerGlobalObject, hthread]
  · intro name fn n; simp [registerFunction, hthread]
  · intro name getter setter parent; simp [registerGetterSetter, hthread]

theorem C22_off_thread_registerEnum_builds_values_witness :
    (8 : QThread) ≠ (newScriptEngineV8 1 7).thread
    ∧ Example.Color.isValid = true
    ∧ (newScriptEngineV8 1 7).getContext = some { global := 0 }
    ∧ ((newScriptEngineV8 1 7).registerEnum 8 "Color" Example.Color).postedCalls
        = [.registerValue "Color.Red" (.integer 0), .registerValue "Color.Green" (.integer 1),
           .registerValue "Color.Blue" (.integer 4)] :=
  ⟨by decide, by decide, by decide,
   (congrArg ScriptEngineV8.postedCalls
     (C22_off_thread_registerEnum_builds_values (newScriptEngineV8 1 7) 8 "Color"
       Example.Color { global := 0 } (by decide) (by decide) (by decide)).1).trans
     (by decide)⟩

/-- C23: off the owning thread, `registerFunction(parent, name, functionSignature,
numArguments)` queues the three-argument `registerFunction(name, functionSignature,
numArguments)`: the parent is not passed on, and what the owning thread then runs is the
registration of `name` in the global object. -/
theorem C23_off_thread_registerFunction_drops_parent (s : ScriptEngineV8) (t : QThread)
    (parent name : String) (fn : FunctionSignature) (n : Int)
    (hthread : t ≠ s.thread) (hqueue : s.postedCalls = []) :
    (s.registerFunctionInParent t parent name fn n).postedCalls
        = [.registerFunction name fn n]
      ∧ (s.registerFunctionInParent t parent name fn n).processEvents
          = s.registerFunction s.thread name fn n := by
  have h1 : s.registerFunctionInParent t parent name fn n
      = { s with postedCalls := [.registerFunction name fn n] } := by
    simp [registerFunctionInParent, hthread, hqueue]
  have hs : ({ s with postedCalls := [] } : ScriptEngineV8) = s := by
    cases s; simp_all
  rw [h1]
  refine ⟨rfl, ?_⟩
  simp only [processEvents, deliver, MetaCall.invoke]
  rw [hs]

theorem C23_off_thread_registerFunction_drops_parent_witness :
    (8 : QThread) ≠ Example.engineWithFoo.thread
    ∧ Example.engineWithFoo.postedCalls = []
    ∧ Example.engineWithFoo.heap.Get 0 "Foo" = some (.object 1)
    ∧ (Example.engineWithFoo.registerFunctionInParent 8 "Foo" "bar" 100 1).processEvents
        = Example.engineWithFoo.registerFunction Example.engineWithFoo.thread "bar" 100 1
    ∧ (Example.engineWithFoo.registerFunctionInParent 8 "Foo" "bar" 100
          1).processEvents.heap.Get 1 "bar" = some .undefined
    ∧ (Example.engineWithFoo.registerFunctionInParent 8 "Foo" "bar" 100
          1).processEvents.heap.Get 0 "bar" = some (.object 3)
    ∧ (Example.engineWithFoo.registerFunctionInParent 7 "Foo" "bar" 100 1).heap.Get 1 "bar"
        = some (.object 3)
    ∧ (Example.engineWithFoo.registerFunctionInParent 7 "Foo" "bar" 100 1).heap.Get 0 "bar"
        = some .undefined :=
  ⟨by decide, by decide, by decide,
   (C23_off_thread_registerFunction_drops_parent Example.engineWithFoo 8 "Foo" "bar" 100 1
     (by decide) (by decide)).2,
   by decide, by decide, by decide, by decide⟩

end Overte

namespace Overte

open ScriptEngineV8

/-! ## The legacy text of a syntax error -/

theorem formatParts_SyntaxError :
    formatParts "[SyntaxError] %1 in %2:%3(%4)".data .literal []
      = [{ text := "[SyntaxError] ", number := none }, { text := "%1", number := some 1 },
         { text := " in ", number := none }, { text := "%2", number := some 2 },
         { text := ":", number := none }, { text := "%3", number := some 3 },
         { text := "(", number := none }, { text := "%4", number := some 4 },
         { text := ")", number := none }] := by
  decide

/-- The legacy format with its four arguments: each marker is replaced by its argument,
and the arguments are not scanned for markers. -/
theorem QString.arg_SyntaxError (error fileName line column : String) :
    QString.arg "[SyntaxError] %1 in %2:%3(%4)" [error, fileName, line, column]
      = "[SyntaxError] " ++ error ++ " in " ++ fileName ++ ":" ++ line ++ "(" ++ column
          ++ ")" := by
  unfold QString.arg
  rw [formatParts_SyntaxError]
  simp [markerNumbers, insertNumber, String.join, List.indexOf, List.findIdx, List.findIdx.go]

/-- A `Set` on an object whose properties all read as values: the property written reads
as the value written, the others as before, and the object is still such an object. -/
theorem Heap.Set_readable (h : Heap) (e : ObjId) (k : String) (v : Value)
    (hlt : e < h.length) (hsome : ∀ k', (h.Get e k').isSome) :
    (∀ k', (h.Set e k v).1.Get e k' = if k' = k then some v else h.Get e k')
      ∧ e < (h.Set e k v).1.length
      ∧ ∀ k', ((h.Set e k v).1.Get e k').isSome := by
  have hget : ∀ k', (h.Set e k v).1.Get e k' = if k' = k then some v else h.Get e k' := by
    intro k'
    rw [Heap.Get_Set]
    by_cases hk : k' = k
    · subst hk; simp [hlt, hsome k']
    · simp [hk]
  refine ⟨hget, by rw [Heap.Set_length]; exact hlt, fun k' => ?_⟩
  rw [hget k']
  split
  · rfl
  · exact hsome k'

theorem constructSyntaxError_readable (h : Heap) (message : String) :
    (constructSyntaxError h message).2 = h.length
      ∧ h.length < (constructSyntaxError h message).1.length
      ∧ ∀ k, ((constructSyntaxError h message).1.Get h.length k).isSome := by
  refine ⟨rfl, by simp [constructSyntaxError], fun k => ?_⟩
  by_cases hk : "message" = k
  · simp [constructSyntaxError, Heap.Get, findProperty, hk]
  · have hb : ("message" == k) = false := by simpa using hk
    simp [constructSyntaxError, Heap.Get, findProperty, List.find?, hb]

/-- C24: on the owning thread, `checkScriptSyntax(program)` returns the undefined sentinel
and changes nothing when the program's syntax check is valid; otherwise it returns a new
error object whose `formatted` property is "[SyntaxError] " followed by the message,
" in ", the file name, ":", the decimal line, "(", the decimal column and ")", whatever
the message and the file name contain, and whose `lineNumber` and
`expressionBeginOffset` are the line and the column. -/
theorem C24_checkScriptSyntax_formatted_message (s : ScriptEngineV8)
    (program : ScriptProgramV8Wrapper) (context : ScriptContextV8Wrapper)
    (hcontext : s.getContext = some context) :
    (program.checkSyntax.state = SyntaxCheckState.Valid →
        s.checkScriptSyntax s.thread program = (s, undefinedValue))
      ∧ (program.checkSyntax.state ≠ SyntaxCheckState.Valid →
          (s.checkScriptSyntax s.thread program).2 = ScriptValue.v8 (.object s.heap.length)
          ∧ (s.checkScriptSyntax s.thread program).1.heap.Get s.heap.length "formatted"
              = some (.string ("[SyntaxError] " ++ program.checkSyntax.errorMessage ++ " in "
                  ++ program.fileName ++ ":"
                  ++ QString.number program.checkSyntax.errorLineNumber ++ "("
                  ++ QString.number program.checkSyntax.errorColumnNumber ++ ")"))
          ∧ (s.checkScriptSyntax s.thread program).1.heap.Get s.heap.length "lineNumber"
              = some (.integer program.checkSyntax.errorLineNumber)
          ∧ (s.checkScriptSyntax s.thread program).1.heap.Get s.heap.length
                "expressionBeginOffset"
              = some (.integer program.checkSyntax.errorColumnNumber)) := by
  refine ⟨fun hvalid => ?_, fun hinvalid => ?_⟩
  · unfold checkScriptSyntax
    simp [IS_THREADSAFE_INVOCATION, hcontext, hvalid]
  · obtain ⟨e0, l0, r0⟩ := constructSyntaxError_readable s.heap program.checkSyntax.errorMessage
    obtain ⟨g1, l1, r1⟩ := Heap.Set_readable _ s.heap.length "fileName"
      (.string program.fileName) l0 r0
    obtain ⟨g2, l2, r2⟩ := Heap.Set_readable _ s.heap.length "lineNumber"
      (.integer program.checkSyntax.errorLineNumber) l1 r1
    obtain ⟨g3, l3, r3⟩ := Heap.Set_readable _ s.heap.length "expressionBeginOffset"
      (.integer program.checkSyntax.errorColumnNumber) l2 r2
    obtain ⟨g4, l4, r4⟩ := Heap.Set_readable _ s.heap.length "stack"
      (.string program.checkSyntax.errorBacktrace) l3 r3
    obtain ⟨g5, _, _⟩ := Heap.Set_readable _ s.heap.length "formatted"
      (.string (QString.arg "[SyntaxError] %1 in %2:%3(%4)"
        [program.checkSyntax.errorMessage, program.fileName,
         QString.number program.checkSyntax.errorLineNumber,
         QString.number program.checkSyntax.errorColumnNumber])) l4 r4
    unfold checkScriptSyntax
    simp only [IS_THREADSAFE_INVOCATION, if_true, Bool.not_true, Bool.false_eq_true, if_false,
      hcontext, ne_eq, hinvalid, not_false_eq_true, e0]
    refine ⟨trivial, ?_, ?_, ?_⟩
    · rw [g5, if_pos rfl, QString.arg_SyntaxError]
    · rw [g5, if_neg (by decide), g4, if_neg (by decide), g3, if_neg (by decide), g2,
        if_pos rfl]
    · rw [g5, if_neg (by decide), g4, if_neg (by decide), g3, if_pos rfl]

theorem C24_checkScriptSyntax_formatted_message_witness :
    Example.baseEngine.getContext = some { global := 0 }
    ∧ Example.percentProgram.checkSyntax.state ≠ SyntaxCheckState.Valid
    ∧ (Example.baseEngine.checkScriptSyntax Example.baseEngine.thread
          Example.percentProgram).1.heap.Get Example.baseEngine.heap.length "formatted"
        = some (.string "[SyntaxError] Unexpected token %2 in %3%1.js:12(-1)") :=
  ⟨by decide, by decide,
   ((C24_checkScriptSyntax_formatted_message Example.baseEngine Example.percentProgram
     { global := 0 } (by decide)).2 (by decide)).2.1.trans (by decide)⟩

end Overte

namespace Overte

open ScriptEngineV8

/-! ## The callback of a registered function -/

/-- C25: a script call of the function made by `newFunction(fun, length)` reads back from
the two internal fields of its data exactly `fun` and the engine that made it, invokes
`fun` once, with that engine, and leaves as return value the unwrapped result of `fun`
when the result unwraps, `undefined` otherwise; no assertion fails. -/
theorem C25_callback_invokes_stored_function_once (natives : NativeFunctions)
    (s : ScriptEngineV8) (fn : FunctionSignature) (length : Int) :
    ∃ data, (s.newFunction fn length).1.heap[data]?
          = some { kind := .functionData fn s.self, properties := [] }
      ∧ callFunction natives (s.newFunction fn length).1.heap
            (ScriptValueV8Wrapper.fullUnwrap (s.newFunction fn length).2)
          = some
              { info :=
                  { Data := .object data
                    ReturnValue :=
                      match ScriptValueV8Wrapper.unwrap (natives fn s.self) with
                      | some unwrapped => unwrapped
                      | none => .undefined }
                invoked := [(fn, s.self)]
                failedAsserts := [] } := by
  have hheap : (s.newFunction fn length).1.heap
      = ((s.heap.alloc (.functionData fn s.self)).1.alloc
          (.function (s.heap.alloc (.functionData fn s.self)).2 length)).1 := rfl
  have hlen : (s.heap.alloc (.functionData fn s.self)).1.length = s.heap.length + 1 :=
    Heap.alloc_length _ _
  have h0 : (s.newFunction fn length).1.heap[s.heap.length]?
      = some { kind := .functionData fn s.self, properties := [] } := by
    rw [hheap, Heap.alloc_getElem?_lt _ _ _ (by rw [hlen]; exact Nat.lt_succ_self _),
      Heap.alloc_getElem?_new]
  have h1 : (s.newFunction fn length).1.heap[s.heap.length + 1]?
      = some { kind := .function s.heap.length length, properties := [] } := by
    rw [hheap, ← hlen, Heap.alloc_getElem?_new]
    rfl
  have hv : ScriptValueV8Wrapper.fullUnwrap (s.newFunction fn length).2
      = .object (s.heap.length + 1) := by
    show Value.object ((s.heap.alloc (.functionData fn s.self)).1.alloc _).2 = _
    rw [Heap.alloc_snd, hlen]
  refine ⟨s.heap.length, h0, ?_⟩
  rw [hv]
  simp only [callFunction, h1, v8FunctionCallback, h0]
  cases hr : ScriptValueV8Wrapper.unwrap (natives fn s.self) <;> rfl

end Overte

namespace Overte

open ScriptEngineV8

/-! ## Diagnostics: the member listing -/

theorem details_ne_not_an_object (a b : String) : a ++ " JSON: " ++ b ≠ " Is not an object" := by
  intro h
  have hJ : 'J' ∈ (a ++ " JSON: " ++ b).data := by
    simp [String.data_append]
  rw [h] at hJ
  exact absurd hJ (by decide)

/-- C26: `scriptValueDebugListMembers(value)` returns what `scriptValueDebugDetails(value)`
returns, the detail string and the JSON text of the value joined by " JSON: ", not the
member listing: for a value that is not an object the listing is " Is not an object" and
the function returns something else, whatever the runtime's text functions yield; for
the closure object `{a: 2, b: 3}` the listing is `["a","b"]` and the function returns
a detail string. -/
theorem C26_listMembers_returns_details (v8 : V8Text) (s : ScriptEngineV8)
    (value : ScriptValue) :
    s.scriptValueDebugListMembers v8 value = s.scriptValueDebugDetails v8 value
      ∧ s.scriptValueDebugListMembers v8 value
          = textOf (v8.ToDetailString s.heap (ScriptValueV8Wrapper.fullUnwrap value))
              ++ " JSON: "
              ++ textOf (v8.JSONStringify s.heap (ScriptValueV8Wrapper.fullUnwrap value))
      ∧ ((∀ object, ScriptValueV8Wrapper.fullUnwrap value ≠ .object object) →
          s.scriptValueDebugListMembers_spec v8 value = " Is not an object"
          ∧ s.scriptValueDebugListMembers v8 value
              ≠ s.scriptValueDebugListMembers_spec v8 value)
      ∧ Example.engineWithClosure.scriptValueDebugListMembers_spec Example.v8Text
          Example.closure = "[\"a\",\"b\"]"
      ∧ Example.engineWithClosure.scriptValueDebugListMembers Example.v8Text
          Example.closure = "[object Object] JSON: \x7b\x7d" := by
  refine ⟨rfl, rfl, fun hno => ?_, by decide, by decide⟩
  have hspec : s.scriptValueDebugListMembers_spec v8 value = " Is not an object" := by
    unfold scriptValueDebugListMembers_spec scriptValueDebugListMembersV8
    cases hv : ScriptValueV8Wrapper.fullUnwrap value with
    | object o => exact absurd hv (hno o)
    | _ => rfl
  refine ⟨hspec, ?_⟩
  rw [hspec]
  exact details_ne_not_an_object _ _

end Overte

namespace Overte

open ScriptEngineV8

/-! ## `evaluateInClosure`: the counter and the record of an earlier evaluation -/

theorem storeGlobalObjectContents_counter (s : ScriptEngineV8) :
    s.storeGlobalObjectContents._evaluatingCounter = s._evaluatingCounter := by
  unfold storeGlobalObjectContents
  split
  · rfl
  · split <;> rfl

theorem beforeClosureContext_getElem?_lt (s : ScriptEngineV8) (C o : ObjId)
    (hlt : o < s.heap.length) : (s.beforeClosureContext C).heap[o]? = s.heap[o]? := by
  have hstore : ({ s with _evaluatingCounter := s._evaluatingCounter + 1 } :
      ScriptEngineV8).storeGlobalObjectContents.heap[o]? = s.heap[o]? :=
    storeGlobalObjectContents_getElem?_lt _ o hlt
  have hlen : o < ({ s with _evaluatingCounter := s._evaluatingCounter + 1 } :
      ScriptEngineV8).storeGlobalObjectContents.heap.length :=
    Nat.lt_of_lt_of_le
      (show o < ({ s with _evaluatingCounter := s._evaluatingCounter + 1 } :
        ScriptEngineV8).heap.length from hlt)
      (storeGlobalObjectContents_length_le _)
  unfold beforeClosureContext
  simp only [assertFailed]
  rw [testObject_getElem?_lt _ _ o hlen, hstore]

/-- What `evaluateInClosure` returns, and the counter it leaves, on the owning thread, for
a closure object and a program that `compile()` rejects. -/
theorem evaluateInClosure_compile_failure (s : ScriptEngineV8) (C : ObjId)
    (p : ScriptProgramV8Wrapper) (context : ScriptContextV8Wrapper)
    (hcontext : s.getContext = some context) (hcompile : p.compile = false)
    (hglobal : ((s.beforeClosureContext C).heap.Get C "global").isSome) :
    (s.evaluateInClosure s.thread (.v8 (.object C)) (.v8 p)).2 = nullValue
      ∧ (s.evaluateInClosure s.thread (.v8 (.object C)) (.v8 p)).1._evaluatingCounter
          = s._evaluatingCounter + 1 := by
  have h1ctx : ({ s with _evaluatingCounter := s._evaluatingCounter + 1 } :
      ScriptEngineV8).storeGlobalObjectContents.getContext = some context := by
    unfold getContext
    rw [storeGlobalObjectContents_contexts]
    exact hcontext
  have h1cnt : ({ s with _evaluatingCounter := s._evaluatingCounter + 1 } :
      ScriptEngineV8).storeGlobalObjectContents._evaluatingCounter
        = s._evaluatingCounter + 1 :=
    storeGlobalObjectContents_counter _
  have hpop : ∀ x : ScriptEngineV8, x.popContext._evaluatingCounter
      = x._evaluatingCounter := by
    intro x; unfold popContext; split <;> rfl
  obtain ⟨v, hv⟩ := Option.isSome_iff_exists.mp hglobal
  unfold beforeClosureContext at hv
  unfold evaluateInClosure
  simp only [assertFailed] at hv ⊢
  generalize ({ s with _evaluatingCounter := s._evaluatingCounter + 1 } :
      ScriptEngineV8).storeGlobalObjectContents = s1 at h1ctx h1cnt hv ⊢
  simp only [IS_THREADSAFE_INVOCATION, if_true, Bool.not_true, Bool.false_eq_true, if_false,
    h1ctx, ScriptProgramV8Wrapper.unwrap, ScriptValueV8Wrapper.unwrap, hv, hcompile,
    Bool.not_false, hpop, enterClosureContext, pushContext, h1cnt]
  exact ⟨trivial, trivial⟩

/-- C27: on the owning thread, for a closure object and a program that `compile()`
rejects, `evaluateInClosure` returns the null sentinel with the evaluation counter one
above its value before the call: the path that follows the failed compilation pops the
context and returns without decrementing the counter, so that `isEvaluating()` stays
true after an outermost call. -/
theorem C27_compile_failure_leaves_counter_incremented (s : ScriptEngineV8) (C : ObjId)
    (p : ScriptProgramV8Wrapper) (context : ScriptContextV8Wrapper)
    (hcontext : s.getContext = some context) (hcompile : p.compile = false)
    (hC : C < s.heap.length) (hglobal : (s.heap.Get C "global").isSome) :
    (s.evaluateInClosure s.thread (.v8 (.object C)) (.v8 p)).2 = nullValue
      ∧ (s.evaluateInClosure s.thread (.v8 (.object C)) (.v8 p)).1._evaluatingCounter
          = s._evaluatingCounter + 1
      ∧ (s.evaluateInClosure s.thread (.v8 (.object C)) (.v8 p)).1._evaluatingCounter
          ≠ s._evaluatingCounter
      ∧ (s._evaluatingCounter = 0 →
          (s.evaluateInClosure s.thread (.v8 (.object C)) (.v8 p)).1.isEvaluating = true) := by
  obtain ⟨h1, h2⟩ := evaluateInClosure_compile_failure s C p context hcontext hcompile
    (by rw [Heap.Get_congr (beforeClosureContext_getElem?_lt s C C hC)]; exact hglobal)
  refine ⟨h1, h2, ?_, fun h0 => ?_⟩
  · rw [h2]; omega
  · unfold isEvaluating
    rw [h2, h0]
    decide

theorem C27_compile_failure_leaves_counter_incremented_witness :
    Example.engineWithClosure.getContext = some { global := 0 }
    ∧ Example.notCompilingProgram.compile = false
    ∧ Example.engineWithClosure._evaluatingCounter = 0
    ∧ (Example.engineWithClosure.evaluateInClosure Example.engineWithClosure.thread
          (.v8 (.object 1)) (.v8 Example.notCompilingProgram)).1._evaluatingCounter = 0 + 1
    ∧ (Example.engineWithClosure.evaluateInClosure Example.engineWithClosure.thread
          (.v8 (.object 1)) (.v8 Example.notCompilingProgram)).1.isEvaluating = true :=
  ⟨by decide, by decide, by decide,
   (C27_compile_failure_leaves_counter_incremented Example.engineWithClosure 1
     Example.notCompilingProgram { global := 0 } (by decide) (by decide) (by decide)
     (by decide)).2.1,
   (C27_compile_failure_leaves_counter_incremented Example.engineWithClosure 1
     Example.notCompilingProgram { global := 0 } (by decide) (by decide) (by decide)
     (by decide)).2.2.2 (by decide)⟩

/-- C28: on the owning thread, while the engine holds an exception record (left by an
earlier evaluation), `evaluateInClosure` of a closure object and a program that compiles
returns the null sentinel whatever the run yields: a run that completes with a result
other than null is not what the call returns. -/
theorem C28_earlier_record_turns_result_into_null (s : ScriptEngineV8) (C : ObjId)
    (p : ScriptProgramV8Wrapper) (context : ScriptContextV8Wrapper)
    (hcontext : s.getContext = some context) (hcompile : p.compile = true)
    (hC : C < s.heap.length) (hglobal : (s.heap.Get C "global").isSome)
    (hrecord : s.hasUncaughtException = true) :
    (s.evaluateInClosure s.thread (.v8 (.object C)) (.v8 p)).2 = nullValue
      ∧ ∀ v, (p.script.Run
            ((s.beforeClosureContext C).enterClosureContext.1.fillClosureGlobal
              (s.beforeClosureContext C).enterClosureContext.2 C).heap
            (s.beforeClosureContext C).enterClosureContext.2.global).result = some v →
          v ≠ .null →
          (s.evaluateInClosure s.thread (.v8 (.object C)) (.v8 p)).2 ≠ .v8 v := by
  have h := evaluateInClosure_result s C p context hcontext hcompile
    (by rw [Heap.Get_congr (beforeClosureContext_getElem?_lt s C C hC)]; exact hglobal)
  rw [hrecord, if_pos rfl] at h
  refine ⟨h, fun v _ hv => ?_⟩
  rw [h]
  intro e
  exact hv (by cases e; rfl)

theorem C28_earlier_record_turns_result_into_null_witness :
    Example.engineWithStaleException.getContext = some { global := 0 }
    ∧ Example.assigningProgram.compile = true
    ∧ Example.engineWithStaleException.hasUncaughtException = true
    ∧ (Example.engineWithClosure.evaluateInClosure 7 (.v8 (.object 1))
          (.v8 Example.assigningProgram)).2 = ScriptValue.v8 (.integer 7)
    ∧ (Example.engineWithStaleException.evaluateInClosure
          Example.engineWithStaleException.thread (.v8 (.object 1))
          (.v8 Example.assigningProgram)).2 = nullValue :=
  ⟨by decide, by decide, by decide, by decide,
   (C28_earlier_record_turns_result_into_null Example.engineWithStaleException 1
     Example.assigningProgram { global := 0 } (by decide) (by decide) (by decide) (by decide)
     (by decide)).1⟩

end Overte

namespace Overte

open ScriptEngineV8

/-! ## Diagnostics: memory statistics -/

/-- C29: `getMemoryUsageStatistics` reports as `totalHeapSize` the runtime's total
available size, not its total heap size; the four other fields are the figures of the
same meaning. -/
theorem C29_totalHeapSize_is_total_available_size (heapStatistics : HeapStatistics) :
    (getMemoryUsageStatistics heapStatistics).totalHeapSize
        = heapStatistics.total_available_size
      ∧ (heapStatistics.total_heap_size ≠ heapStatistics.total_available_size →
          (getMemoryUsageStatistics heapStatistics).totalHeapSize
            ≠ heapStatistics.total_heap_size)
      ∧ (getMemoryUsageStatistics heapStatistics).usedHeapSize = heapStatistics.used_heap_size
      ∧ (getMemoryUsageStatistics heapStatistics).totalAvailableSize
          = heapStatistics.total_available_size
      ∧ (getMemoryUsageStatistics heapStatistics).totalGlobalHandlesSize
          = heapStatistics.total_global_handles_size
      ∧ (getMemoryUsageStatistics heapStatistics).usedGlobalHandlesSize
          = heapStatistics.used_global_handles_size
      ∧ (getMemoryUsageStatistics Example.heapStatistics).totalHeapSize = 1073741824
      ∧ Example.heapStatistics.total_heap_size = 8388608 := by
  refine ⟨rfl, fun h e => h ?_, rfl, rfl, rfl, rfl, rfl, rfl⟩
  exact e.symm

end Overte

namespace Overte

open ToolbarButtonProxy

/-! ## `ToolbarButtonProxy::editProperties` -/

theorem QVariantMap.value_insert (m : QVariantMap) (key : String) (value : QVariant)
    (k : String) :
    QVariantMap.value (QVariantMap.insert m key value) k
      = if k = key then some value else QVariantMap.value m k := by
  induction m with
  | nil =>
    by_cases hk : k = key
    · subst hk; simp [QVariantMap.insert, QVariantMap.value, List.find?]
    · have hb : (key == k) = false := by simpa using (Ne.symm hk)
      simp [QVariantMap.insert, QVariantMap.value, List.find?, hb, hk]
  | cons e m ih =>
    unfold QVariantMap.insert
    by_cases he : e.1 = key
    · have hbe : (e.1 == key) = true := by simpa using he
      simp only [hbe, if_true]
      by_cases hk : k = key
      · subst hk; simp [QVariantMap.value, List.find?]
      · have hb : (key == k) = false := by simpa using (Ne.symm hk)
        have hb2 : (e.1 == k) = false := by simpa [he] using (Ne.symm hk)
        simp [QVariantMap.value, List.find?, hb, hb2, hk]
    · have hbe : (e.1 == key) = false := by simpa using he
      simp only [hbe, Bool.false_eq_true, if_false]
      by_cases hlt : key.data < e.1.data
      · simp only [hlt, if_true]
        by_cases hk : k = key
        · subst hk; simp [QVariantMap.value, List.find?]
        · have hb : (key == k) = false := by simpa using (Ne.symm hk)
          simp [QVariantMap.value, List.find?, hb, hk]
      · simp only [hlt, if_false]
        by_cases hek : e.1 = k
        · have hb : (e.1 == k) = true := by simpa using hek
          have hk : k ≠ key := fun h => he (hek.trans h)
          simp [QVariantMap.value, List.find?, hb, hk]
        · have hb : (e.1 == k) = false := by simpa using hek
          have ih' := ih
          simp only [QVariantMap.value] at ih' ⊢
          simp only [List.find?, hb]
          exact ih'

/-- The request that `editProperties` issues for one entry. -/
theorem editPropertiesLoop_frame (properties : List (String × QVariant)) :
    ∀ b : ToolbarButtonProxy,
      (editPropertiesLoop properties b).thread = b.thread
        ∧ (editPropertiesLoop properties b)._qmlButton = b._qmlButton
        ∧ (editPropertiesLoop properties b).postedCalls = b.postedCalls
        ∧ (editPropertiesLoop properties b).invoked
            = b.invoked ++
              (match b._qmlButton with
                | some qmlButton => properties.map (fun iter =>
                    { target := qmlButton, method := "changeProperty"
                      args := [.string iter.1, iter.2] })
                | none => []) := by
  induction properties with
  | nil => intro b; cases hq : b._qmlButton <;> simp [editPropertiesLoop, hq]
  | cons iter rest ih =>
    intro b
    cases hq : b._qmlButton with
    | none =>
      have h := ih { b with _properties := QVariantMap.insert b._properties iter.1 iter.2 }
      simp only [editPropertiesLoop, hq] at h ⊢
      exact h
    | some q =>
      have h := ih { b with
        _properties := QVariantMap.insert b._properties iter.1 iter.2
        invoked := b.invoked ++
          [{ target := q, method := "changeProperty", args := [.string iter.1, iter.2] }] }
      simp only [editPropertiesLoop, hq, List.map_cons] at h ⊢
      refine ⟨h.1, h.2.1, h.2.2.1, ?_⟩
      rw [h.2.2.2]
      simp

theorem editPropertiesLoop_value (properties : List (String × QVariant)) :
    ∀ b : ToolbarButtonProxy,
      (∀ k, k ∉ properties.map Prod.fst →
          QVariantMap.value (editPropertiesLoop properties b)._properties k
            = QVariantMap.value b._properties k)
        ∧ ((properties.map Prod.fst).Nodup → ∀ k v, (k, v) ∈ properties →
            QVariantMap.value (editPropertiesLoop properties b)._properties k = some v) := by
  induction properties with
  | nil =>
    intro b
    exact ⟨fun _ _ => rfl, fun _ k v h => absurd h (List.not_mem_nil _)⟩
  | cons iter rest ih =>
    intro b
    have hstep : ∀ b2 : ToolbarButtonProxy,
        b2._properties = QVariantMap.insert b._properties iter.1 iter.2 →
        (∀ k, k ∉ (iter :: rest).map Prod.fst →
            QVariantMap.value (editPropertiesLoop rest b2)._properties k
              = QVariantMap.value b._properties k)
          ∧ ((((iter :: rest).map Prod.fst)).Nodup → ∀ k v, (k, v) ∈ iter :: rest →
              QVariantMap.value (editPropertiesLoop rest b2)._properties k = some v) := by
      intro b2 hb2
      obtain ⟨ih1, ih2⟩ := ih b2
      refine ⟨fun k hk => ?_, fun hnd k v hmem => ?_⟩
      · have hk1 : k ≠ iter.1 := fun e => hk (by simp [e])
        have hk2 : k ∉ rest.map Prod.fst := fun m => hk (by simp at m ⊢; exact Or.inr m)
        rw [ih1 k hk2, hb2, QVariantMap.value_insert, if_neg hk1]
      · have hnd' : iter.1 ∉ rest.map Prod.fst ∧ (rest.map Prod.fst).Nodup := by
          simpa using hnd
        rcases List.mem_cons.mp hmem with heq | hrest
        · have hk : k = iter.1 := by rw [← heq]
          have hv : v = iter.2 := by rw [← heq]
          rw [hk, ih1 iter.1 hnd'.1, hb2, QVariantMap.value_insert, if_pos rfl, hv]
        · exact ih2 hnd'.2 k v hrest
    cases hq : b._qmlButton with
    | none =>
      simp only [editPropertiesLoop, hq]
      exact hstep _ rfl
    | some q =>
      simp only [editPropertiesLoop, hq]
      exact hstep _ rfl

/-- C30: `editProperties(properties)`, called on the proxy's own thread with a map (one
entry for each key), merges the map into the stored properties: afterwards every key of
the map has the map's value, every other key has the value it had, and the requests made
of the QML button are the earlier ones followed by one `changeProperty(key, value)` for
each entry of the map, in the order of the map, when a button is attached, and the earlier
ones alone when none is; nothing is queued. -/
theorem C30_editProperties_merges_and_notifies (b : ToolbarButtonProxy)
    (properties : QVariantMap) (hmap : (properties.map Prod.fst).Nodup) :
    (∀ k v, (k, v) ∈ properties →
        QVariantMap.value (b.editProperties b.thread properties)._properties k = some v)
      ∧ (∀ k, k ∉ properties.map Prod.fst →
          QVariantMap.value (b.editProperties b.thread properties)._properties k
            = QVariantMap.value b._properties k)
      ∧ (∀ qmlButton, b._qmlButton = some qmlButton →
          (b.editProperties b.thread properties).invoked
            = b.invoked ++ properties.map (fun iter =>
                { target := qmlButton, method := "changeProperty"
                  args := [.string iter.1, iter.2] }))
      ∧ (b._qmlButton = none →
          (b.editProperties b.thread properties).invoked = b.invoked)
      ∧ (b.editProperties b.thread properties).postedCalls = b.postedCalls := by
  have he : b.editProperties b.thread properties = editPropertiesLoop properties b := by
    simp [editProperties]
  obtain ⟨v1, v2⟩ := editPropertiesLoop_value properties b
  obtain ⟨_, _, f3, f4⟩ := editPropertiesLoop_frame properties b
  rw [he]
  refine ⟨v2 hmap, v1, fun q hq => ?_, fun hq => ?_, f3⟩
  · rw [f4, hq]
  · rw [f4, hq]; simp

theorem C30_editProperties_merges_and_notifies_witness :
    ([("text", QVariant.string "Go"), ("visible", QVariant.bool false)].map Prod.fst).Nodup
    ∧ QVariantMap.value (Example.button.editProperties Example.button.thread
          [("text", .string "Go"), ("visible", .bool false)])._properties "visible"
        = some (.bool false)
    ∧ QVariantMap.value (Example.button.editProperties Example.button.thread
          [("text", .string "Go"), ("visible", .bool false)])._properties "icon"
        = some (.string "a.svg")
    ∧ (Example.button.editProperties Example.button.thread
          [("text", .string "Go"), ("visible", .bool false)]).invoked
        = [{ target := 50, method := "changeProperty", args := [.string "text", .string "Go"] },
           { target := 50, method := "changeProperty"
             args := [.string "visible", .bool false] }] :=
  ⟨by decide,
   (C30_editProperties_merges_and_notifies Example.button
     [("text", .string "Go"), ("visible", .bool false)] (by decide)).1 "visible" (.bool false)
     (by decide),
   by decide, by decide⟩

end Overte

namespace Overte

namespace Realm

open ScriptEngineV8

/-! ## Reads and writes through the prototype chain -/

theorem prototypesOlderFrom_iff (os : List Object) : ∀ index : Nat,
    Heap.prototypesOlderFrom index os = true ↔
      ∀ (j : Nat) (o : Object), os[j]? = some o → ∀ parent, o.prototype = some parent →
        parent < index + j := by
  induction os with
  | nil => intro index; simp [Heap.prototypesOlderFrom]
  | cons o os ih =>
    intro index
    simp only [Heap.prototypesOlderFrom, Bool.and_eq_true, ih]
    constructor
    · rintro ⟨h0, hrest⟩ j c hj parent hp
      cases j with
      | zero =>
        simp only [List.getElem?_cons_zero, Option.some.injEq] at hj
        subst hj
        simp only [hp, decide_eq_true_eq] at h0
        exact h0
      | succ j =>
        simp only [List.getElem?_cons_succ] at hj
        have := hrest j c hj parent hp
        rw [Nat.add_assoc, Nat.add_comm 1 j] at this
        exact this
    · intro hall
      refine ⟨?_, ?_⟩
      · cases hp : o.prototype with
        | none => rfl
        | some parent =>
          have := hall 0 o (by simp) parent hp
          simpa using this
      · intro j c hj parent hp
        have := hall (j + 1) c (by simpa using hj) parent hp
        rw [Nat.add_assoc, Nat.add_comm 1 j]
        exact this

/-- In a heap where prototypes are older, a prototype has a smaller index than the
object that inherits from it. -/
theorem Heap.prototypesOlder_iff (h : Heap) :
    Heap.prototypesOlder h = true ↔
      ∀ (object : ObjId) (o : Object), h[object]? = some o → ∀ parent,
        o.prototype = some parent → parent < object := by
  unfold Heap.prototypesOlder
  rw [prototypesOlderFrom_iff]
  simp

/-- A read depends only on the object and on older cells. -/
theorem Heap.lookup_congr {h h' : Heap} (hwf : Heap.prototypesOlder h = true) (k : String) :
    ∀ (fuel : Nat) (o : ObjId), (∀ i, i ≤ o → h'[i]? = h[i]?) →
      Heap.lookup h' fuel o k = Heap.lookup h fuel o k := by
  intro fuel
  induction fuel with
  | zero => intro o _; rfl
  | succ fuel ih =>
    intro o hagree
    simp only [Heap.lookup]
    rw [hagree o (Nat.le_refl _)]
    cases ho : h[o]? with
    | none => rfl
    | some c =>
      simp only []
      cases hf : findProperty c.properties k with
      | some p => rfl
      | none =>
        cases hp : c.prototype with
        | none => rfl
        | some parent =>
          simp only []
          have hlt := (Heap.prototypesOlder_iff h).mp hwf o c ho parent hp
          exact ih parent (fun i hi => hagree i (Nat.le_trans hi (Nat.le_of_lt hlt)))

/-- The walk of a read ends before it has taken more steps than the index of the object
it starts from. -/
theorem Heap.lookup_fuel {h : Heap} (hwf : Heap.prototypesOlder h = true) (k : String) :
    ∀ (f1 f2 : Nat) (o : ObjId), o < f1 → o < f2 →
      Heap.lookup h f1 o k = Heap.lookup h f2 o k := by
  intro f1
  induction f1 with
  | zero => intro f2 o h1; exact absurd h1 (Nat.not_lt_zero _)
  | succ f1 ih =>
    intro f2 o h1 h2
    cases f2 with
    | zero => exact absurd h2 (Nat.not_lt_zero _)
    | succ f2 =>
      simp only [Heap.lookup]
      cases ho : h[o]? with
      | none => rfl
      | some c =>
        simp only []
        cases hf : findProperty c.properties k with
        | some p => rfl
        | none =>
          cases hp : c.prototype with
          | none => rfl
          | some parent =>
            simp only []
            have hlt := (Heap.prototypesOlder_iff h).mp hwf o c ho parent hp
            exact ih f2 parent (Nat.lt_of_lt_of_le hlt (Nat.le_of_lt_succ h1))
              (Nat.lt_of_lt_of_le hlt (Nat.le_of_lt_succ h2))

/-- A read of an object is the same in a heap that has the same cells up to that
object. -/
theorem Heap.lookup_stable {h h' : Heap} (hwf : Heap.prototypesOlder h = true) (k : String)
    (o : ObjId) (hlt : o < h.length) (hlen : h.length ≤ h'.length)
    (hagree : ∀ i, i ≤ o → h'[i]? = h[i]?) :
    Heap.lookup h' h'.length o k = Heap.lookup h h.length o k := by
  rw [Heap.lookup_congr hwf k _ o hagree]
  exact Heap.lookup_fuel hwf k _ _ o (Nat.lt_of_lt_of_le hlt hlen) hlt

theorem Heap.lookup_own (h : Heap) (fuel : Nat) (o : ObjId) (k : String) (c : Object)
    (p : Property) (ho : h[o]? = some c) (hf : findProperty c.properties k = some p) :
    Heap.lookup h (fuel + 1) o k = some (o, p) := by
  simp [Heap.lookup, ho, hf]

theorem Heap.lookup_inherited (h : Heap) (fuel : Nat) (o : ObjId) (k : String) (c : Object)
    (parent : ObjId) (ho : h[o]? = some c) (hf : findProperty c.properties k = none)
    (hp : c.prototype = some parent) :
    Heap.lookup h (fuel + 1) o k = Heap.lookup h fuel parent k := by
  simp [Heap.lookup, ho, hf, hp]

theorem Heap.length_pos_of_getElem? {h : Heap} {o : ObjId} {c : Object}
    (ho : h[o]? = some c) : o < h.length := by
  by_contra hge
  rw [List.getElem?_eq_none (Nat.le_of_not_lt hge)] at ho
  cases ho

/-- An own property is what a read finds. -/
theorem Heap.lookup_own_length (h : Heap) (o : ObjId) (k : String) (c : Object)
    (p : Property) (ho : h[o]? = some c) (hf : findProperty c.properties k = some p) :
    Heap.lookup h h.length o k = some (o, p) := by
  have hlt := Heap.length_pos_of_getElem? ho
  obtain ⟨n, hn⟩ : ∃ n, h.length = n + 1 :=
    ⟨h.length - 1, (Nat.sub_add_cancel (Nat.lt_of_le_of_lt (Nat.zero_le _) hlt)).symm⟩
  rw [hn]
  exact Heap.lookup_own h n o k c p ho hf

/-- A name that a read does not find is not an own property. -/
theorem Heap.findProperty_of_lookup_none (h : Heap) (o : ObjId) (k : String) (c : Object)
    (ho : h[o]? = some c) (hl : Heap.lookup h h.length o k = none) :
    findProperty c.properties k = none := by
  have hlt := Heap.length_pos_of_getElem? ho
  obtain ⟨n, hn⟩ : ∃ n, h.length = n + 1 :=
    ⟨h.length - 1, (Nat.sub_add_cancel (Nat.lt_of_le_of_lt (Nat.zero_le _) hlt)).symm⟩
  rw [hn] at hl
  simp only [Heap.lookup, ho] at hl
  cases hf : findProperty c.properties k with
  | none => rfl
  | some p => simp [hf] at hl

theorem Heap.dataRead_own (h : Heap) (o : ObjId) (k : String) (c : Object) (p : Property)
    (v : Value) (ho : h[o]? = some c) (hf : findProperty c.properties k = some p)
    (hs : p.slot = .data v) : Heap.dataRead h o k = some v := by
  simp [Heap.dataRead, Heap.lookup_own_length h o k c p ho hf, hs]

/-- A read that finds a data property, or nothing, runs no code. -/
theorem Heap.Get_of_dataRead (R : Runtime) (h : Heap) (o : ObjId) (k : String) (v : Value)
    (hd : Heap.dataRead h o k = some v) : Heap.Get R h o k = (h, some v) := by
  unfold Heap.dataRead at hd
  unfold Heap.Get
  cases hl : Heap.lookup h h.length o k with
  | none =>
    simp only [hl, Option.some.injEq] at hd
    rw [← hd]
  | some r =>
    obtain ⟨holder, p⟩ := r
    simp only [hl] at hd
    cases hs : p.slot with
    | data w =>
      simp only [hs, Option.some.injEq] at hd
      simp only [hs, hd]
    | accessor g s => simp [hs] at hd

theorem readPath_of_readData (R : Runtime) (h : Heap) :
    ∀ (path : List String) (o : ObjId) (v : Value), readData h o path = some v →
      readPath R h o path = some v := by
  intro path
  induction path with
  | nil => intro o v hr; simp [readData] at hr
  | cons p rest ih =>
    intro o v hr
    cases rest with
    | nil =>
      simp only [readData] at hr
      simp [readPath, Heap.Get_of_dataRead R h o p v hr]
    | cons q rest =>
      simp only [readData] at hr
      cases hd : Heap.dataRead h o p with
      | none => simp [hd] at hr
      | some w =>
        cases w with
        | object child =>
          simp only [hd] at hr
          simp only [readPath, Heap.Get_of_dataRead R h o p _ hd]
          exact ih child v hr
        | _ => simp [hd] at hr

theorem findProperty_eq_none_iff (ps : List Property) (k : String) :
    findProperty ps k = none ↔ k ∉ ps.map (fun p => p.key) := by
  unfold findProperty
  rw [List.find?_eq_none]
  simp only [List.mem_map, not_exists, not_and]
  constructor
  · intro hall p hp hk
    have := hall p hp
    simp [hk] at this
  · intro hall p hp
    have := hall p hp
    simpa using this

/-- A write of a name that a read does not find, to an extensible object, appends the
property. -/
theorem Heap.Set_absent (R : Runtime) (h : Heap) (o : ObjId) (k : String) (v : Value)
    (c : Object) (ho : h[o]? = some c) (hext : c.extensible = true)
    (hl : Heap.lookup h h.length o k = none) :
    Heap.Set R h o k v =
      (h.set o { c with properties :=
          c.properties ++ [{ key := k, slot := .data v, enumerable := true }] }, true) := by
  have hf := Heap.findProperty_of_lookup_none h o k c ho hl
  have hmem := (findProperty_eq_none_iff c.properties k).mp hf
  simp only [Heap.Set, ho, hl, Object.defineOwn, hf, hext, if_true,
    setProperty_of_not_mem c.properties k v hmem]

end Realm

end Overte

namespace Overte

namespace Realm

open ScriptEngineV8

/-! ## Registration by path -/

theorem findProperty_append_new (ps : List Property) (k : String) (p : Property)
    (hf : findProperty ps k = none) (hk : p.key = k) :
    findProperty (ps ++ [p]) k = some p := by
  unfold findProperty at hf ⊢
  rw [List.find?_append, hf]
  simp [List.find?, hk]

theorem findProperty_append_ne (ps : List Property) (k : String) (p : Property)
    (hk : p.key ≠ k) : findProperty (ps ++ [p]) k = findProperty ps k := by
  unfold findProperty
  rw [List.find?_append]
  have hb : (p.key == k) = false := by simpa using hk
  cases List.find? (fun p => p.key == k) ps <;> simp [List.find?, hb]

theorem Heap.prototypesOlder_append (h : Heap) (e : Object)
    (hwf : Heap.prototypesOlder h = true)
    (he : ∀ parent, e.prototype = some parent → parent < h.length) :
    Heap.prototypesOlder (h ++ [e]) = true := by
  rw [Heap.prototypesOlder_iff] at hwf ⊢
  intro o c hc parent hp
  by_cases hlt : o < h.length
  · rw [List.getElem?_append_left hlt] at hc
    exact hwf o c hc parent hp
  · have hlen := Heap.length_pos_of_getElem? hc
    rw [List.length_append, List.length_singleton] at hlen
    have ho : o = h.length := Nat.le_antisymm (Nat.le_of_lt_succ hlen) (Nat.le_of_not_lt hlt)
    subst ho
    rw [List.getElem?_append_right (Nat.le_refl _)] at hc
    simp only [Nat.sub_self, List.getElem?_cons_zero, Option.some.injEq] at hc
    subst hc
    exact he parent hp

theorem Heap.prototypesOlder_set (h : Heap) (o : ObjId) (c c' : Object)
    (hwf : Heap.prototypesOlder h = true) (ho : h[o]? = some c)
    (hp : c'.prototype = c.prototype) :
    Heap.prototypesOlder (h.set o c') = true := by
  rw [Heap.prototypesOlder_iff] at hwf ⊢
  intro i d hd parent hpar
  by_cases hio : i = o
  · subst hio
    rw [List.getElem?_set_self (Heap.length_pos_of_getElem? ho)] at hd
    simp only [Option.some.injEq] at hd
    subst hd
    exact hwf i c ho parent (by rw [← hp]; exact hpar)
  · rw [List.getElem?_set_ne (Ne.symm hio)] at hd
    exact hwf i d hd parent hpar

/-- The test of `registerValue` on a segment that a read does not find, with more
segments to come: a new object is bound to the segment. -/
theorem registerValueCreate_absent_object (R : Runtime) (ctx : ScriptContextV8Wrapper)
    (value : Value) (p : String) (n : Int) (obj : ObjId) (h : Heap) (c : Object)
    (hwf : Heap.prototypesOlder h = true) (hn : n > 0) (ho : h[obj]? = some c)
    (hext : c.extensible = true) (hl : Heap.lookup h h.length obj p = none) :
    registerValueCreate R ctx value p n obj h =
      ((h ++ [emptyObject ctx.objectPrototype]).set obj
          { c with properties := c.properties
              ++ [{ key := p, slot := .data (.object h.length), enumerable := true }] }, []) := by
  have hlt := Heap.length_pos_of_getElem? ho
  have hd : Heap.dataRead h obj p = some .undefined := by
    simp [Heap.dataRead, hl]
  have ho' : (h ++ [emptyObject ctx.objectPrototype])[obj]? = some c := by
    rw [List.getElem?_append_left hlt]; exact ho
  have hl' : Heap.lookup (h ++ [emptyObject ctx.objectPrototype])
      (h ++ [emptyObject ctx.objectPrototype]).length obj p = none := by
    rw [Heap.lookup_stable hwf p obj hlt (by simp)
      (fun i hi => List.getElem?_append_left (Nat.lt_of_le_of_lt hi hlt))]
    exact hl
  simp only [registerValueCreate, Heap.Get_of_dataRead R h obj p _ hd, Value.IsUndefined,
    if_true, hn, Heap.New, Heap.Set_absent R _ obj p _ c ho' hext hl']

/-- The test of `registerValue` on a last segment that a read does not find: the value
is bound to the segment. -/
theorem registerValueCreate_absent_leaf (R : Runtime) (ctx : ScriptContextV8Wrapper)
    (value : Value) (p : String) (n : Int) (obj : ObjId) (h : Heap) (c : Object)
    (hn : ¬ n > 0) (ho : h[obj]? = some c)
    (hext : c.extensible = true) (hl : Heap.lookup h h.length obj p = none) :
    registerValueCreate R ctx value p n obj h =
      (h.set obj { c with properties := c.properties
          ++ [{ key := p, slot := .data value, enumerable := true }] }, []) := by
  have hd : Heap.dataRead h obj p = some .undefined := by
    simp [Heap.dataRead, hl]
  simp only [registerValueCreate, Heap.Get_of_dataRead R h obj p _ hd, Value.IsUndefined,
    if_true, hn, if_false, Heap.Set_absent R _ obj p _ c ho hext hl]

/-- The test of `registerValue` on a segment that holds a value other than `undefined`:
nothing is written. -/
theorem registerValueCreate_bound (R : Runtime) (ctx : ScriptContextV8Wrapper)
    (value : Value) (p : String) (n : Int) (obj : ObjId) (h : Heap) (w : Value)
    (hd : Heap.dataRead h obj p = some w) (hw : w.IsUndefined = false) :
    registerValueCreate R ctx value p n obj h = (h, []) := by
  simp [registerValueCreate, Heap.Get_of_dataRead R h obj p _ hd, hw]

/-- The data property that was appended to an object is what a read of it finds. -/
theorem Heap.dataRead_set_appended (h : Heap) (obj : ObjId) (c : Object) (k : String)
    (v : Value) (hlt : obj < h.length) (hf : findProperty c.properties k = none) :
    Heap.dataRead (h.set obj { c with properties := c.properties
        ++ [{ key := k, slot := .data v, enumerable := true }] }) obj k = some v := by
  apply Heap.dataRead_own _ obj k _ { key := k, slot := .data v, enumerable := true } v
    (List.getElem?_set_self hlt)
  · exact findProperty_append_new _ _ _ hf rfl
  · rfl

theorem registerValueLoop_leaf_absent (R : Runtime) (ctx : ScriptContextV8Wrapper)
    (value : Value) (p : String) (obj : ObjId) (h : Heap) (c : Object)
    (ho : h[obj]? = some c) (hext : c.extensible = true)
    (hl : Heap.lookup h h.length obj p = none) :
    registerValueLoop R ctx value [p] 1 obj h =
      (h.set obj { c with properties := c.properties
          ++ [{ key := p, slot := .data value, enumerable := true }] }, []) := by
  have hlt := Heap.length_pos_of_getElem? ho
  have hf := Heap.findProperty_of_lookup_none h obj p c ho hl
  have hread := Heap.Get_of_dataRead R _ obj p value
    (Heap.dataRead_set_appended h obj c p value hlt hf)
  have hcreate := registerValueCreate_absent_leaf R ctx value p 0 obj h c
    (by decide) ho hext hl
  simp [registerValueLoop, hcreate, hread]

theorem registerValueLoop_step_absent (R : Runtime) (ctx : ScriptContextV8Wrapper)
    (value : Value) (p : String) (rest : List String) (n : Int) (obj : ObjId) (h : Heap)
    (c : Object) (hwf : Heap.prototypesOlder h = true) (hn : n - 1 > 0)
    (ho : h[obj]? = some c) (hext : c.extensible = true)
    (hl : Heap.lookup h h.length obj p = none) :
    registerValueLoop R ctx value (p :: rest) n obj h =
      registerValueLoop R ctx value rest (n - 1) h.length
        ((h ++ [emptyObject ctx.objectPrototype]).set obj
          { c with properties := c.properties
              ++ [{ key := p, slot := .data (.object h.length), enumerable := true }] }) := by
  have hlt := Heap.length_pos_of_getElem? ho
  have hf := Heap.findProperty_of_lookup_none h obj p c ho hl
  have hread := Heap.Get_of_dataRead R _ obj p (.object h.length)
    (Heap.dataRead_set_appended (h ++ [emptyObject ctx.objectPrototype]) obj c p
      (.object h.length) (by simp; exact Nat.lt_succ_of_lt hlt) hf)
  rw [registerValueLoop]
  simp only [registerValueCreate_absent_object R ctx value p (n - 1) obj h c hwf hn ho hext hl,
    hread, hn, if_true, List.nil_append]

theorem walkPath_of_readData (h : Heap) :
    ∀ (path : List String) (o : ObjId) (v : Value), readData h o path = some v →
      (walkPath h o path.dropLast).isSome = true := by
  intro path
  induction path with
  | nil => intro o v hr; simp [readData] at hr
  | cons p rest ih =>
    intro o v hr
    cases rest with
    | nil => simp [walkPath]
    | cons q rest =>
      simp only [readData] at hr
      cases hd : Heap.dataRead h o p with
      | none => simp [hd] at hr
      | some w =>
        cases w with
        | object child =>
          simp only [hd] at hr
          simp only [List.dropLast_cons₂, walkPath, hd]
          exact ih child v hr
        | _ => simp [hd] at hr

/-- The cells up to an object older than `obj` are the same after a new object has been
appended and `obj` has been replaced. -/
theorem getElem?_set_append_of_le (h : Heap) (e c' : Object) (obj older i : ObjId)
    (holder : older < obj) (hlt : obj < h.length) (hi : i ≤ older) :
    ((h ++ [e]).set obj c')[i]? = h[i]? := by
  have hne : obj ≠ i := Nat.ne_of_gt (Nat.lt_of_le_of_lt hi holder)
  rw [List.getElem?_set_ne hne,
    List.getElem?_append_left (Nat.lt_trans (Nat.lt_of_le_of_lt hi holder) hlt)]

/-- From an extensible object where a read does not find the first segment, when no
later segment is inherited from the context's `Object.prototype`, the loop of
`registerValue` builds the whole path: reading the path afterwards yields the value
through data properties, no assertion fails, and the objects that existed before, other
than the starting one, are as they were. -/
theorem registerValueLoop_creates_path (R : Runtime) (ctx : ScriptContextV8Wrapper)
    (value : Value) :
    ∀ (path : List String) (h : Heap) (obj : ObjId) (c : Object), path ≠ [] →
      Heap.prototypesOlder h = true → h[obj]? = some c → c.extensible = true →
      ctx.objectPrototype < obj →
      (∀ seg, path.head? = some seg → Heap.lookup h h.length obj seg = none) →
      (∀ seg ∈ path.tail, Heap.lookup h h.length ctx.objectPrototype seg = none) →
      (registerValueLoop R ctx value path (path.length : Nat) obj h).2 = [] ∧
      readData (registerValueLoop R ctx value path (path.length : Nat) obj h).1 obj path
        = some value ∧
      h.length ≤ (registerValueLoop R ctx value path (path.length : Nat) obj h).1.length ∧
      (∀ o, o < h.length → o ≠ obj →
        (registerValueLoop R ctx value path (path.length : Nat) obj h).1[o]? = h[o]?) ∧
      Heap.prototypesOlder (registerValueLoop R ctx value path (path.length : Nat) obj h).1
        = true := by
  intro path
  induction path with
  | nil => intro h obj c hne; exact absurd rfl hne
  | cons p rest ih =>
    intro h obj c _ hwf ho hext hOP hhead htail
    have hlt := Heap.length_pos_of_getElem? ho
    have hl := hhead p rfl
    have hf := Heap.findProperty_of_lookup_none h obj p c ho hl
    cases rest with
    | nil =>
      have e := registerValueLoop_leaf_absent R ctx value p obj h c ho hext hl
      simp only [List.length_singleton, Nat.cast_one] at *
      rw [e]
      refine ⟨rfl, ?_, by simp, ?_, ?_⟩
      · simp only [readData]
        exact Heap.dataRead_set_appended h obj c p value hlt hf
      · intro o _ hne
        exact List.getElem?_set_ne (Ne.symm hne)
      · exact Heap.prototypesOlder_set h obj c _ hwf ho rfl
    | cons q rest =>
      rw [registerValueLoop_step_absent R ctx value p (q :: rest) _ obj h c hwf
        (by rw [length_cast_pred]; simp only [List.length_cons]; push_cast; omega) ho hext hl,
        length_cast_pred]
      have hOPlt : ctx.objectPrototype < h.length := Nat.lt_trans hOP hlt
      have ho' : (h ++ [emptyObject ctx.objectPrototype])[obj]? = some c := by
        rw [List.getElem?_append_left hlt]; exact ho
      have hwf2 : Heap.prototypesOlder ((h ++ [emptyObject ctx.objectPrototype]).set obj
          { c with properties := c.properties
            ++ [{ key := p, slot := .data (.object h.length), enumerable := true }] }) = true :=
        Heap.prototypesOlder_set _ obj c _
          (Heap.prototypesOlder_append h _ hwf (fun parent hp => by
            simp only [emptyObject, plainObject, Option.some.injEq] at hp
            rw [← hp]; exact hOPlt)) ho' rfl
      have hlen2 : ((h ++ [emptyObject ctx.objectPrototype]).set obj
          { c with properties := c.properties
            ++ [{ key := p, slot := .data (.object h.length), enumerable := true }] }).length
          = h.length + 1 := by simp
      have hx : ((h ++ [emptyObject ctx.objectPrototype]).set obj
          { c with properties := c.properties
            ++ [{ key := p, slot := .data (.object h.length), enumerable := true }] })[h.length]?
          = some (emptyObject ctx.objectPrototype) := by
        rw [List.getElem?_set_ne (Nat.ne_of_lt hlt)]
        simp
      have hagree : ∀ i, i ≤ ctx.objectPrototype →
          ((h ++ [emptyObject ctx.objectPrototype]).set obj
            { c with properties := c.properties
              ++ [{ key := p, slot := .data (.object h.length), enumerable := true }] })[i]?
            = h[i]? :=
        fun i hi => getElem?_set_append_of_le h _ _ obj ctx.objectPrototype i hOP hlt hi
      have hhead2 : ∀ seg, (q :: rest).head? = some seg →
          Heap.lookup ((h ++ [emptyObject ctx.objectPrototype]).set obj
            { c with properties := c.properties
              ++ [{ key := p, slot := .data (.object h.length), enumerable := true }] })
            ((h ++ [emptyObject ctx.objectPrototype]).set obj
              { c with properties := c.properties
                ++ [{ key := p, slot := .data (.object h.length), enumerable := true }] }).length
            h.length seg = none := by
        intro seg hs
        rw [hlen2, Heap.lookup_inherited _ _ _ seg _ ctx.objectPrototype hx rfl rfl,
          Heap.lookup_congr hwf seg _ _ hagree]
        exact htail seg (by simpa using List.mem_of_mem_head? hs)
      have htail2 : ∀ seg ∈ (q :: rest).tail,
          Heap.lookup ((h ++ [emptyObject ctx.objectPrototype]).set obj
            { c with properties := c.properties
              ++ [{ key := p, slot := .data (.object h.length), enumerable := true }] })
            ((h ++ [emptyObject ctx.objectPrototype]).set obj
              { c with properties := c.properties
                ++ [{ key := p, slot := .data (.object h.length), enumerable := true }] }).length
            ctx.objectPrototype seg = none := by
        intro seg hs
        rw [Heap.lookup_stable hwf seg ctx.objectPrototype hOPlt (by rw [hlen2]; exact Nat.le_succ _)
          hagree]
        exact htail seg (by
          simp only [List.tail_cons] at hs ⊢
          exact List.mem_cons_of_mem _ hs)
      obtain ⟨i1, i2, i3, i4, i5⟩ := ih _ h.length (emptyObject ctx.objectPrototype) (by simp)
        hwf2 hx rfl hOPlt hhead2 htail2
      have hobj : (registerValueLoop R ctx value (q :: rest) ((q :: rest).length : Nat) h.length
          ((h ++ [emptyObject ctx.objectPrototype]).set obj
            { c with properties := c.properties
              ++ [{ key := p, slot := .data (.object h.length), enumerable := true }] })).1[obj]?
          = some { c with properties := c.properties
              ++ [{ key := p, slot := .data (.object h.length), enumerable := true }] } := by
        rw [i4 obj (by rw [hlen2]; exact Nat.lt_succ_of_lt hlt) (Nat.ne_of_lt hlt)]
        exact List.getElem?_set_self (by simp; exact Nat.lt_succ_of_lt hlt)
      refine ⟨i1, ?_, ?_, ?_, i5⟩
      · simp only [readData]
        rw [Heap.dataRead_own _ obj p _ _ (.object h.length) hobj
          (findProperty_append_new _ _ _ hf rfl) rfl]
        exact i2
      · rw [hlen2] at i3
        exact Nat.le_of_succ_le i3
      · intro o ho2 hne
        rw [i4 o (by rw [hlen2]; exact Nat.lt_succ_of_lt ho2) (Nat.ne_of_lt ho2),
          List.getElem?_set_ne (Ne.symm hne), List.getElem?_append_left ho2]

/-- From an object from which the path reads, through data properties, as a value other
than `undefined`, the loop of `registerValue` writes nothing and fails no assertion. -/
theorem registerValueLoop_reads_only (R : Runtime) (ctx : ScriptContextV8Wrapper)
    (value : Value) :
    ∀ (path : List String) (n : Int) (obj : ObjId) (h : Heap) (v : Value),
      n = ((path.length : Nat) : Int) → readData h obj path = some v →
      v.IsUndefined = false →
      registerValueLoop R ctx value path n obj h = (h, []) := by
  intro path
  induction path with
  | nil => intro n obj h v _ hr; simp [readData] at hr
  | cons p rest ih =>
    intro n obj h v hn hr hv
    cases rest with
    | nil =>
      simp only [readData] at hr
      have hz : n - 1 = 0 := by subst hn; simp
      rw [registerValueLoop]
      simp only [registerValueCreate_bound R ctx value p _ obj h v hr hv,
        Heap.Get_of_dataRead R h obj p v hr, hz]
      simp [registerValueLoop]
    | cons q rest =>
      simp only [readData] at hr
      cases hd : Heap.dataRead h obj p with
      | none => simp [hd] at hr
      | some w =>
        cases w with
        | object child =>
          simp only [hd] at hr
          have hpos : n - 1 > 0 := by
            subst hn; simp only [List.length_cons]; push_cast; omega
          have hn1 : n - 1 = (((q :: rest).length : Nat) : Int) := by
            subst hn; simp only [List.length_cons]; push_cast; omega
          rw [registerValueLoop]
          simp only [registerValueCreate_bound R ctx value p _ obj h (.object child) hd rfl,
            Heap.Get_of_dataRead R h obj p _ hd, hpos, if_true]
          rw [ih (n - 1) child h v hn1 hr hv]
          simp
        | _ => simp [hd] at hr

/-- What `registerValue` does on the owning thread when there is a current context. -/
theorem registerValue_loop (R : Runtime) (s : ScriptEngineV8) (P : String) (V : Value)
    (context : ScriptContextV8Wrapper) (hc : s.getContext = some context) :
    s.registerValue R s.thread P V =
      { s with
        heap := (registerValueLoop R context V (split P '.') ((split P '.').length : Nat)
          context.global s.heap).1
        failedAsserts := s.failedAsserts ++
          (registerValueLoop R context V (split P '.') ((split P '.').length : Nat)
            context.global s.heap).2 } := by
  simp [registerValue, hc]

end Realm

end Overte

namespace Overte

namespace Realm

open ScriptEngineV8

/-! ## Registration of an enum -/

/-- A name that an object does not have and its prototype does not have or inherit is
not found by a read of the object. -/
theorem Heap.lookup_child_none (h : Heap) (c parent : ObjId) (k : String) (cc : Object)
    (hwf : Heap.prototypesOlder h = true) (hc : h[c]? = some cc)
    (hf : findProperty cc.properties k = none) (hp : cc.prototype = some parent)
    (hl : Heap.lookup h h.length parent k = none) :
    Heap.lookup h h.length c k = none := by
  have hlt := Heap.length_pos_of_getElem? hc
  have hpc : parent < c := (Heap.prototypesOlder_iff h).mp hwf c cc hc parent hp
  obtain ⟨n, hn⟩ : ∃ n, h.length = n + 1 :=
    ⟨h.length - 1, (Nat.sub_add_cancel (Nat.lt_of_le_of_lt (Nat.zero_le _) hlt)).symm⟩
  have hlt' : c < n + 1 := by rw [← hn]; exact hlt
  rw [hn] at hl ⊢
  rw [Heap.lookup_inherited h n c k cc parent hc hf hp,
    Heap.lookup_fuel hwf k n (n + 1) parent
      (Nat.lt_of_lt_of_le hpc (Nat.le_of_lt_succ hlt'))
      (Nat.lt_trans hpc hlt')]
  exact hl

/-- `registerValue` of a two-segment path whose first segment the global object does not
have: a new object is bound to the first segment and the value is written to it under
the second. -/
theorem registerValueLoop_pair_absent (R : Runtime) (ctx : ScriptContextV8Wrapper)
    (value : Value) (a k : String) (g : ObjId) (h : Heap) (cg : Object)
    (hwf : Heap.prototypesOlder h = true) (hg : h[g]? = some cg)
    (hext : cg.extensible = true) (hOP : ctx.objectPrototype < g)
    (ha : Heap.lookup h h.length g a = none)
    (hk : Heap.lookup h h.length ctx.objectPrototype k = none) :
    registerValueLoop R ctx value [a, k] (([a, k].length : Nat) : Int) g h =
      (((h ++ [emptyObject ctx.objectPrototype]).set g
          { cg with properties := cg.properties
              ++ [{ key := a, slot := .data (.object h.length), enumerable := true }] }).set
          h.length
          (plainObject ctx.objectPrototype [{ key := k, slot := .data value, enumerable := true }]), []) := by
  have hlt := Heap.length_pos_of_getElem? hg
  have hn : ((([a, k].length : Nat) : Int) - 1 > 0) := by simp
  have h1 : ((([a, k].length : Nat) : Int) - 1) = 1 := by simp
  rw [registerValueLoop_step_absent R ctx value a [k] _ g h cg hwf hn hg hext ha, h1]
  have hx : ((h ++ [emptyObject ctx.objectPrototype]).set g
      { cg with properties := cg.properties
          ++ [{ key := a, slot := .data (.object h.length), enumerable := true }] })[h.length]?
      = some (emptyObject ctx.objectPrototype) := by
    rw [List.getElem?_set_ne (Nat.ne_of_lt hlt)]
    simp
  have hlen2 : ((h ++ [emptyObject ctx.objectPrototype]).set g
      { cg with properties := cg.properties
          ++ [{ key := a, slot := .data (.object h.length), enumerable := true }] }).length
      = h.length + 1 := by simp
  rw [registerValueLoop_leaf_absent R ctx value k h.length _ (emptyObject ctx.objectPrototype)
    hx rfl (by
      rw [hlen2, Heap.lookup_inherited _ _ _ k _ ctx.objectPrototype hx rfl rfl,
        Heap.lookup_congr hwf k _ _
          (fun i hi => getElem?_set_append_of_le h _ _ g ctx.objectPrototype i hOP hlt hi)]
      exact hk)]
  rfl

/-- `registerValue` of a two-segment path whose first segment holds an object that does
not have or inherit the second: the value is written to that object. -/
theorem registerValueLoop_pair_present (R : Runtime) (ctx : ScriptContextV8Wrapper)
    (value : Value) (a k : String) (g c : ObjId) (h : Heap) (cc : Object)
    (hcol : Heap.dataRead h g a = some (.object c)) (hc : h[c]? = some cc)
    (hext : cc.extensible = true) (hk : Heap.lookup h h.length c k = none) :
    registerValueLoop R ctx value [a, k] (([a, k].length : Nat) : Int) g h =
      (h.set c { cc with properties := cc.properties
          ++ [{ key := k, slot := .data value, enumerable := true }] }, []) := by
  have hn : ((([a, k].length : Nat) : Int) - 1 > 0) := by simp
  have h1 : ((([a, k].length : Nat) : Int) - 1) = 1 := by simp
  rw [registerValueLoop]
  simp only [registerValueCreate_bound R ctx value a _ g h (.object c) hcol rfl,
    Heap.Get_of_dataRead R h g a _ hcol, hn, if_true]
  rw [h1, registerValueLoop_leaf_absent R ctx value k c h cc hc hext hk]
  simp

/-- The first iteration of `registerEnum`, on a global object that does not have the
enum's name: a new object is bound to the name and holds the first constant. -/
theorem registerValue_first_constant (R : Runtime) (s : ScriptEngineV8) (enumName : String)
    (context : ScriptContextV8Wrapper) (cg : Object) (k : String × Int)
    (hc : s.getContext = some context) (hwf : Heap.prototypesOlder s.heap = true)
    (hg : s.heap[context.global]? = some cg) (hext : cg.extensible = true)
    (hOP : context.objectPrototype < context.global)
    (hname : '.' ∉ enumName.data) (hkdot : '.' ∉ k.1.data)
    (ha : Heap.lookup s.heap s.heap.length context.global enumName = none)
    (hk : Heap.lookup s.heap s.heap.length context.objectPrototype k.1 = none) :
    s.registerValue R s.thread (enumName ++ "." ++ k.1) (.integer k.2) =
      { s with
        heap := ((s.heap ++ [emptyObject context.objectPrototype]).set context.global
            { cg with properties := cg.properties
                ++ [{ key := enumName, slot := .data (.object s.heap.length),
                      enumerable := true }] }).set
            s.heap.length (plainObject context.objectPrototype [enumProperty k]) } := by
  rw [registerValue_loop R s _ _ context hc, split_dotted_pair enumName k.1 hname hkdot,
    registerValueLoop_pair_absent R context _ enumName k.1 context.global s.heap cg hwf hg hext
      hOP ha hk]
  simp [enumProperty]

/-- One iteration of `registerEnum` on an enum object that exists already: the constant
is appended to the object's properties. -/
theorem registerValue_next_constant (R : Runtime) (s : ScriptEngineV8) (enumName : String)
    (context : ScriptContextV8Wrapper) (c : ObjId) (cc : Object) (k : String × Int)
    (hc : s.getContext = some context)
    (hname : '.' ∉ enumName.data) (hkdot : '.' ∉ k.1.data)
    (hcol : Heap.dataRead s.heap context.global enumName = some (.object c))
    (hobj : s.heap[c]? = some cc) (hext : cc.extensible = true)
    (hk : Heap.lookup s.heap s.heap.length c k.1 = none) :
    s.registerValue R s.thread (enumName ++ "." ++ k.1) (.integer k.2) =
      { s with
        heap := s.heap.set c { cc with properties := cc.properties ++ [enumProperty k] } } := by
  rw [registerValue_loop R s _ _ context hc, split_dotted_pair enumName k.1 hname hkdot,
    registerValueLoop_pair_present R context _ enumName k.1 context.global c s.heap cc hcol
      hobj hext hk]
  simp [enumProperty]

/-- The iterations of `registerEnum` for the constants `todo`, on an enum object that
holds the constants `done` before them. -/
theorem registerEnumLoop_constants (R : Runtime) (enumName : String) (E : QMetaEnum)
    (context : ScriptContextV8Wrapper) (cg : Object) (c : ObjId) (t : QThread)
    (hname : '.' ∉ enumName.data) (hnd : (E.keys.map Prod.fst).Nodup)
    (hdots : ∀ k ∈ E.keys, '.' ∉ k.1.data) (hcg : context.global < c)
    (hOP : context.objectPrototype < context.global)
    (hcol : ∃ p, findProperty cg.properties enumName = some p ∧ p.slot = .data (.object c))
    (todo : List (String × Int)) :
    ∀ (done : List (String × Int)) (s : ScriptEngineV8), E.keys = done ++ todo →
      s.thread = t → s.getContext = some context →
      Heap.prototypesOlder s.heap = true →
      s.heap[context.global]? = some cg →
      s.heap[c]? = some (plainObject context.objectPrototype (done.map enumProperty)) →
      (∀ k ∈ E.keys,
        Heap.lookup s.heap s.heap.length context.objectPrototype k.1 = none) →
      (registerEnumLoop R t enumName E (List.range' done.length todo.length) s).heap[
          context.global]? = some cg ∧
        (registerEnumLoop R t enumName E (List.range' done.length todo.length) s).heap[c]?
          = some (plainObject context.objectPrototype (E.keys.map enumProperty)) ∧
        (registerEnumLoop R t enumName E (List.range' done.length todo.length) s).failedAsserts
          = s.failedAsserts := by
  obtain ⟨pcol, hpf, hps⟩ := hcol
  induction todo with
  | nil =>
    intro done s hk _ _ _ hg hobj _
    simp only [List.append_nil] at hk
    refine ⟨hg, ?_, rfl⟩
    rw [hk]
    exact hobj
  | cons k todo ih =>
    intro done s hk ht hc hwf hg hobj hkeys
    subst ht
    have hkmem : k ∈ E.keys := by rw [hk]; simp
    have hkey : E.key done.length = k.1 := by
      unfold QMetaEnum.key
      rw [hk, List.getElem?_append_right (Nat.le_refl _)]
      simp
    have hval : E.keyToValue k.1 = k.2 := QMetaEnum.keyToValue_of_mem E hnd k hkmem
    have hknew : k.1 ∉ (done.map enumProperty).map (fun p => p.key) := by
      rw [hk] at hnd
      simp only [List.map_append, List.map_cons, List.nodup_append, List.nodup_cons] at hnd
      intro hm
      simp only [List.map_map, List.mem_map, Function.comp] at hm
      obtain ⟨x, hx, hxk⟩ := hm
      exact hnd.2.2 (List.mem_map_of_mem Prod.fst hx) (by simp [← hxk, enumProperty])
    have hclt := Heap.length_pos_of_getElem? hobj
    have hlook : Heap.lookup s.heap s.heap.length c k.1 = none :=
      Heap.lookup_child_none s.heap c context.objectPrototype k.1 _ hwf hobj
        (findProperty_eq_none_of_not_mem _ _ hknew) rfl (hkeys k hkmem)
    have hread : Heap.dataRead s.heap context.global enumName = some (.object c) :=
      Heap.dataRead_own s.heap context.global enumName cg pcol _ hg hpf hps
    have hstep := registerValue_next_constant R s enumName context c _ k hc hname
      (hdots k hkmem) hread hobj rfl hlook
    simp only [List.length_cons, List.range'_succ, registerEnumLoop, hkey, hval]
    rw [hstep]
    have hwf2 : Heap.prototypesOlder (s.heap.set c
        (plainObject context.objectPrototype (done.map enumProperty ++ [enumProperty k]))) = true :=
      Heap.prototypesOlder_set s.heap c _ _ hwf hobj rfl
    have hagree : ∀ i, i ≤ context.objectPrototype →
        (s.heap.set c (plainObject context.objectPrototype (done.map enumProperty ++ [enumProperty k])))[i]? = s.heap[i]? :=
      fun i hi => List.getElem?_set_ne
        (Nat.ne_of_gt (Nat.lt_of_le_of_lt hi (Nat.lt_trans hOP hcg)))
    have hres := ih (done ++ [k])
      { s with
        heap := s.heap.set c
          (plainObject context.objectPrototype (done.map enumProperty ++ [enumProperty k])) }
      (by rw [hk]; simp) rfl hc hwf2
      (by
        show (s.heap.set c _)[context.global]? = some cg
        rw [List.getElem?_set_ne (Nat.ne_of_gt hcg)]; exact hg)
      (by
        show (s.heap.set c _)[c]? = _
        rw [List.getElem?_set_self hclt]
        simp)
      (by
        intro k' hk'
        show Heap.lookup (s.heap.set c _) (s.heap.set c _).length context.objectPrototype k'.1
          = none
        rw [Heap.lookup_stable hwf k'.1 context.objectPrototype
          (Nat.lt_trans (Nat.lt_trans hOP hcg) hclt) (by simp) hagree]
        exact hkeys k' hk')
    simp only [List.length_append, List.length_singleton] at hres
    exact hres

end Realm

end Overte

namespace Overte

namespace Realm

open ScriptEngineV8

/-! ## An object that inherits from an object without prototype -/

theorem Heap.Has_eq_false {h : Heap} {o : ObjId} {k : String} (hh : Heap.Has h o k = false) :
    Heap.lookup h h.length o k = none := by
  unfold Heap.Has at hh
  cases hl : Heap.lookup h h.length o k with
  | none => rfl
  | some r => simp [hl] at hh

end Realm

end Overte

namespace Overte

namespace Realm

open ScriptEngineV8

/-! ## The global object of a new context and the copy loops -/

theorem ContextNew_objectPrototype (R : Runtime) (h : Heap) :
    (ContextNew R h).2.objectPrototype = h.length := rfl

end Realm

end Overte

namespace Overte

namespace Realm

open ScriptEngineV8

/-- C5 (as stated, refuted).  On the engine as constructed, where nothing has been
registered, the global object (object 29) has no property `x`, own or inherited, and
`x` reads as `undefined`.  After
`registerValue("x.toString", 5)` the object bound to `x` (object 30) has no property of
its own: the registrar read the `toString` that the object inherits from
`Object.prototype` and wrote nothing, so that reading `x.toString` yields that function
(object 9), not 5.  Likewise `undefined` reads as `undefined` before and after
`registerValue("undefined", 5)`: the property is read-only and the write is dropped.  No
assertion fails in either call. -/
theorem C5_counterexample :
    Heap.Has Example.engine.heap 29 "x" = false ∧
      (Heap.Get Example.runtime Example.engine.heap 29 "x").2 = some .undefined ∧
      readPath Example.runtime
        (Example.engine.registerValue Example.runtime 7 "x.toString" (.integer 5)).heap 29
        (split "x.toString" '.') = some (.object 9) ∧
      ((Example.engine.registerValue Example.runtime 7 "x.toString" (.integer 5)).heap.getD 30
        (emptyObject 0)).properties = [] ∧
      (Example.engine.registerValue Example.runtime 7 "x.toString" (.integer 5)).failedAsserts
        = [] ∧
      (Heap.Get Example.runtime Example.engine.heap 29 "undefined").2 = some .undefined ∧
      readPath Example.runtime
        (Example.engine.registerValue Example.runtime 7 "undefined" (.integer 5)).heap 29
        (split "undefined" '.') = some .undefined ∧
      (Example.engine.registerValue Example.runtime 7 "undefined" (.integer 5)).failedAsserts
        = [] := by
  decide

/-- C5 (amended).  For every dotted path `P` and value `V`, on the owning thread, on a
global namespace in which no segment of `P` is bound yet in this sense: the global
object, which is extensible, has no property, own or inherited, called as the first
segment, and the context's `Object.prototype` has none called as a later segment (a new
object inherits none).  After `registerValue(P, V)`, reading `P` (walking the segments
of `P` split on `.` from the global object) yields `V`, every segment but the last is
bound to an object, and no assertion has failed.  (Prototypes are older than the
objects that inherit from them, `Object.prototype` older than the global object.) -/
theorem C5_registerValue_then_read_yields_value (R : Runtime) (s : ScriptEngineV8)
    (P : String) (V : Value) (context : ScriptContextV8Wrapper) (global : Object)
    (hc : s.getContext = some context) (hwf : Heap.prototypesOlder s.heap = true)
    (hOP : context.objectPrototype < context.global)
    (hg : s.heap[context.global]? = some global) (hext : global.extensible = true)
    (hfirst : ∀ seg, (split P '.').head? = some seg →
      Heap.Has s.heap context.global seg = false)
    (hrest : ∀ seg ∈ (split P '.').tail,
      Heap.Has s.heap context.objectPrototype seg = false) :
    readPath R (s.registerValue R s.thread P V).heap context.global (split P '.') = some V ∧
      (walkPath (s.registerValue R s.thread P V).heap context.global
        (split P '.').dropLast).isSome = true ∧
      (s.registerValue R s.thread P V).failedAsserts = s.failedAsserts := by
  obtain ⟨f1, f2, _, _, _⟩ := registerValueLoop_creates_path R context V (split P '.') s.heap
    context.global global (split_ne_nil P '.') hwf hg hext hOP
    (fun seg hs => Heap.Has_eq_false (hfirst seg hs))
    (fun seg hs => Heap.Has_eq_false (hrest seg hs))
  rw [registerValue_loop R s P V context hc]
  exact ⟨readPath_of_readData R _ _ _ _ f2, walkPath_of_readData _ _ _ _ f2,
    by simp [f1]⟩

/-- C5, witness: on the engine as constructed, `registerValue("x.y.z", "hi")` makes the
path `x.y.z` read as `"hi"`. -/
theorem C5_registerValue_then_read_yields_value_witness :
    readPath Example.runtime
        (Example.engine.registerValue Example.runtime 7 "x.y.z" (.string "hi")).heap 29
        (split "x.y.z" '.') = some (.string "hi") ∧
      (walkPath (Example.engine.registerValue Example.runtime 7 "x.y.z" (.string "hi")).heap 29
        (split "x.y.z" '.').dropLast).isSome = true ∧
      (Example.engine.registerValue Example.runtime 7 "x.y.z" (.string "hi")).failedAsserts
        = Example.engine.failedAsserts :=
  C5_registerValue_then_read_yields_value Example.runtime Example.engine "x.y.z"
    (.string "hi") { global := 29, objectPrototype := 0 }
    (Example.engine.heap.getD 29 (emptyObject 0))
    (by decide) (by decide) (by decide) (by decide) (by decide) (by decide) (by decide)

/-- On the owning thread, `registerValue` changes nothing when its loop neither writes
nor fails an assertion. -/
theorem registerValue_same (R : Runtime) (s : ScriptEngineV8) (P : String) (V : Value)
    (context : ScriptContextV8Wrapper) (hc : s.getContext = some context)
    (hnoop : registerValueLoop R context V (split P '.') ((split P '.').length : Nat)
      context.global s.heap = (s.heap, [])) :
    s.registerValue R s.thread P V = s := by
  rw [registerValue_loop R s P V context hc, hnoop]
  cases s
  simp

/-- C6 (as stated, refuted).  On the engine as constructed (global object 29):
with `V` the `undefined` value, after `registerValue("a", undefined)` the path `a` reads
as `undefined`, and a second `registerValue("a", 5)` changes the namespace: `a` then
reads as 5.  With `P` the read-only `undefined`, after `registerValue("undefined", 5)`
and a second `registerValue("undefined", 6)` the path reads as `undefined`, not as 5.
And where `p` is an accessor property of the global object whose getter returns
`undefined`, each call runs the setter: after `registerValue("p", 1)` the setter has
stored 1, after a second `registerValue("p", 2)` it has stored 2. -/
theorem C6_counterexample :
    readPath Example.runtime
        (Example.engine.registerValue Example.runtime 7 "a" .undefined).heap 29
        (split "a" '.') = some .undefined ∧
      (Example.engine.registerValue Example.runtime 7 "a" .undefined).registerValue
          Example.runtime 7 "a" (.integer 5)
        ≠ Example.engine.registerValue Example.runtime 7 "a" .undefined ∧
      readPath Example.runtime
        ((Example.engine.registerValue Example.runtime 7 "a" .undefined).registerValue
          Example.runtime 7 "a" (.integer 5)).heap 29 (split "a" '.') = some (.integer 5) ∧
      readPath Example.runtime
        ((Example.engine.registerValue Example.runtime 7 "undefined" (.integer 5)).registerValue
          Example.runtime 7 "undefined" (.integer 6)).heap 29 (split "undefined" '.')
        = some .undefined ∧
      Heap.dataRead
        (Example.engineWithAccessor.registerValue Example.hostRuntime 7 "p" (.integer 1)).heap
        29 "stored" = some (.integer 1) ∧
      Heap.dataRead
        ((Example.engineWithAccessor.registerValue Example.hostRuntime 7 "p"
          (.integer 1)).registerValue Example.hostRuntime 7 "p" (.integer 2)).heap
        29 "stored" = some (.integer 2) := by
  decide

/-- C6 (amended).  `registerValue` is first-write-wins where the path holds a value
other than `undefined`: for every dotted path `P` and all values `V` and `V2`, on the
owning thread, whenever after `registerValue(P, V)` the path `P` reads, through data
properties, as a value `v` other than `undefined`, a second `registerValue(P, V2)`
leaves the whole engine state, and with it the global namespace, unchanged, so that
reading `P` still yields `v`; and `v` is `V` when no segment of `P` was bound before the
first call (the global object, extensible, had no property called as the first segment,
and `Object.prototype` none called as a later one). -/
theorem C6_registerValue_first_write_wins (R : Runtime) (s : ScriptEngineV8) (P : String)
    (V V2 v : Value) (context : ScriptContextV8Wrapper)
    (hc : s.getContext = some context)
    (hread : readData (s.registerValue R s.thread P V).heap context.global (split P '.')
      = some v)
    (hv : v.IsUndefined = false) :
    (s.registerValue R s.thread P V).registerValue R s.thread P V2
        = s.registerValue R s.thread P V ∧
      readPath R ((s.registerValue R s.thread P V).registerValue R s.thread P V2).heap
        context.global (split P '.') = some v ∧
      (∀ global : Object, Heap.prototypesOlder s.heap = true →
        context.objectPrototype < context.global →
        s.heap[context.global]? = some global → global.extensible = true →
        (∀ seg, (split P '.').head? = some seg →
          Heap.Has s.heap context.global seg = false) →
        (∀ seg ∈ (split P '.').tail, Heap.Has s.heap context.objectPrototype seg = false) →
        v = V) := by
  have e1 := registerValue_loop R s P V context hc
  have hc1 : (s.registerValue R s.thread P V).getContext = some context := by
    rw [e1]; exact hc
  have ht1 : (s.registerValue R s.thread P V).thread = s.thread := by
    rw [e1]
  have hnoop := registerValueLoop_reads_only R context V2 (split P '.') _ context.global
    (s.registerValue R s.thread P V).heap v rfl hread hv
  have hsame : (s.registerValue R s.thread P V).registerValue R s.thread P V2
      = s.registerValue R s.thread P V := by
    have := registerValue_same R (s.registerValue R s.thread P V) P V2 context hc1 hnoop
    rw [ht1] at this
    exact this
  refine ⟨hsame, ?_, ?_⟩
  · rw [hsame]
    exact readPath_of_readData R _ _ _ _ hread
  · intro global hwf hOP hg hext hfirst hrest
    obtain ⟨_, f2, _, _, _⟩ := registerValueLoop_creates_path R context V (split P '.') s.heap
      context.global global (split_ne_nil P '.') hwf hg hext hOP
      (fun seg hs => Heap.Has_eq_false (hfirst seg hs))
      (fun seg hs => Heap.Has_eq_false (hrest seg hs))
    rw [e1] at hread
    simp only [] at hread
    rw [f2] at hread
    exact (Option.some.inj hread).symm

/-- C6, witness: after `registerValue("x.y", 1)` on the engine as constructed, a second
`registerValue("x.y", 2)` changes nothing, and `x.y` still reads as 1. -/
theorem C6_registerValue_first_write_wins_witness :
    readData (Example.engine.registerValue Example.runtime 7 "x.y" (.integer 1)).heap 29
        (split "x.y" '.') = some (.integer 1) ∧
      (Example.engine.registerValue Example.runtime 7 "x.y" (.integer 1)).registerValue
          Example.runtime 7 "x.y" (.integer 2)
        = Example.engine.registerValue Example.runtime 7 "x.y" (.integer 1) ∧
      readPath Example.runtime
        ((Example.engine.registerValue Example.runtime 7 "x.y" (.integer 1)).registerValue
          Example.runtime 7 "x.y" (.integer 2)).heap 29 (split "x.y" '.')
        = some (.integer 1) :=
  ⟨by decide,
    (C6_registerValue_first_write_wins Example.runtime Example.engine "x.y" (.integer 1)
      (.integer 2) (.integer 1) { global := 29, objectPrototype := 0 }
      (by decide) (by decide) (by decide)).1,
    (C6_registerValue_first_write_wins Example.runtime Example.engine "x.y" (.integer 1)
      (.integer 2) (.integer 1) { global := 29, objectPrototype := 0 }
      (by decide) (by decide) (by decide)).2.1⟩

end Realm

end Overte

namespace Overte

namespace Realm

open ScriptEngineV8

/-- C8 (as stated, refuted).  On the engine as constructed (global object 29) `Color` is
unbound.  The valid descriptor with the three constants `Red = 0`, `toString = 1` and
`Blue = 4` leaves, after `registerEnum("Color", E)`, the object `Color` (object 30) with
two properties, `Red` and `Blue`: for `Color.toString` the registrar read the function
that the new object inherits from `Object.prototype` (object 9) and wrote nothing, and
that function is what `Color.toString` reads as.  And a valid descriptor without
constants changes nothing: `Color` stays unbound, no object is made. -/
theorem C8_counterexample :
    Heap.Has Example.engine.heap 29 "Color" = false ∧
      QMetaEnum.isValid { valid := true, keys := [("Red", 0), ("toString", 1), ("Blue", 4)] }
        = true ∧
      QMetaEnum.keyCount { valid := true, keys := [("Red", 0), ("toString", 1), ("Blue", 4)] }
        = 3 ∧
      Heap.dataRead (Example.engine.registerEnum Example.runtime 7 "Color"
          { valid := true, keys := [("Red", 0), ("toString", 1), ("Blue", 4)] }).heap 29 "Color"
        = some (.object 30) ∧
      (Example.engine.registerEnum Example.runtime 7 "Color"
          { valid := true, keys := [("Red", 0), ("toString", 1), ("Blue", 4)] }).heap[30]?
        = some (plainObject 0 [enumProperty ("Red", 0), enumProperty ("Blue", 4)]) ∧
      readPath Example.runtime (Example.engine.registerEnum Example.runtime 7 "Color"
          { valid := true, keys := [("Red", 0), ("toString", 1), ("Blue", 4)] }).heap 29
          ["Color", "toString"]
        = some (.object 9) ∧
      Example.engine.registerEnum Example.runtime 7 "Color" { valid := true, keys := [] }
        = Example.engine := by
  decide

/-- C8 (amended).  For every valid enum descriptor `E` whose `N` constants have distinct
names without dots, none of them the name of a property that the context's
`Object.prototype` has (a new object inherits none of them), on the owning thread and on
a global object, extensible, that has no property, own or inherited, called as the
enum's name (`Color`, or any name without a dot): after `registerEnum(name, E)` with
`N > 0` the name is bound to an object that has exactly the `N` properties of `E`, one
per constant and in their order, each an integer equal to the constant's value; with
`N = 0` nothing is registered and the name stays unbound; no assertion fails; and
`registerEnum` with an invalid descriptor changes nothing.  (Prototypes are older than
the objects that inherit from them, `Object.prototype` older than the global object.) -/
theorem C8_registerEnum_registers_each_constant (R : Runtime) (s : ScriptEngineV8)
    (enumName : String) (E : QMetaEnum) (context : ScriptContextV8Wrapper) (global : Object)
    (hc : s.getContext = some context) (hwf : Heap.prototypesOlder s.heap = true)
    (hOP : context.objectPrototype < context.global)
    (hg : s.heap[context.global]? = some global) (hext : global.extensible = true)
    (hname : '.' ∉ enumName.data) (hvalid : E.isValid = true)
    (hnd : (E.keys.map Prod.fst).Nodup) (hdots : ∀ k ∈ E.keys, '.' ∉ k.1.data)
    (hfresh : Heap.Has s.heap context.global enumName = false)
    (hkeys : ∀ k ∈ E.keys, Heap.Has s.heap context.objectPrototype k.1 = false) :
    (E.keys ≠ [] →
        ∃ c, Heap.dataRead (s.registerEnum R s.thread enumName E).heap context.global enumName
            = some (.object c) ∧
          (s.registerEnum R s.thread enumName E).heap[c]?
            = some (plainObject context.objectPrototype (E.keys.map enumProperty)) ∧
          (E.keys.map enumProperty).length = E.keyCount) ∧
      (E.keys = [] → s.registerEnum R s.thread enumName E = s) ∧
      (s.registerEnum R s.thread enumName E).failedAsserts = s.failedAsserts ∧
      (∀ E' : QMetaEnum, E'.isValid = false → s.registerEnum R s.thread enumName E' = s) := by
  have hrun : s.registerEnum R s.thread enumName E =
      registerEnumLoop R s.thread enumName E (List.range' 0 E.keys.length) s := by
    simp [registerEnum, hvalid, hc, QMetaEnum.keyCount, List.range_eq_range']
  have hinvalid : ∀ E' : QMetaEnum, E'.isValid = false →
      s.registerEnum R s.thread enumName E' = s := by
    intro E' hE'
    simp [registerEnum, hE']
  cases hks : E.keys with
  | nil =>
    have hs : s.registerEnum R s.thread enumName E = s := by
      rw [hrun, hks]; rfl
    exact ⟨fun h => absurd rfl h, fun _ => hs, by rw [hs], hinvalid⟩
  | cons k todo =>
    have hlt := Heap.length_pos_of_getElem? hg
    have hOPlt : context.objectPrototype < s.heap.length := Nat.lt_trans hOP hlt
    have hkmem : k ∈ E.keys := by rw [hks]; simp
    have hkey : E.key 0 = k.1 := by simp [QMetaEnum.key, hks]
    have hval : E.keyToValue k.1 = k.2 := QMetaEnum.keyToValue_of_mem E hnd k hkmem
    have hfind : findProperty global.properties enumName = none :=
      Heap.findProperty_of_lookup_none s.heap context.global enumName global hg
        (Heap.Has_eq_false hfresh)
    have hfirst := registerValue_first_constant R s enumName context global k hc hwf hg hext
      hOP hname (hdots k hkmem) (Heap.Has_eq_false hfresh) (Heap.Has_eq_false (hkeys k hkmem))
    have hloop : s.registerEnum R s.thread enumName E =
        registerEnumLoop R s.thread enumName E (List.range' [k].length todo.length)
          (s.registerValue R s.thread (enumName ++ "." ++ k.1) (.integer k.2)) := by
      rw [hrun, hks]
      simp only [List.length_cons, List.range'_succ, registerEnumLoop, hkey, hval,
        List.length_nil]
    have hwf1 : Heap.prototypesOlder (s.heap ++ [emptyObject context.objectPrototype]) = true :=
      Heap.prototypesOlder_append s.heap _ hwf (fun parent hp => by
        simp only [emptyObject, plainObject, Option.some.injEq] at hp
        rw [← hp]; exact hOPlt)
    have hg1 : (s.heap ++ [emptyObject context.objectPrototype])[context.global]? = some global := by
      rw [List.getElem?_append_left hlt]; exact hg
    have hwf2 := Heap.prototypesOlder_set _ context.global global
      { global with properties := global.properties
          ++ [{ key := enumName, slot := .data (.object s.heap.length), enumerable := true }] }
      hwf1 hg1 rfl
    have hx2 : ((s.heap ++ [emptyObject context.objectPrototype]).set context.global
        { global with properties := global.properties
            ++ [{ key := enumName, slot := .data (.object s.heap.length),
                  enumerable := true }] })[s.heap.length]?
        = some (emptyObject context.objectPrototype) := by
      rw [List.getElem?_set_ne (Nat.ne_of_lt hlt)]
      simp
    have hwf3 := Heap.prototypesOlder_set _ s.heap.length _
      (plainObject context.objectPrototype [enumProperty k]) hwf2 hx2 rfl
    have hrest := registerEnumLoop_constants R enumName E context
      { global with properties := global.properties
          ++ [{ key := enumName, slot := .data (.object s.heap.length), enumerable := true }] }
      s.heap.length s.thread hname hnd hdots hlt hOP
      ⟨_, findProperty_append_new _ _ _ hfind rfl, rfl⟩ todo [k]
      (s.registerValue R s.thread (enumName ++ "." ++ k.1) (.integer k.2))
      (by rw [hks]; rfl) (by rw [hfirst]) (by rw [hfirst]; exact hc)
      (by rw [hfirst]; exact hwf3)
      (by
        rw [hfirst]
        show (((s.heap ++ [emptyObject context.objectPrototype]).set context.global _).set
          s.heap.length _)[context.global]? = _
        rw [List.getElem?_set_ne (Nat.ne_of_gt hlt)]
        exact List.getElem?_set_self (by simp; exact Nat.lt_succ_of_lt hlt))
      (by
        rw [hfirst]
        show (((s.heap ++ [emptyObject context.objectPrototype]).set context.global _).set
          s.heap.length _)[s.heap.length]? = _
        rw [List.getElem?_set_self (by simp)]
        rfl)
      (by
        intro k' hk'
        rw [hfirst]
        show Heap.lookup (((s.heap ++ [emptyObject context.objectPrototype]).set
            context.global _).set s.heap.length _)
          (((s.heap ++ [emptyObject context.objectPrototype]).set context.global _).set
            s.heap.length _).length context.objectPrototype k'.1 = none
        rw [Heap.lookup_stable hwf k'.1 context.objectPrototype hOPlt (by simp)
          (fun i hi => by
            rw [List.getElem?_set_ne (Nat.ne_of_gt (Nat.lt_of_le_of_lt hi hOPlt))]
            exact getElem?_set_append_of_le s.heap _ _ context.global
              context.objectPrototype i hOP hlt hi)]
        exact Heap.Has_eq_false (hkeys k' hk'))
    rw [hloop, ← hks]
    obtain ⟨q1, q2, q3⟩ := hrest
    refine ⟨fun _ => ⟨s.heap.length, ?_, q2, by simp [QMetaEnum.keyCount]⟩, ?_, ?_, hinvalid⟩
    · exact Heap.dataRead_own _ context.global enumName _ _ _ q1
        (findProperty_append_new _ _ _ hfind rfl) rfl
    · intro he
      rw [hks] at he
      cases he
    · rw [q3, hfirst]

/-- C8, witness: `registerEnum("Color", E)` for `E` with the constants `Red = 0`,
`Green = 1` and `Blue = 4`, on the engine as constructed. -/
theorem C8_registerEnum_registers_each_constant_witness :
    ∃ c, Heap.dataRead (Example.engine.registerEnum Example.runtime 7 "Color"
          { valid := true, keys := [("Red", 0), ("Green", 1), ("Blue", 4)] }).heap 29 "Color"
          = some (.object c) ∧
        (Example.engine.registerEnum Example.runtime 7 "Color"
          { valid := true, keys := [("Red", 0), ("Green", 1), ("Blue", 4)] }).heap[c]?
          = some (plainObject 0 ([("Red", 0), ("Green", 1), ("Blue", 4)].map enumProperty)) ∧
        ([("Red", (0 : Int)), ("Green", 1), ("Blue", 4)].map enumProperty).length = 3 :=
  (C8_registerEnum_registers_each_constant Example.runtime Example.engine "Color"
    { valid := true, keys := [("Red", 0), ("Green", 1), ("Blue", 4)] }
    { global := 29, objectPrototype := 0 } (Example.engine.heap.getD 29 (emptyObject 0))
    (by decide) (by decide) (by decide) (by decide) (by decide) (by decide) (by decide)
    (by decide) (by decide) (by decide) (by decide)).1 (by decide)

end Realm

end Overte

namespace Overte

namespace Realm

open ScriptEngineV8

end Realm

end Overte
